import Mathlib

/-! # kubechaos: a shallow embedding of the chaos campaign engine

The definitions follow `main.go` and `chaos_types.go`.

* Go slices are Lean lists, Go `int` values are `Int`.
* A Go run-time panic is the `Except.error` of a `Panic`.
* The cluster, the exec transport, the clock and the random source are
  oracles collected in a `World`; what a function does to them (API calls and
  printed lines) is returned as a list of `Event`s, in program order.
-/

set_option autoImplicit false

namespace Kubechaos

/-! ## Run-time panics and the random source -/

/-- Run-time panics of the Go code that the embedding can reach. -/
inductive Panic where
  /-- `rand.Intn(n)` with `n <= 0`. -/
  | intnNonPositive
  /-- An index or slice expression out of range. -/
  | indexOutOfRange
  /-- The call `make([]T, 0, n)` with `n < 0`. -/
  | makesliceCap
  /-- An explicit `panic(msg)` of the program. -/
  | explicit (msg : String)
  deriving DecidableEq, Repr

/-- `rand.Intn(n)` of `math/rand`: panics when `n <= 0`, and otherwise
returns a value in `[0, n)`.  The value is the raw draw `raw` of the random
source reduced modulo `n`; every value `r < n` is returned for the raw draw
`r` itself, so every sequence of values the library can return is covered by
a sequence of raw draws. -/
def Intn (raw : Nat) (n : Int) : Except Panic Nat :=
  if n ≤ 0 then .error Panic.intnNonPositive else .ok (raw % n.toNat)

/-! ## `selectRandomPods` (main.go) -/

/-- The loop `for i := 0; i < count; i++` of `selectRandomPods`, with
`remaining = count - i` iterations still to run.  `draws i` is the raw value
behind the call of `rand.Intn` in iteration `i`.  The element type is generic:
the code never inspects a pod. -/
def selectLoop {α : Type} (draws : Nat → Nat) :
    Nat → Nat → List α → List α → Except Panic (List α)
  | 0, _, _, selected => .ok selected
  | remaining + 1, i, podCopy, selected =>
    match Intn (draws i) (podCopy.length : Int) with
    | .error e => .error e
    | .ok randomIndex =>
      -- selected = append(selected, podCopy[randomIndex])
      match podCopy[randomIndex]? with
      | none => .error Panic.indexOutOfRange
      | some pod =>
        -- podCopy = append(podCopy[:randomIndex], podCopy[randomIndex+1:]...)
        selectLoop draws remaining (i + 1)
          (podCopy.take randomIndex ++ podCopy.drop (randomIndex + 1))
          (selected ++ [pod])

/-- The function `selectRandomPods(pods, count)`. -/
def selectRandomPods {α : Type} (draws : Nat → Nat) (pods : List α) (count : Int) :
    Except Panic (List α) :=
  if count ≥ (pods.length : Int) then .ok pods
  else if count < 0 then
    -- selected := make([]v1.Pod, 0, count)
    .error Panic.makesliceCap
  else selectLoop draws count.toNat 0 pods []

/-! ## Integers, formatting and durations -/

/-- Go's `int` is a 64-bit two's complement integer: the result of an
arithmetic operation is reduced into `[-2^63, 2^63)`. -/
def wrapInt (x : Int) : Int := (x + 2 ^ 63) % 2 ^ 64 - 2 ^ 63

/-- The product `a * b` of two Go `int` values. -/
def mulInt (a b : Int) : Int := wrapInt (a * b)

/-- The quotient `a / b` of two Go `int` values, which truncates toward zero
(`b` is the constant 2 wherever the program divides). -/
def divInt (a b : Int) : Int := Int.tdiv a b

/-- The verb `%d` of `fmt.Sprintf`: decimal digits, with a leading `-` for a
negative value. -/
def fmtD (n : Int) : String :=
  if n < 0 then "-" ++ Nat.repr n.natAbs else Nat.repr n.toNat

/-- A `time.Duration`: a count of nanoseconds. -/
abbrev Duration := Int

/-- Helper `fmtFrac` of Go's package `time` (standard library, not part of the
repository): formats the low `prec` decimal digits of `v` as a fraction in
front of `acc`, omitting trailing zeros, and returns `v / 10^prec`. -/
def fmtFrac : Nat → Nat → Bool → List Char → List Char × Nat
  | 0, v, print, acc => (if print then '.' :: acc else acc, v)
  | prec + 1, v, print, acc =>
    let digit := v % 10
    let print := print || digit != 0
    fmtFrac prec (v / 10) print (if print then Nat.digitChar digit :: acc else acc)

/-- The method `Duration.String` of Go's package `time` (standard library,
not part of the repository), such as `30s`, `2m0s`, `1h0m0s`, `1.5s`,
`100ms`. -/
def Duration.String (d : Duration) : String :=
  let u := d.natAbs
  let body : List Char :=
    if u < 1000000000 then
      if u = 0 then ['0', 's']
      else if u < 1000 then
        let r := fmtFrac 0 u false ['n', 's']
        Nat.toDigits 10 r.2 ++ r.1
      else if u < 1000000 then
        let r := fmtFrac 3 u false ['µ', 's']
        Nat.toDigits 10 r.2 ++ r.1
      else
        let r := fmtFrac 6 u false ['m', 's']
        Nat.toDigits 10 r.2 ++ r.1
    else
      let r := fmtFrac 9 u false ['s']
      let secs := Nat.toDigits 10 (r.2 % 60) ++ r.1
      let m := r.2 / 60
      if m > 0 then
        let mins := Nat.toDigits 10 (m % 60) ++ 'm' :: secs
        let h := m / 60
        if h > 0 then Nat.toDigits 10 h ++ 'h' :: mins else mins
      else secs
  String.mk (if d < 0 then '-' :: body else body)

/-! ## Command synthesis (chaos_types.go) -/

/-- The type `StressCommandType`, a Go string type. -/
abbrev StressCommandType := String

def StressCommandCPU : StressCommandType := "cpu"
def StressCommandMemory : StressCommandType := "memory"
def StressCommandIO : StressCommandType := "io"
def StressCommandMixed : StressCommandType := "mixed"

/-- The provisioning stage `baseCmd` of `generateStressCommand`. -/
def baseCmd : String :=
  "for i in 1 2 3; do " ++
  "if command -v apk >/dev/null 2>&1; then " ++
  "apk add --no-cache stress-ng && break; " ++
  "elif command -v apt-get >/dev/null 2>&1; then " ++
  "apt-get update && apt-get install -y stress-ng && break; " ++
  "elif command -v yum >/dev/null 2>&1; then " ++
  "yum install -y stress-ng && break; " ++
  "else " ++
  "echo 'No package manager found, using built-in stress'; " ++
  "break; " ++
  "fi; " ++
  "sleep 2; " ++
  "done && "

/-- The opening of the execution stage: the run-time test for the stress tool. -/
def stressCmdHead : String := "if command -v stress-ng >/dev/null 2>&1; then "

/-- The then-branch for the CPU kind (and for an unrecognised kind):
`fmt.Sprintf("stress-ng --cpu %d --timeout %s", intensity*2, duration.String())`. -/
def cpuInvocation (intensity : Int) (duration : Duration) : String :=
  "stress-ng --cpu " ++ fmtD (mulInt intensity 2) ++ " --timeout " ++ Duration.String duration

/-- The else-branch for the CPU kind (and for an unrecognised kind). -/
def cpuFallback (intensity : Int) (duration : Duration) : String :=
  "timeout " ++ Duration.String duration ++ " bash -c 'for i in \x7b1.." ++
    fmtD (mulInt intensity 2) ++ "\x7d; do while true; do :; done & done; wait'"

/-- The then-branch for the memory kind:
`fmt.Sprintf("stress-ng --vm %d --vm-bytes %dM --timeout %s", intensity, intensity*50, ...)`. -/
def memoryInvocation (intensity : Int) (duration : Duration) : String :=
  "stress-ng --vm " ++ fmtD intensity ++ " --vm-bytes " ++ fmtD (mulInt intensity 50) ++
    "M --timeout " ++ Duration.String duration

/-- The else-branch for the memory kind. -/
def memoryFallback (intensity : Int) (duration : Duration) : String :=
  "timeout " ++ Duration.String duration ++ " bash -c 'for i in \x7b1.." ++ fmtD intensity ++
    "\x7d; do dd if=/dev/zero of=/dev/null bs=1M count=" ++ fmtD (mulInt intensity 25) ++
    " & done; wait'"

/-- The then-branch for the IO kind. -/
def ioInvocation (intensity : Int) (duration : Duration) : String :=
  "stress-ng --io " ++ fmtD intensity ++ " --hdd " ++ fmtD (divInt intensity 2) ++
    " --hdd-bytes " ++ fmtD (mulInt intensity 25) ++ "M --timeout " ++ Duration.String duration

/-- The else-branch for the IO kind. -/
def ioFallback (intensity : Int) (duration : Duration) : String :=
  "timeout " ++ Duration.String duration ++ " bash -c 'for i in \x7b1.." ++ fmtD intensity ++
    "\x7d; do dd if=/dev/zero of=/dev/null bs=1M & done; wait'"

/-- The then-branch for the mixed kind. -/
def mixedInvocation (intensity : Int) (duration : Duration) : String :=
  "stress-ng --cpu " ++ fmtD intensity ++ " --vm " ++ fmtD (divInt intensity 2) ++
    " --vm-bytes " ++ fmtD (mulInt intensity 25) ++ "M --io " ++ fmtD (divInt intensity 2) ++
    " --timeout " ++ Duration.String duration

/-- The else-branch for the mixed kind. -/
def mixedFallback (intensity : Int) (duration : Duration) : String :=
  "timeout " ++ Duration.String duration ++ " bash -c 'for i in \x7b1.." ++ fmtD intensity ++
    "\x7d; do while true; do :; done & done; for i in \x7b1.." ++ fmtD (divInt intensity 2) ++
    "\x7d; do dd if=/dev/zero of=/dev/null bs=1M & done; wait'"

/-- The function `generateStressCommand(stressType, intensity, duration)`. -/
def generateStressCommand (stressType : StressCommandType) (intensity : Int)
    (duration : Duration) : String :=
  let stressCmd :=
    if stressType = StressCommandCPU then
      stressCmdHead ++ cpuInvocation intensity duration ++ "; else " ++
        cpuFallback intensity duration
    else if stressType = StressCommandMemory then
      stressCmdHead ++ memoryInvocation intensity duration ++ "; else " ++
        memoryFallback intensity duration
    else if stressType = StressCommandIO then
      stressCmdHead ++ ioInvocation intensity duration ++ "; else " ++
        ioFallback intensity duration
    else if stressType = StressCommandMixed then
      stressCmdHead ++ mixedInvocation intensity duration ++ "; else " ++
        mixedFallback intensity duration
    else
      stressCmdHead ++ cpuInvocation intensity duration ++ "; else " ++
        cpuFallback intensity duration
  baseCmd ++ (stressCmd ++ "; fi")

/-! ## Pods, the outside world and traces -/

/-- The phase constants of `k8s.io/api/core/v1` (a Go string type). -/
def PodSucceeded : String := "Succeeded"
def PodFailed : String := "Failed"

/-- The part of a `v1.Pod` that the program reads.  `Labels` is the label map
as a list of key/value pairs, `DeletionTimestamp` is `none` for a nil
pointer, `Containers` holds the names of `Spec.Containers` in order. -/
structure Pod where
  Name : String
  Labels : List (String × String)
  Phase : String
  DeletionTimestamp : Option Int
  Containers : List String
  deriving DecidableEq, Repr

/-- The map read `pod.Labels[key]`: the value stored under `key`, or the
empty string when the key is absent. -/
def labelValue (labels : List (String × String)) (key : String) : String :=
  match labels.find? (fun kv => kv.1 == key) with
  | some kv => kv.2
  | none => ""

/-- The struct `ChaosConfig`; the field `ChaosType` is the Go field `Type`.
`Labels` is the label map, as the list of its entries in the order in which
the `range` statement of the campaign function enumerates them. -/
structure ChaosConfig where
  ChaosType : String
  Namespace : String
  Labels : List (String × String)
  Duration : Duration
  Intensity : Int
  TargetCount : Int
  deriving DecidableEq, Repr

/-- The pod that the stress-runner campaigns create (`job` in the source):
its name, labels and the shell command of its single container. -/
structure StressJob where
  Name : String
  Labels : List (String × String)
  Container : String
  Command : String
  deriving DecidableEq, Repr

/-- Everything outside the program.  Each oracle answers one call site: the
`i`-th dynamic call of that site gets the `i`-th answer.  An error answer is
`some msg` (or `Except.error msg`), success is `none` (or `Except.ok`). -/
structure World where
  /-- Answer to the `List` call made by `main`. -/
  mainList : Except String (List Pod)
  /-- Answer to the `List` call made by the campaign function. -/
  list : Except String (List Pod)
  /-- Outcome of the `i`-th `Delete` call. -/
  deleteErr : Nat → Option String
  /-- Outcome of the `i`-th `Create` call. -/
  createErr : Nat → Option String
  /-- Outcome of the `i`-th `execInPod` call. -/
  execErr : Nat → Option String
  /-- Value of `time.Now().Unix()` at the `i`-th job creation. -/
  now : Nat → Int
  /-- Raw draw behind the `i`-th `rand.Intn` call of `selectRandomPods`. -/
  draws : Nat → Nat
  /-- The choice behind the order in which the campaign's `range config.Labels`
  enumerates the label map (see `rangeOrder`). -/
  rangeSeed : Nat

/-- What a run does, in program order: calls to the cluster, to the exec
transport, to `selectRandomPods`, the start of a monitor goroutine, and the
lines it prints. -/
inductive Event where
  /-- The call `clientset.CoreV1().Pods(ns).List(ctx, opts)` with `opts.LabelSelector`. -/
  | listPods (ns selector : String)
  /-- The call `selectRandomPods(candidates, count)`. -/
  | selectPods (candidates : List Pod) (count : Int)
  /-- The call `Pods(ns).Delete(ctx, name, ...)`. -/
  | deletePod (ns name : String)
  /-- The call `Pods(ns).Create(ctx, job, ...)`. -/
  | createPod (ns : String) (job : StressJob)
  /-- The call `execInPod(config, clientset, ns, pod, container, command)`. -/
  | execInPod (ns pod container command : String)
  /-- The statement `go MonitorPodHealth(clientset, ns, pod, duration)`. -/
  | monitor (ns pod : String) (duration : Duration)
  /-- The opening line of a campaign function. -/
  | banner (kind ns : String)
  /-- The warning "Requested to ... %d pods but only %d are available". -/
  | warnClamped (requested : Int) (available : Nat)
  /-- The per-victim line "... pod %d/%d: %s". -/
  | progress (i total : Nat) (pod : String)
  /-- The debug line listing the containers of a pod and the one in use. -/
  | podContainers (pod : String) (containers : List String) (used : String)
  /-- The line "Command: %s". -/
  | command (cmd : String)
  /-- The per-victim failure line, with the error. -/
  | victimFailed (pod err : String)
  /-- The line "Retrying with container: %s". -/
  | retrying (container : String)
  /-- The failure line of the retry. -/
  | retryFailed (pod container err : String)
  /-- The per-victim success line. -/
  | victimOk (pod : String)
  /-- The line "Pod %s has no containers, skipping". -/
  | noContainers (pod : String)
  /-- The dry-run header and the number of pods that would be deleted. -/
  | dryRunHeader (count : Nat)
  /-- A line of the dry-run listing. -/
  | dryRunPod (i : Nat) (pod phase : String)
  /-- The tally "Successfully deleted %d/%d pods!". -/
  | tally (succeeded attempted : Nat)
  /-- The line "Summary: Deleted pods %v from namespace '%s'". -/
  | summary (deleted : List String) (ns : String)
  /-- The lines of `main` for an empty listing. -/
  | noPodsFound (ns labelFilter : String) (tip : Bool)
  /-- The lines of `main` for a listing with no available pod. -/
  | noAvailablePods (labelFilter : String)
  /-- The line "Unknown chaos type: %s, falling back to pod deletion". -/
  | unknownChaosType (chaosType : String)
  deriving DecidableEq, Repr

/-- How a function call ends: `Except.error p` is a panic, `Except.ok none`
the return of a nil error (or a plain return), `Except.ok (some msg)` the
return of an error value. -/
abbrev Result := Except Panic (Option String)

/-- The result of a run together with its trace. -/
structure Run where
  result : Result
  trace : List Event

/-- The block that builds `listOptions.LabelSelector` at the start of every
`Apply*` function; `labels` is enumerated in list order. -/
def buildLabelSelector (labels : List (String × String)) : String :=
  if labels.length > 0 then
    labels.foldl
      (fun labelSelector kv =>
        (if labelSelector ≠ "" then labelSelector ++ "," else labelSelector) ++
          (kv.1 ++ "=" ++ kv.2))
      ""
  else ""

/-- The test of the filter of `main` and of the in-pod campaigns: the pod is
neither `Succeeded` nor `Failed` and is not being deleted. -/
def notTerminal (pod : Pod) : Bool :=
  pod.Phase != PodSucceeded && pod.Phase != PodFailed && pod.DeletionTimestamp.isNone

/-- The filter loop of `main` (lines 178-186). -/
def filterAvailable (items : List Pod) : List Pod :=
  items.filter notTerminal

/-- The filter loop of the in-pod campaigns: a pod with a non-empty
`chaos-type` label is skipped, then the test of `main` applies. -/
def filterAvailableNoChaos (items : List Pod) : List Pod :=
  items.filter (fun pod =>
    if labelValue pod.Labels "chaos-type" ≠ "" then false else notTerminal pod)

/-- The clamp `if n > len(pods) { n = len(pods); print warning }`: the
clamped count and the events printed. -/
def clampCount (targetCount : Int) (available : Nat) : Int × List Event :=
  if targetCount > (available : Int) then
    ((available : Int), [Event.warnClamped targetCount available])
  else (targetCount, [])

/-! ## Stress-runner campaigns (chaos_types.go) -/

/-- The pod built by `createStressContainer`; `unix` is `time.Now().Unix()`. -/
def stressJob (podName : String) (config : ChaosConfig) (unix : Int) : StressJob :=
  { Name := "stress-" ++ podName ++ "-" ++ fmtD unix
    Labels := [("chaos-type", "cpu-stress"), ("target-pod", podName)]
    Container := "stress"
    Command := "apk add --no-cache stress-ng && stress-ng --cpu " ++
      fmtD (mulInt config.Intensity 10) ++ " --timeout " ++ Duration.String config.Duration }

/-- The pod built in the loop of `ApplyMemoryStress`. -/
def memStressJob (podName : String) (config : ChaosConfig) (unix : Int) : StressJob :=
  { Name := "memstress-" ++ podName ++ "-" ++ fmtD unix
    Labels := [("chaos-type", "memory-stress"), ("target-pod", podName)]
    Container := "memstress"
    Command := "apk add --no-cache stress-ng && stress-ng --vm " ++ fmtD config.Intensity ++
      " --vm-bytes " ++ fmtD (mulInt config.Intensity 50) ++ "M --timeout " ++
      Duration.String config.Duration }

/-- The loop `for i, pod := range selectedPods` of `ApplyCPUStress` and of
`ApplyMemoryStress` (they differ in the job created): one `Create` call per
victim, a failure is printed and the loop goes on. -/
def createLoop (w : World) (config : ChaosConfig)
    (job : String → ChaosConfig → Int → StressJob) (total : Nat) :
    Nat → List Pod → List Event
  | _, [] => []
  | i, pod :: rest =>
    [Event.progress (i + 1) total pod.Name,
      Event.createPod config.Namespace (job pod.Name config (w.now i))] ++
    (match w.createErr i with
      | some err => [Event.victimFailed pod.Name err]
      | none => [Event.victimOk pod.Name]) ++
    createLoop w config job total (i + 1) rest

/-- The function `ApplyCPUStress(clientset, config)`. -/
def ApplyCPUStress (w : World) (config : ChaosConfig) : Run :=
  let t0 := [Event.banner "cpu-stress" config.Namespace,
    Event.listPods config.Namespace (buildLabelSelector config.Labels)]
  match w.list with
  | .error err => ⟨.ok (some ("failed to list pods: " ++ err)), t0⟩
  | .ok items =>
    if items.length = 0 then
      ⟨.ok (some ("no pods found in namespace " ++ config.Namespace)), t0⟩
    else
      let clamped := clampCount config.TargetCount items.length
      let t1 := t0 ++ clamped.2 ++ [Event.selectPods items clamped.1]
      match selectRandomPods w.draws items clamped.1 with
      | .error p => ⟨.error p, t1⟩
      | .ok selectedPods =>
        ⟨.ok none, t1 ++ createLoop w config stressJob selectedPods.length 0 selectedPods⟩

/-- The function `ApplyMemoryStress(clientset, config)`: the count goes to
`selectRandomPods` as it is, there is no clamp and no warning. -/
def ApplyMemoryStress (w : World) (config : ChaosConfig) : Run :=
  let t0 := [Event.banner "memory-stress" config.Namespace,
    Event.listPods config.Namespace (buildLabelSelector config.Labels)]
  match w.list with
  | .error err => ⟨.ok (some ("failed to list pods: " ++ err)), t0⟩
  | .ok items =>
    if items.length = 0 then
      ⟨.ok (some ("no pods found in namespace " ++ config.Namespace)), t0⟩
    else
      let t1 := t0 ++ [Event.selectPods items config.TargetCount]
      match selectRandomPods w.draws items config.TargetCount with
      | .error p => ⟨.error p, t1⟩
      | .ok selectedPods =>
        ⟨.ok none, t1 ++ createLoop w config memStressJob selectedPods.length 0 selectedPods⟩

/-! ## In-pod campaigns (chaos_types.go) -/

/-- The victim loop of `ApplyInPodCPUStress`.  `calls` counts the `execInPod`
calls made so far.  After a failed exec the code compares the first
container's name with `containerName` and retries only when they differ. -/
def inPodCPULoop (w : World) (config : ChaosConfig) (total : Nat) :
    Nat → Nat → List Pod → List Event
  | _, _, [] => []
  | i, calls, pod :: rest =>
    match pod.Containers with
    | [] => Event.noContainers pod.Name :: inPodCPULoop w config total (i + 1) calls rest
    | first :: others =>
      let containerName := first
      let cmd := generateStressCommand StressCommandCPU config.Intensity config.Duration
      let t0 := [Event.podContainers pod.Name (first :: others) containerName,
        Event.progress (i + 1) total pod.Name, Event.command cmd,
        Event.execInPod config.Namespace pod.Name containerName cmd]
      match w.execErr calls with
      | some err =>
        let firstContainer := first
        if firstContainer ≠ containerName then
          let t1 := t0 ++ [Event.victimFailed pod.Name err, Event.retrying firstContainer,
            Event.execInPod config.Namespace pod.Name firstContainer cmd]
          match w.execErr (calls + 1) with
          | some err2 =>
            t1 ++ [Event.retryFailed pod.Name firstContainer err2] ++
              inPodCPULoop w config total (i + 1) (calls + 2) rest
          | none =>
            t1 ++ [Event.victimOk pod.Name] ++
              inPodCPULoop w config total (i + 1) (calls + 2) rest
        else
          t0 ++ [Event.victimFailed pod.Name err] ++
            inPodCPULoop w config total (i + 1) (calls + 1) rest
      | none =>
        t0 ++ [Event.victimOk pod.Name] ++ inPodCPULoop w config total (i + 1) (calls + 1) rest

/-- The victim loop shared, text for text, by `ApplyInPodMemoryStress`,
`ApplyInPodMixedStress`, `ApplyKillProcessChaos` and
`ApplyCorruptMemoryChaos`: they differ in the command `cmd` and in whether a
monitor goroutine is started before the exec (`monitored`). -/
def inPodLoop (w : World) (config : ChaosConfig) (cmd : String) (monitored : Bool)
    (total : Nat) : Nat → Nat → List Pod → List Event
  | _, _, [] => []
  | i, calls, pod :: rest =>
    match pod.Containers with
    | [] => Event.noContainers pod.Name :: inPodLoop w config cmd monitored total (i + 1) calls rest
    | containerName :: _ =>
      [Event.progress (i + 1) total pod.Name, Event.command cmd] ++
      (if monitored then [Event.monitor config.Namespace pod.Name config.Duration] else []) ++
      [Event.execInPod config.Namespace pod.Name containerName cmd] ++
      (match w.execErr calls with
        | some err => [Event.victimFailed pod.Name err]
        | none => [Event.victimOk pod.Name]) ++
      inPodLoop w config cmd monitored total (i + 1) (calls + 1) rest

/-- The part that the five in-pod campaign functions share, text for text:
list, fail on an empty listing, filter, fail on an empty filter result,
clamp, select, then run the victim loop `loop` on the selected pods. -/
def inPodCampaign (w : World) (config : ChaosConfig) (kind : String)
    (loop : List Pod → List Event) : Run :=
  let t0 := [Event.banner kind config.Namespace,
    Event.listPods config.Namespace (buildLabelSelector config.Labels)]
  match w.list with
  | .error err => ⟨.ok (some ("failed to list pods: " ++ err)), t0⟩
  | .ok items =>
    if items.length = 0 then
      ⟨.ok (some ("no pods found in namespace " ++ config.Namespace)), t0⟩
    else
      let availablePods := filterAvailableNoChaos items
      if availablePods.length = 0 then
        ⟨.ok (some ("no available pods found in namespace " ++ config.Namespace ++
          " (excluding chaos pods)")), t0⟩
      else
        let clamped := clampCount config.TargetCount availablePods.length
        let t1 := t0 ++ clamped.2 ++ [Event.selectPods availablePods clamped.1]
        match selectRandomPods w.draws availablePods clamped.1 with
        | .error p => ⟨.error p, t1⟩
        | .ok selectedPods => ⟨.ok none, t1 ++ loop selectedPods⟩

/-- The function `ApplyInPodCPUStress(config, clientset, chaosConfig)`. -/
def ApplyInPodCPUStress (w : World) (chaosConfig : ChaosConfig) : Run :=
  inPodCampaign w chaosConfig "in-pod-cpu-stress"
    (fun selectedPods => inPodCPULoop w chaosConfig selectedPods.length 0 0 selectedPods)

/-- The function `ApplyInPodMemoryStress(config, clientset, chaosConfig)`. -/
def ApplyInPodMemoryStress (w : World) (chaosConfig : ChaosConfig) : Run :=
  inPodCampaign w chaosConfig "in-pod-memory-stress"
    (fun selectedPods =>
      inPodLoop w chaosConfig
        (generateStressCommand StressCommandMemory chaosConfig.Intensity chaosConfig.Duration)
        false selectedPods.length 0 0 selectedPods)

/-- The function `ApplyInPodMixedStress(config, clientset, chaosConfig)`. -/
def ApplyInPodMixedStress (w : World) (chaosConfig : ChaosConfig) : Run :=
  inPodCampaign w chaosConfig "in-pod-mixed-stress"
    (fun selectedPods =>
      inPodLoop w chaosConfig
        (generateStressCommand StressCommandMixed chaosConfig.Intensity chaosConfig.Duration)
        false selectedPods.length 0 0 selectedPods)

/-- The command `killCmd` of `ApplyKillProcessChaos`. -/
def killCmd (intensity : Int) : String :=
  "ps aux | grep -v 'ps aux' | grep -v grep | awk '\x7bprint $2\x7d' | head -" ++
    fmtD intensity ++ " | xargs -r kill -9"

/-- The function `ApplyKillProcessChaos(config, clientset, chaosConfig)`. -/
def ApplyKillProcessChaos (w : World) (chaosConfig : ChaosConfig) : Run :=
  inPodCampaign w chaosConfig "kill-process"
    (fun selectedPods =>
      inPodLoop w chaosConfig (killCmd chaosConfig.Intensity) true selectedPods.length 0 0
        selectedPods)

/-- The command `corruptCmd` of `ApplyCorruptMemoryChaos`. -/
def corruptCmd (intensity : Int) : String :=
  "dd if=/dev/urandom of=/dev/mem bs=1M count=" ++ fmtD intensity ++
    " 2>/dev/null || echo 'Memory corruption attempted'"

/-- The function `ApplyCorruptMemoryChaos(config, clientset, chaosConfig)`. -/
def ApplyCorruptMemoryChaos (w : World) (chaosConfig : ChaosConfig) : Run :=
  inPodCampaign w chaosConfig "corrupt-memory"
    (fun selectedPods =>
      inPodLoop w chaosConfig (corruptCmd chaosConfig.Intensity) true selectedPods.length 0 0
        selectedPods)

/-! ## Pod deletion, label parsing and the dispatch of `main` (main.go) -/

/-- The delete loop of `applyPodDeleteChaos`: one `Delete` call per selected
pod; the names of the pods whose delete returned no error are appended to
`deletedPods`.  Returns the events and the final `deletedPods`. -/
def deleteLoop (w : World) (ns : String) (total : Nat) :
    Nat → List Pod → List String → List Event × List String
  | _, [], deletedPods => ([], deletedPods)
  | i, pod :: rest, deletedPods =>
    let t0 := [Event.progress (i + 1) total pod.Name, Event.deletePod ns pod.Name]
    match w.deleteErr i with
    | some err =>
      let r := deleteLoop w ns total (i + 1) rest deletedPods
      (t0 ++ [Event.victimFailed pod.Name err] ++ r.1, r.2)
    | none =>
      let r := deleteLoop w ns total (i + 1) rest (deletedPods ++ [pod.Name])
      (t0 ++ r.1, r.2)

/-- The dry-run listing of `applyPodDeleteChaos`. -/
def dryRunLines : Nat → List Pod → List Event
  | _, [] => []
  | i, pod :: rest => Event.dryRunPod (i + 1) pod.Name pod.Phase :: dryRunLines (i + 1) rest

/-- The function `applyPodDeleteChaos(clientset, availablePods, config, dryRun)`. -/
def applyPodDeleteChaos (w : World) (availablePods : List Pod) (config : ChaosConfig)
    (dryRun : Bool) : Run :=
  let clamped := clampCount config.TargetCount availablePods.length
  let t0 := clamped.2 ++ [Event.selectPods availablePods clamped.1]
  match selectRandomPods w.draws availablePods clamped.1 with
  | .error p => ⟨.error p, t0⟩
  | .ok selectedPods =>
    if dryRun then
      ⟨.ok none, t0 ++ [Event.dryRunHeader selectedPods.length] ++ dryRunLines 0 selectedPods⟩
    else
      let r := deleteLoop w config.Namespace selectedPods.length 0 selectedPods []
      ⟨.ok none, t0 ++ r.1 ++
        [Event.tally r.2.length selectedPods.length, Event.summary r.2 config.Namespace]⟩

/-- The predicate `unicode.IsSpace` that `strings.TrimSpace` uses. -/
def isSpace (c : Char) : Bool :=
  c = '\t' || c = '\n' || c = Char.ofNat 0x0B || c = Char.ofNat 0x0C || c = '\r' || c = ' ' ||
  c = Char.ofNat 0x85 || c = Char.ofNat 0xA0 || c = Char.ofNat 0x1680 ||
  (0x2000 ≤ c.toNat && c.toNat ≤ 0x200A) || c = Char.ofNat 0x2028 || c = Char.ofNat 0x2029 ||
  c = Char.ofNat 0x202F || c = Char.ofNat 0x205F || c = Char.ofNat 0x3000

/-- The function `strings.TrimSpace`, on the characters of a string. -/
def trimSpace (s : List Char) : List Char :=
  ((s.dropWhile isSpace).reverse.dropWhile isSpace).reverse

/-- The map assignment `labels[k] = v`: the value of an existing key is
replaced, a new key is added. -/
def setLabel (labels : List (String × String)) (k v : String) : List (String × String) :=
  if labels.any (fun kv => kv.1 == k) then
    labels.map (fun kv => if kv.1 == k then (k, v) else kv)
  else labels ++ [(k, v)]

/-- The function `parseLabels(labelString)`; `strings.Split` is `List.splitOn`
on the characters. -/
def parseLabels (labelString : String) : List (String × String) :=
  if labelString = "" then []
  else
    (labelString.toList.splitOn ',').foldl
      (fun labels pair =>
        match (trimSpace pair).splitOn '=' with
        | [k, v] => setLabel labels (String.mk (trimSpace k)) (String.mk (trimSpace v))
        | _ => labels)
      []

/-- Picks `n` entries one after the other: the entry at position
`seed % n` of the `n` remaining ones comes next, `seed / n` picks the order of
the rest. -/
def rangeOrderAux {α : Type} : Nat → Nat → List α → List α
  | 0, _, _ => []
  | n + 1, seed, entries =>
    match entries[seed % (n + 1)]? with
    | some e =>
      e :: rangeOrderAux n (seed / (n + 1))
        (entries.take (seed % (n + 1)) ++ entries.drop (seed % (n + 1) + 1))
    | none => []

/-- The order in which a `range` statement enumerates a map with the given
entries.  Go leaves the order of a map range unspecified: `seed` stands for
the choice of the runtime.  Every seed gives a permutation of the entries,
every permutation is given by some seed, and seed 0 gives the order of
insertion. -/
def rangeOrder {α : Type} (seed : Nat) (entries : List α) : List α :=
  rangeOrderAux entries.length seed entries

def ChaosTypePodDelete : String := "pod-delete"
def ChaosTypeCPUStress : String := "cpu-stress"
def ChaosTypeMemoryStress : String := "memory-stress"
def ChaosTypeInPodCPUStress : String := "in-pod-cpu-stress"
def ChaosTypeInPodMemoryStress : String := "in-pod-memory-stress"
def ChaosTypeInPodMixedStress : String := "in-pod-mixed-stress"
def ChaosTypeKillProcess : String := "kill-process"
def ChaosTypeCorruptMemory : String := "corrupt-memory"

/-- The values of the command-line flags that the one-shot path of `main` reads. -/
structure Flags where
  namespace_ : String
  labelFilter : String
  createPods : Bool
  deleteCount : Int
  dryRun : Bool
  chaosType : String
  intensity : Int
  /-- The value of `time.ParseDuration(*duration)`. -/
  chaosDuration : Duration

/-- The `switch ChaosType(*chaosType)` of `main`. -/
def dispatch (w : World) (availablePods : List Pod) (chaosConfig : ChaosConfig)
    (dryRun : Bool) : Run :=
  if chaosConfig.ChaosType = ChaosTypePodDelete then
    applyPodDeleteChaos w availablePods chaosConfig dryRun
  else if chaosConfig.ChaosType = ChaosTypeCPUStress then ApplyCPUStress w chaosConfig
  else if chaosConfig.ChaosType = ChaosTypeMemoryStress then ApplyMemoryStress w chaosConfig
  else if chaosConfig.ChaosType = ChaosTypeInPodCPUStress then ApplyInPodCPUStress w chaosConfig
  else if chaosConfig.ChaosType = ChaosTypeInPodMemoryStress then
    ApplyInPodMemoryStress w chaosConfig
  else if chaosConfig.ChaosType = ChaosTypeInPodMixedStress then
    ApplyInPodMixedStress w chaosConfig
  else if chaosConfig.ChaosType = ChaosTypeKillProcess then ApplyKillProcessChaos w chaosConfig
  else if chaosConfig.ChaosType = ChaosTypeCorruptMemory then
    ApplyCorruptMemoryChaos w chaosConfig
  else
    let r := applyPodDeleteChaos w availablePods chaosConfig dryRun
    ⟨r.result, Event.unknownChaosType chaosConfig.ChaosType :: r.trace⟩

/-- The one-shot path of `main`, from the listing of the pods (line 154) to
the end: list, stop on an empty listing, filter, stop when no pod is
available, build the `ChaosConfig`, dispatch.  `main` drops the error that a
campaign function returns; a failed listing is a panic of `main`.  The label
map `parseLabels(*labelFilter)` reaches the campaign in the order in which the
campaign's `range` statement will enumerate it. -/
def mainChaos (w : World) (f : Flags) : Run :=
  let t0 := [Event.listPods f.namespace_ f.labelFilter]
  match w.mainList with
  | .error err => ⟨.error (Panic.explicit ("Failed to list pods: " ++ err)), t0⟩
  | .ok items =>
    if items.length = 0 then
      ⟨.ok none, t0 ++ [Event.noPodsFound f.namespace_ f.labelFilter (!f.createPods)]⟩
    else
      let availablePods := filterAvailable items
      if availablePods.length = 0 then
        ⟨.ok none, t0 ++ [Event.noAvailablePods f.labelFilter]⟩
      else
        let chaosConfig : ChaosConfig :=
          { ChaosType := f.chaosType
            Namespace := f.namespace_
            Labels := rangeOrder w.rangeSeed (parseLabels f.labelFilter)
            Duration := f.chaosDuration
            Intensity := f.intensity
            TargetCount := f.deleteCount }
        let r := dispatch w availablePods chaosConfig f.dryRun
        ⟨(match r.result with
          | .error p => .error p
          | .ok _ => .ok none), t0 ++ r.trace⟩

/-! ## Reading a trace -/

/-- The candidate list of a `selectRandomPods` call event. -/
def candidatesOfEvent : Event → Option (List Pod)
  | Event.selectPods candidates _ => some candidates
  | _ => none

/-- The candidate lists handed to `selectRandomPods`, in order. -/
def candidatesOf (t : List Event) : List (List Pod) := t.filterMap candidatesOfEvent

/-- The pods that the `selectRandomPods` call of the trace returned (none
when the trace has no such call or the call panicked). -/
def selectedOf (w : World) : List Event → List Pod
  | [] => []
  | Event.selectPods candidates count :: _ =>
    match selectRandomPods w.draws candidates count with
    | .ok selected => selected
    | .error _ => []
  | _ :: t => selectedOf w t

/-- The name of the pod that a `Delete` call event deletes. -/
def deleteTarget : Event → Option String
  | Event.deletePod _ name => some name
  | _ => none

/-- The names of the pods that received a `Delete` call, in order. -/
def deleteTargets (t : List Event) : List String := t.filterMap deleteTarget

/-- The victim named by the `target-pod` label of the job of a `Create` call event. -/
def createTarget : Event → Option String
  | Event.createPod _ job => some (labelValue job.Labels "target-pod")
  | _ => none

/-- The names of the victims for which a stress pod was submitted with
`Create`, in order. -/
def createTargets (t : List Event) : List String := t.filterMap createTarget

/-- The victim of a per-victim action event: a delete, create or exec call. -/
def actionTarget : Event → Option String
  | Event.deletePod _ name => some name
  | Event.createPod _ job => some (labelValue job.Labels "target-pod")
  | Event.execInPod _ pod _ _ => some pod
  | _ => none

/-- The victims of the per-victim actions of a trace (delete, create and
exec calls), in order. -/
def actionTargets (t : List Event) : List String := t.filterMap actionTarget

/-- The counts of an aggregate tally line. -/
def tallyOf : Event → Option (Nat × Nat)
  | Event.tally succeeded attempted => some (succeeded, attempted)
  | _ => none

/-- The aggregate tallies `succeeded/attempted` printed in a trace. -/
def tallies (t : List Event) : List (Nat × Nat) := t.filterMap tallyOf

/-- The counts of a clamp warning line. -/
def clampWarningOf : Event → Option (Int × Nat)
  | Event.warnClamped requested available => some (requested, available)
  | _ => none

/-- The clamp warnings printed in a trace, as `(requested, available)`. -/
def clampWarnings (t : List Event) : List (Int × Nat) := t.filterMap clampWarningOf

/-- The pod of a per-victim success line. -/
def okReport : Event → Option String
  | Event.victimOk pod => some pod
  | _ => none

/-- The pods of the per-victim success lines of a trace. -/
def okReports (t : List Event) : List String := t.filterMap okReport

/-- The pod of a per-victim failure line. -/
def failReport : Event → Option String
  | Event.victimFailed pod _ => some pod
  | Event.retryFailed pod _ _ => some pod
  | _ => none

/-- The pods of the per-victim failure lines of a trace. -/
def failReports (t : List Event) : List String := t.filterMap failReport

/-- The elements of `xs` whose position (counted from `j`) has the outcome
`none`, no error, under the oracle `err`. -/
def succeededAt {α : Type} (err : Nat → Option String) : Nat → List α → List α
  | _, [] => []
  | j, x :: xs =>
    if err j = none then x :: succeededAt err (j + 1) xs else succeededAt err (j + 1) xs

/-- The elements of `xs` whose position (counted from `j`) has an error
outcome under the oracle `err`. -/
def failedAt {α : Type} (err : Nat → Option String) : Nat → List α → List α
  | _, [] => []
  | j, x :: xs =>
    if err j = none then failedAt err (j + 1) xs else x :: failedAt err (j + 1) xs

/-- The names of the pods of `pods` that have at least one container: the
victims that an in-pod campaign does not skip. -/
def withContainer (pods : List Pod) : List String :=
  (pods.filter (fun pod => !pod.Containers.isEmpty)).map (fun pod => pod.Name)

/-- The chaos kinds whose action is an exec inside the victim. -/
def inPodKinds : List String :=
  [ChaosTypeInPodCPUStress, ChaosTypeInPodMemoryStress, ChaosTypeInPodMixedStress,
    ChaosTypeKillProcess, ChaosTypeCorruptMemory]

/-- The victims on which a campaign of kind `chaosType` acts, out of the
selected pods: an in-pod campaign skips a pod that declares no container,
the other campaigns act on every selected pod. -/
def attempted (chaosType : String) (selected : List Pod) : List String :=
  if chaosType ∈ inPodKinds then withContainer selected
  else selected.map (fun pod => pod.Name)

/-! ## Parsing a synthesized command

The reading side of the scaling contract: what a reader of the command text
recovers as the integer argument of an option. -/

/-- The text that follows the first occurrence of `pat` in a text. -/
def afterFirst (pat : List Char) : List Char → Option (List Char)
  | [] => none
  | c :: cs =>
    if pat.isPrefixOf (c :: cs) then some ((c :: cs).drop pat.length)
    else afterFirst pat cs

/-- The value of a run of decimal digits. -/
def digitsValue (ds : List Char) : Nat :=
  ds.foldl (fun acc c => 10 * acc + (c.toNat - 48)) 0

/-- Reads an unsigned decimal number at the start of a text: its value and
the text behind it; `none` when the text does not start with a digit. -/
def readNat (s : List Char) : Option (Nat × List Char) :=
  if (s.takeWhile Char.isDigit).isEmpty then none
  else some (digitsValue (s.takeWhile Char.isDigit), s.dropWhile Char.isDigit)

/-- Reads a decimal integer with an optional leading `-` at the start of a
text: its value and the text behind it. -/
def readInt : List Char → Option (Int × List Char)
  | [] => none
  | c :: cs =>
    if c = '-' then (readNat cs).map (fun r => (-(r.1 : Int), r.2))
    else (readNat (c :: cs)).map (fun r => ((r.1 : Int), r.2))

/-- The integer argument of the first occurrence of the option `flag` in the
command `cmd` (the option, a blank, the number), and the text behind it. -/
def parseFlag (flag : String) (cmd : String) : Option (Int × List Char) :=
  (afterFirst (flag.toList ++ [' ']) cmd.toList).bind readInt

/-- Two texts agree on their common length. -/
def agree : List Char → List Char → Bool
  | [], _ => true
  | _, [] => true
  | p :: ps, c :: cs => p == c && agree ps cs

/-- No suffix of the text agrees with `pat`: whatever follows the text, no
occurrence of `pat` starts inside it. -/
def noStart (pat : List Char) : List Char → Bool
  | [] => true
  | c :: cs => !agree pat (c :: cs) && noStart pat cs

/-- A text that does not go on with a digit. -/
def stops (rest : List Char) : Prop := ∀ c, rest.head? = some c → c.isDigit = false

/-! ## Concrete scenarios -/

/-- A running application pod. -/
def podWeb : Pod :=
  { Name := "web", Labels := [("app", "web")], Phase := "Running",
    DeletionTimestamp := none, Containers := ["nginx"] }

/-- A pod in the terminal phase `Failed`. -/
def podBatch : Pod :=
  { Name := "batch", Labels := [("app", "batch")], Phase := PodFailed,
    DeletionTimestamp := none, Containers := ["job"] }

/-- A running stress-runner pod, labelled as `createStressContainer` labels it. -/
def podStressRunner : Pod :=
  { Name := "stress-web-1700000000",
    Labels := [("chaos-type", "cpu-stress"), ("target-pod", "web")], Phase := "Running",
    DeletionTimestamp := none, Containers := ["stress"] }

/-- A running pod with the given name and one container. -/
def podNamed (name : String) : Pod :=
  { Name := name, Labels := [], Phase := "Running", DeletionTimestamp := none,
    Containers := ["main"] }

/-- A world whose cluster lists `items` and in which the `i`-th raw random
draw is `draw i`, every delete, create and exec succeeds, and a label map is
enumerated in the order of insertion. -/
def quietWorld (items : List Pod) (draw : Nat → Nat) : World :=
  { mainList := .ok items, list := .ok items, deleteErr := fun _ => none,
    createErr := fun _ => none, execErr := fun _ => none, now := fun _ => 1700000000,
    draws := draw, rangeSeed := 0 }

/-- The world `quietWorld items draw` in which the first exec, create and
delete call fails and the later ones succeed. -/
def firstFailsWorld (items : List Pod) (draw : Nat → Nat) : World :=
  { quietWorld items draw with
    deleteErr := fun i => if i = 0 then some "boom" else none
    createErr := fun i => if i = 0 then some "boom" else none
    execErr := fun i => if i = 0 then some "boom" else none }

/-- The default flags of `main` with the given chaos type and delete count. -/
def flagsFor (chaosType : String) (deleteCount : Int) : Flags :=
  { namespace_ := "default", labelFilter := "", createPods := false,
    deleteCount := deleteCount, dryRun := false, chaosType := chaosType, intensity := 5,
    chaosDuration := 30000000000 }

/-- The `ChaosConfig` that `main` builds from `flagsFor chaosType targetCount`. -/
def configFor (chaosType : String) (targetCount : Int) : ChaosConfig :=
  { ChaosType := chaosType, Namespace := "default", Labels := [], Duration := 30000000000,
    Intensity := 5, TargetCount := targetCount }

/-! ## The cron trigger (chaos_types.go) -/

/-- The struct `CronTriggerConfig`.  `Probability` is a finite `float64`; the
trigger only compares it, so it is held as the rational number it denotes. -/
structure CronTriggerConfig where
  Schedule : String
  ChaosType : String
  Probability : ℚ
  MaxDuration : Duration
  deriving DecidableEq

/-- What the cron goroutine meets.  The `i`-th firing gets the `i`-th answer
of each oracle. -/
structure CronWorld where
  /-- Error of `cron.ParseStandard(config.Schedule)`, `none` for a valid schedule. -/
  scheduleErr : Option String
  /-- Value of `rand.Float64()` at the `i`-th firing; the library returns a
  number in the half-open interval `[0.0, 1.0)`. -/
  float64 : Nat → ℚ
  /-- Raw draw behind `rand.Intn(10)` at the `i`-th firing. -/
  intensityDraw : Nat → Nat
  /-- Raw draw behind `rand.Intn(3)` at the `i`-th firing. -/
  targetDraw : Nat → Nat
  /-- The world that the campaign function called at the `i`-th firing meets. -/
  campaign : Nat → World

/-- What the cron trigger does, in program order. -/
inductive CronEvent where
  /-- The opening line "Starting cron chaos trigger with schedule: %s". -/
  | starting (schedule : String)
  /-- The line "Invalid cron schedule: %v". -/
  | invalidSchedule (err : String)
  /-- The statement `time.Sleep(time.Until(next))` before the `i`-th firing. -/
  | sleepUntilNext (i : Nat)
  /-- The line "Cron trigger fired! Applying chaos type: %s". -/
  | fired (chaosType : String)
  /-- The line "Cron triggered pod deletion" of the `ChaosTypePodDelete` case. -/
  | podDeletionNotice
  /-- A call of a campaign function (`fn` is its name) with the config built
  for the firing, and the trace of that call. -/
  | campaign (fn : String) (config : ChaosConfig) (trace : List Event)
  /-- The line "Unknown chaos type: %s" of the default case. -/
  | unknownChaosType (chaosType : String)
  /-- The line "Cron trigger fired but skipped (probability: %.2f)". -/
  | skipped (probability : ℚ)
  deriving DecidableEq

/-- A run of the cron goroutine: the panic that ended it, if any, and its trace. -/
structure CronRun where
  panic : Option Panic
  trace : List CronEvent

/-- The probability gate `rand.Float64() <= config.Probability`. -/
def probabilityGate (r : ℚ) (config : CronTriggerConfig) : Bool :=
  decide (r ≤ config.Probability)

/-- The struct literal `chaosConfig := ChaosConfig{...}` of a firing, with the
two calls `rand.Intn(10) + 1` and `rand.Intn(3) + 1` in field order. -/
def buildCronChaosConfig (config : CronTriggerConfig) (intensityRaw targetRaw : Nat) :
    Except Panic ChaosConfig :=
  match Intn intensityRaw 10 with
  | .error p => .error p
  | .ok a =>
    match Intn targetRaw 3 with
    | .error p => .error p
    | .ok b =>
      .ok { ChaosType := config.ChaosType
            Namespace := "default"
            Labels := []
            Duration := config.MaxDuration
            Intensity := (a : Int) + 1
            TargetCount := (b : Int) + 1 }

/-- The `switch config.ChaosType` of a firing: the pod-delete case prints a
line, the cpu-stress and memory-stress cases call their campaign function and
drop its error, every other value goes to the default case. -/
def cronDispatch (w : World) (config : CronTriggerConfig) (chaosConfig : ChaosConfig) :
    CronRun :=
  if config.ChaosType = ChaosTypePodDelete then ⟨none, [CronEvent.podDeletionNotice]⟩
  else if config.ChaosType = ChaosTypeCPUStress then
    let r := ApplyCPUStress w chaosConfig
    ⟨(match r.result with
      | .error p => some p
      | .ok _ => none), [CronEvent.campaign "ApplyCPUStress" chaosConfig r.trace]⟩
  else if config.ChaosType = ChaosTypeMemoryStress then
    let r := ApplyMemoryStress w chaosConfig
    ⟨(match r.result with
      | .error p => some p
      | .ok _ => none), [CronEvent.campaign "ApplyMemoryStress" chaosConfig r.trace]⟩
  else ⟨none, [CronEvent.unknownChaosType config.ChaosType]⟩

/-- The body of the goroutine loop after the sleep, for the `i`-th firing:
the probability gate, then the config and the switch, or the skip line. -/
def cronFiring (w : CronWorld) (config : CronTriggerConfig) (i : Nat) : CronRun :=
  if probabilityGate (w.float64 i) config then
    match buildCronChaosConfig config (w.intensityDraw i) (w.targetDraw i) with
    | .error p => ⟨some p, [CronEvent.fired config.ChaosType]⟩
    | .ok chaosConfig =>
      let r := cronDispatch (w.campaign i) config chaosConfig
      ⟨r.panic, CronEvent.fired config.ChaosType :: r.trace⟩
  else ⟨none, [CronEvent.skipped config.Probability]⟩

/-- The first `n` iterations of the goroutine loop `for { ... }`, starting
with firing `i`; a panic ends the goroutine. -/
def cronLoop (w : CronWorld) (config : CronTriggerConfig) : Nat → Nat → CronRun
  | 0, _ => ⟨none, []⟩
  | n + 1, i =>
    let r := cronFiring w config i
    match r.panic with
    | some p => ⟨some p, CronEvent.sleepUntilNext i :: r.trace⟩
    | none =>
      let rest := cronLoop w config n (i + 1)
      ⟨rest.panic, CronEvent.sleepUntilNext i :: (r.trace ++ rest.trace)⟩

/-- The function `StartCronTrigger(clientset, config)`, observed over the
first `firings` firings of the goroutine it starts (the goroutine itself never
ends): an invalid schedule is reported and no loop is entered. -/
def StartCronTrigger (w : CronWorld) (config : CronTriggerConfig) (firings : Nat) : CronRun :=
  match w.scheduleErr with
  | some err => ⟨none, [CronEvent.starting config.Schedule, CronEvent.invalidSchedule err]⟩
  | none =>
    let r := cronLoop w config firings 0
    ⟨r.panic, CronEvent.starting config.Schedule :: r.trace⟩

/-- The chaos type of a "fired" line. -/
def firedOf : CronEvent → Option String
  | CronEvent.fired chaosType => some chaosType
  | _ => none

/-- The firings of a cron trace that passed the gate. -/
def firedLines (t : List CronEvent) : List String := t.filterMap firedOf

/-- The probability of a "skipped" line. -/
def skippedOf : CronEvent → Option ℚ
  | CronEvent.skipped probability => some probability
  | _ => none

/-- The firings of a cron trace that were skipped. -/
def skippedLines (t : List CronEvent) : List ℚ := t.filterMap skippedOf

/-- The campaign function and config of a campaign call of the cron trigger. -/
def campaignOf : CronEvent → Option (String × ChaosConfig)
  | CronEvent.campaign fn config _ => some (fn, config)
  | _ => none

/-- The campaigns that a cron trace dispatched. -/
def campaignsOf (t : List CronEvent) : List (String × ChaosConfig) := t.filterMap campaignOf

/-- The victims of the per-victim actions inside a campaign call of the cron trigger. -/
def cronActionsOf : CronEvent → List String
  | CronEvent.campaign _ _ trace => actionTargets trace
  | _ => []

/-- The victims of all per-victim actions of a cron trace. -/
def cronActionTargets (t : List CronEvent) : List String := t.flatMap cronActionsOf

/-- A cron world with a valid schedule in which every firing draws the value
`r` from `rand.Float64()` and meets the cluster `quietWorld items (fun _ => 0)`. -/
def cronWorldWith (r : ℚ) (items : List Pod) : CronWorld :=
  { scheduleErr := none, float64 := fun _ => r, intensityDraw := fun i => i,
    targetDraw := fun i => i, campaign := fun _ => quietWorld items (fun _ => 0) }

/-- The cron config of `main` for the schedule `*/5 * * * *`, 30 seconds and
the given chaos type and probability. -/
def cronConfigFor (chaosType : String) (probability : ℚ) : CronTriggerConfig :=
  { Schedule := "*/5 * * * *", ChaosType := chaosType, Probability := probability,
    MaxDuration := 30000000000 }

/-! ## Reading exec calls and retries off a trace -/

/-- The pod and the container of an `execInPod` call event. -/
def execCall : Event → Option (String × String)
  | Event.execInPod _ pod container _ => some (pod, container)
  | _ => none

/-- The `execInPod` calls of a trace, as `(pod, container)`, in order. -/
def execCalls (t : List Event) : List (String × String) := t.filterMap execCall

/-- The container of a "Retrying with container" line. -/
def retryLine : Event → Option String
  | Event.retrying container => some container
  | _ => none

/-- The retries announced in a trace. -/
def retryLines (t : List Event) : List String := t.filterMap retryLine

/-- For each pod that declares a container, its name and the name of its
first declared container. -/
def firstContainers : List Pod → List (String × String)
  | [] => []
  | pod :: rest =>
    match pod.Containers with
    | [] => firstContainers rest
    | first :: _ => (pod.Name, first) :: firstContainers rest

/-! ## The duration token of a synthesized command -/

/-- The token that follows the first occurrence of `marker` in a command: the
text up to the next blank or semicolon. -/
def tokenAfter (marker : String) (cmd : String) : Option (List Char) :=
  (afterFirst marker.toList cmd.toList).map
    (fun rest => rest.takeWhile (fun c => c != ' ' && c != ';'))

/-- A single decimal number (digits, optionally a point and more digits)
followed by exactly one unit suffix `s`, `m` or `h`. -/
def simpleDuration (token : List Char) : Bool :=
  let whole := token.takeWhile Char.isDigit
  let rest := token.dropWhile Char.isDigit
  let unit :=
    match rest with
    | '.' :: frac => if (frac.takeWhile Char.isDigit).isEmpty then [] else frac.dropWhile Char.isDigit
    | _ => rest
  !whole.isEmpty && (unit == ['s'] || unit == ['m'] || unit == ['h'])

/-! ## The health monitor (chaos_types.go) -/

/-- The part of a `v1.ContainerStatus` that the monitor reads. -/
structure ContainerStatus where
  Name : String
  RestartCount : Int
  Ready : Bool
  deriving DecidableEq, Repr

/-- The part of a `v1.PodCondition` that the monitor reads; `Kind` is the Go
field `Type`. -/
structure PodCondition where
  Kind : String
  Status : String
  Message : String
  deriving DecidableEq, Repr

/-- The part of `pod.Status` that the monitor reads. -/
structure PodStatus where
  Phase : String
  ContainerStatuses : List ContainerStatus
  Conditions : List PodCondition
  deriving DecidableEq, Repr

/-- The constants `v1.PodScheduled` and `v1.ConditionFalse`. -/
def PodScheduled : String := "PodScheduled"
def ConditionFalse : String := "False"

/-- What the monitor does, in program order. -/
inductive MonitorEvent where
  /-- The opening line "Monitoring pod health: %s for %s". -/
  | monitoring (pod : String) (duration : String)
  /-- The line "Monitoring completed for pod: %s". -/
  | completed (pod : String)
  /-- The call `Pods(ns).Get(ctx, podName, ...)`. -/
  | getPod (ns pod : String)
  /-- The line "Failed to get pod status: %v". -/
  | getFailed (err : String)
  /-- The line "POD FAILED: %s - Phase: %s". -/
  | podFailed (pod phase : String)
  /-- The line "CONTAINER RESTART: %s restarted %d times". -/
  | containerRestart (container : String) (count : Int)
  /-- The line "CONTAINER NOT READY: %s". -/
  | containerNotReady (container : String)
  /-- The line "POD SCHEDULING FAILED: %s - %s". -/
  | schedulingFailed (pod message : String)
  deriving DecidableEq, Repr

/-- The loop `for _, container := range pod.Status.ContainerStatuses`: per
container, the restart line when the restart count is positive, then the
not-ready line when the container is not ready. -/
def containerReports : List ContainerStatus → List MonitorEvent
  | [] => []
  | container :: rest =>
    (if container.RestartCount > 0 then
        [MonitorEvent.containerRestart container.Name container.RestartCount]
      else []) ++
    (if !container.Ready then [MonitorEvent.containerNotReady container.Name] else []) ++
    containerReports rest

/-- The loop `for _, condition := range pod.Status.Conditions`. -/
def conditionReports (podName : String) : List PodCondition → List MonitorEvent
  | [] => []
  | condition :: rest =>
    (if condition.Kind = PodScheduled ∧ condition.Status = ConditionFalse then
        [MonitorEvent.schedulingFailed podName condition.Message]
      else []) ++
    conditionReports podName rest

/-- The body of `case <-ticker.C` of `MonitorPodHealth` for one poll tick:
`elapsed` is `time.Since(startTime)`, `get` answers the `Get` call if it is
made.  Returns the events of the tick and whether the loop goes on (`false`
is the `return` of the function). -/
def monitorTick (ns podName : String) (duration elapsed : Duration)
    (get : Except String PodStatus) : List MonitorEvent × Bool :=
  if elapsed ≥ duration then ([MonitorEvent.completed podName], false)
  else
    match get with
    | .error err => ([MonitorEvent.getPod ns podName, MonitorEvent.getFailed err], true)
    | .ok status =>
      if status.Phase = PodFailed then
        ([MonitorEvent.getPod ns podName, MonitorEvent.podFailed podName status.Phase], false)
      else
        (MonitorEvent.getPod ns podName ::
          (containerReports status.ContainerStatuses ++
            conditionReports podName status.Conditions), true)

/-- What the monitor meets at the `i`-th iteration of its loop. -/
structure MonitorWorld where
  /-- Whether the timer `time.After(duration)` of the `select` fires before
  the ticker at iteration `i`. -/
  timerFirst : Nat → Bool
  /-- The value of `time.Since(startTime)` at the tick of iteration `i`. -/
  elapsed : Nat → Duration
  /-- The answer to the `Get` call of iteration `i`. -/
  get : Nat → Except String PodStatus

/-- The first `n` iterations of the loop `for { select { ... } }` of
`MonitorPodHealth`, starting with iteration `i`: the events and whether the
function has not yet returned. -/
def monitorLoop (w : MonitorWorld) (ns podName : String) (duration : Duration) :
    Nat → Nat → List MonitorEvent × Bool
  | 0, _ => ([], true)
  | n + 1, i =>
    if w.timerFirst i then ([MonitorEvent.completed podName], false)
    else
      let r := monitorTick ns podName duration (w.elapsed i) (w.get i)
      if r.2 then
        let rest := monitorLoop w ns podName duration n (i + 1)
        (r.1 ++ rest.1, rest.2)
      else (r.1, false)

/-- The function `MonitorPodHealth(clientset, namespace, podName, duration)`,
observed over the first `n` iterations of its loop. -/
def MonitorPodHealth (w : MonitorWorld) (ns podName : String) (duration : Duration)
    (n : Nat) : List MonitorEvent × Bool :=
  let r := monitorLoop w ns podName duration n 0
  (MonitorEvent.monitoring podName (Duration.String duration) :: r.1, r.2)

/-- The restart lines of a monitor trace, as `(container, count)`. -/
def restartReports (t : List MonitorEvent) : List (String × Int) :=
  t.filterMap (fun e => match e with
    | MonitorEvent.containerRestart container count => some (container, count)
    | _ => none)

/-- The `Get` calls of a monitor trace. -/
def getCalls (t : List MonitorEvent) : List String :=
  t.filterMap (fun e => match e with
    | MonitorEvent.getPod _ pod => some pod
    | _ => none)

/-- The not-ready lines of a monitor trace: the container names. -/
def notReadyReports (t : List MonitorEvent) : List String :=
  t.filterMap (fun e => match e with
    | MonitorEvent.containerNotReady container => some container
    | _ => none)

/-- The scheduling-failure lines of a monitor trace, as `(pod, message)`. -/
def schedulingReports (t : List MonitorEvent) : List (String × String) :=
  t.filterMap (fun e => match e with
    | MonitorEvent.schedulingFailed pod message => some (pod, message)
    | _ => none)

/-- A monitor world in which the ticker always fires first, the `i`-th tick
comes `5 * (i + 1)` seconds after the start and every `Get` returns `status`. -/
def steadyMonitorWorld (status : PodStatus) : MonitorWorld :=
  { timerFirst := fun _ => false, elapsed := fun i => 5000000000 * ((i : Int) + 1),
    get := fun _ => .ok status }

/-- A running pod whose container `app` has restarted twice, is ready, and
whose pod is scheduled. -/
def statusRestartedTwice : PodStatus :=
  { Phase := "Running",
    ContainerStatuses := [{ Name := "app", RestartCount := 2, Ready := true }],
    Conditions := [{ Kind := PodScheduled, Status := "True", Message := "" }] }

/-- A running pod with the container `init`, which is not ready and has not
restarted, the container `app`, which is ready and has restarted twice, the
container `sidecar`, which is not ready and has restarted once, and a
`PodScheduled` condition with status `False`. -/
def statusTroubled : PodStatus :=
  { Phase := "Running",
    ContainerStatuses :=
      [{ Name := "init", RestartCount := 0, Ready := false },
       { Name := "app", RestartCount := 2, Ready := true },
       { Name := "sidecar", RestartCount := 1, Ready := false }],
    Conditions :=
      [{ Kind := "Ready", Status := "False", Message := "containers not ready" },
       { Kind := PodScheduled, Status := ConditionFalse, Message := "0/3 nodes available" }] }

/-- The world `quietWorld items draw` in which the campaign's `range` over the
label map takes the order picked by `seed`. -/
def rangeWorld (seed : Nat) (items : List Pod) (draw : Nat → Nat) : World :=
  { quietWorld items draw with rangeSeed := seed }

/-! ## `selectRandomPods` with a log of its draws -/

/-- The loop of `selectRandomPods` (`selectLoop`) that also records, for every
call of `rand.Intn`, the length of the working copy `podCopy` handed to it and
the index it returned. -/
def selectLoopLog {α : Type} (draws : Nat → Nat) :
    Nat → Nat → List α → List α → Except Panic (List α) × List (Nat × Nat)
  | 0, _, _, selected => (.ok selected, [])
  | remaining + 1, i, podCopy, selected =>
    match Intn (draws i) (podCopy.length : Int) with
    | .error e => (.error e, [])
    | .ok randomIndex =>
      match podCopy[randomIndex]? with
      | none => (.error Panic.indexOutOfRange, [(podCopy.length, randomIndex)])
      | some pod =>
        let r := selectLoopLog draws remaining (i + 1)
          (podCopy.take randomIndex ++ podCopy.drop (randomIndex + 1))
          (selected ++ [pod])
        (r.1, (podCopy.length, randomIndex) :: r.2)

/-- The function `selectRandomPods` together with the log of its draws. -/
def selectRandomPodsLog {α : Type} (draws : Nat → Nat) (pods : List α) (count : Int) :
    Except Panic (List α) × List (Nat × Nat) :=
  if count ≥ (pods.length : Int) then (.ok pods, [])
  else if count < 0 then (.error Panic.makesliceCap, [])
  else selectLoopLog draws count.toNat 0 pods []

/-! ## Counting the draw sequences of a selection -/

/-- The draw sequences `(r_0, ..., r_{k-1})` with `r_i < n - i`: the values
that the `k` calls of `rand.Intn` in a selection of `k` out of `n` pods can
return. -/
def drawSequences : Nat → Nat → List (List Nat)
  | _, 0 => [[]]
  | n, k + 1 =>
    (List.range n).flatMap (fun r => (drawSequences (n - 1) k).map (fun ds => r :: ds))

/-- The positions that `selectRandomPods` selects out of `n` positions, `k`
of them, when the calls of `rand.Intn` return the values of `ds` in order. -/
def selectedPositions (n k : Nat) (ds : List Nat) : List (Fin n) :=
  match selectRandomPods (fun i => ds.getD i 0) (List.finRange n) (k : Int) with
  | .ok idxs => idxs
  | .error _ => []

/-! ## Label selectors and worker counts -/

/-- The label selector of a `List` call event. -/
def listSelectorOfEvent : Event → Option String
  | Event.listPods _ selector => some selector
  | _ => none

/-- The label selectors of the `List` calls of a trace, in order. -/
def listSelectors (t : List Event) : List String := t.filterMap listSelectorOfEvent

/-- The text `key=value` that the campaign functions format for one entry of
the label map, as characters. -/
def entryChars (kv : String × String) : List Char := kv.1.toList ++ '=' :: kv.2.toList

/-- A key or value without a comma, without an equals sign and without
leading or trailing white space. -/
def cleanText (s : String) : Prop :=
  ',' ∉ s.toList ∧ '=' ∉ s.toList ∧
    (∀ c, s.toList.head? = some c → isSpace c = false) ∧
    (∀ c, s.toList.getLast? = some c → isSpace c = false)

/-- The integers written right behind each occurrence of `pat` in a text, in
order of occurrence. -/
def numbersAfterChars (pat : List Char) : List Char → List Int
  | [] => []
  | c :: cs =>
    (if pat.isPrefixOf (c :: cs) then
      match readInt ((c :: cs).drop pat.length) with
      | some r => [r.1]
      | none => []
    else []) ++ numbersAfterChars pat cs

/-- The worker counts of a stress command: the integer arguments of every
`--cpu`, `--vm`, `--io` and `--hdd` option. -/
def workerCounts (cmd : String) : List Int :=
  numbersAfterChars "--cpu ".toList cmd.toList ++ numbersAfterChars "--vm ".toList cmd.toList ++
    numbersAfterChars "--io ".toList cmd.toList ++ numbersAfterChars "--hdd ".toList cmd.toList

/-- The loop bounds of a stress command: the integer `N` of every brace
range `\x7b1..N\x7d`. -/
def loopBounds (cmd : String) : List Int := numbersAfterChars "\x7b1..".toList cmd.toList

/-- A running pod that carries no `app` label. -/
def podDb : Pod :=
  { Name := "db", Labels := [("tier", "db")], Phase := "Running",
    DeletionTimestamp := none, Containers := ["postgres"] }

/-- A cluster with the pods `web` (labelled `app=web`) and `db` (no `app`
label): a `List` call restricted to the pods that have an `app` label
answers `web`, an unrestricted one answers both. -/
def twoTierWorld (draw : Nat → Nat) : World :=
  { quietWorld [podWeb, podDb] draw with mainList := .ok [podWeb] }

/-- The flags `-labels=filter -chaos-type=chaosType -intensity=intensity`,
the others at their defaults. -/
def flagsWith (filter chaosType : String) (intensity : Int) : Flags :=
  { flagsFor chaosType 1 with labelFilter := filter, intensity := intensity }

/-! ## Commands as sequences of segments

A synthesized command is a sequence of fixed texts, formatted integers and
formatted durations; the numbers behind an option are read off the
sequence. -/

/-- A segment of a command text: a fixed text, an integer formatted with
`%d`, or a duration formatted with `%s`. -/
inductive Seg where
  | lit (l : List Char)
  | num (z : Int)
  | dur (d : Duration)

/-- The characters of a segment. -/
def Seg.chars : Seg → List Char
  | Seg.lit l => l
  | Seg.num z => (fmtD z).toList
  | Seg.dur d => (Duration.String d).toList

/-- The text of a sequence of segments. -/
def render (segs : List Seg) : List Char := (segs.map Seg.chars).flatten

/-- The sequence starts with a fixed text whose first character is not a
digit. -/
def nextStops : List Seg → Bool
  | Seg.lit (c :: _) :: _ => !c.isDigit
  | _ => false

/-- The patterns that no formatted integer and no formatted duration can
hold: those that start with `--` or with an opening brace. -/
def patOK (pat : List Char) : Bool :=
  pat.head? == some (Char.ofNat 123) || pat.take 2 == ['-', '-']

/-- Reads the integers behind the occurrences of `pat` off a sequence of
segments in which `pat` occurs only as a whole fixed text followed by an
integer; `none` when the sequence is not of that form. -/
def scanSegs (pat : List Char) : List Seg → Option (List Int)
  | [] => some []
  | s :: rest =>
    match s, rest with
    | Seg.lit l, Seg.num z :: tail =>
      if l == pat then
        if noStart pat pat.tail && nextStops tail then (scanSegs pat rest).map (fun ns => z :: ns)
        else none
      else if noStart pat l then scanSegs pat rest
      else none
    | Seg.lit l, _ => if noStart pat l then scanSegs pat rest else none
    | Seg.num _, _ => scanSegs pat rest
    | Seg.dur _, _ => scanSegs pat rest

/-- The segments of the command of the CPU kind (and of an unrecognised
kind). -/
def cpuSegs (i : Int) (d : Duration) : List Seg :=
  [Seg.lit (baseCmd ++ stressCmdHead ++ "stress-ng ").toList, Seg.lit "--cpu ".toList,
    Seg.num (mulInt i 2), Seg.lit " --timeout ".toList, Seg.dur d,
    Seg.lit "; else timeout ".toList, Seg.dur d, Seg.lit " bash -c 'for i in ".toList,
    Seg.lit "\x7b1..".toList, Seg.num (mulInt i 2),
    Seg.lit "\x7d; do while true; do :; done & done; wait'; fi".toList]

/-- The segments of the command of the memory kind. -/
def memorySegs (i : Int) (d : Duration) : List Seg :=
  [Seg.lit (baseCmd ++ stressCmdHead ++ "stress-ng ").toList, Seg.lit "--vm ".toList,
    Seg.num i, Seg.lit " --vm-bytes ".toList, Seg.num (mulInt i 50),
    Seg.lit "M --timeout ".toList, Seg.dur d,
    Seg.lit "; else timeout ".toList, Seg.dur d, Seg.lit " bash -c 'for i in ".toList,
    Seg.lit "\x7b1..".toList, Seg.num i,
    Seg.lit "\x7d; do dd if=/dev/zero of=/dev/null bs=1M count=".toList,
    Seg.num (mulInt i 25), Seg.lit " & done; wait'; fi".toList]

/-- The segments of the command of the IO kind. -/
def ioSegs (i : Int) (d : Duration) : List Seg :=
  [Seg.lit (baseCmd ++ stressCmdHead ++ "stress-ng ").toList, Seg.lit "--io ".toList,
    Seg.num i, Seg.lit " ".toList, Seg.lit "--hdd ".toList, Seg.num (divInt i 2),
    Seg.lit " --hdd-bytes ".toList, Seg.num (mulInt i 25),
    Seg.lit "M --timeout ".toList, Seg.dur d,
    Seg.lit "; else timeout ".toList, Seg.dur d, Seg.lit " bash -c 'for i in ".toList,
    Seg.lit "\x7b1..".toList, Seg.num i,
    Seg.lit "\x7d; do dd if=/dev/zero of=/dev/null bs=1M & done; wait'; fi".toList]

/-- The segments of the command of the mixed kind. -/
def mixedSegs (i : Int) (d : Duration) : List Seg :=
  [Seg.lit (baseCmd ++ stressCmdHead ++ "stress-ng ").toList, Seg.lit "--cpu ".toList,
    Seg.num i, Seg.lit " ".toList, Seg.lit "--vm ".toList, Seg.num (divInt i 2),
    Seg.lit " --vm-bytes ".toList, Seg.num (mulInt i 25), Seg.lit "M ".toList,
    Seg.lit "--io ".toList, Seg.num (divInt i 2), Seg.lit " --timeout ".toList, Seg.dur d,
    Seg.lit "; else timeout ".toList, Seg.dur d, Seg.lit " bash -c 'for i in ".toList,
    Seg.lit "\x7b1..".toList, Seg.num i,
    Seg.lit "\x7d; do while true; do :; done & done; for i in ".toList,
    Seg.lit "\x7b1..".toList, Seg.num (divInt i 2),
    Seg.lit "\x7d; do dd if=/dev/zero of=/dev/null bs=1M & done; wait'; fi".toList]

/-- The characters that a formatted duration holds behind its sign: digits,
the decimal point and the unit letters. -/
def durChar (c : Char) : Prop := c.isDigit = true ∨ c ∈ ['.', 'h', 'm', 's', 'µ', 'n']

/-- The command of an `execInPod` call event. -/
def execCommand : Event → Option String
  | Event.execInPod _ _ _ command => some command
  | _ => none

/-- The commands of the `execInPod` calls of a trace, in order. -/
def execCommands (t : List Event) : List String := t.filterMap execCommand

/-! ## Theorems -/

/-! ### `selectRandomPods` -/

theorem Intn_pos (raw n : Nat) (h : 0 < n) : Intn raw (n : Int) = .ok (raw % n) := by
  unfold Intn
  have : ¬ ((n : Int) ≤ 0) := by omega
  simp [this]

theorem remove_perm {α : Type} (l : List α) (r : Nat) (h : r < l.length) :
    (l[r] :: (l.take r ++ l.drop (r + 1))).Perm l := by
  have h1 : l = l.take r ++ l[r] :: l.drop (r + 1) := by
    conv_lhs => rw [← List.take_append_drop r l]
    rw [List.drop_eq_getElem_cons h]
  conv_rhs => rw [h1]
  exact (List.perm_middle).symm

theorem selectLoop_spec {α : Type} (draws : Nat → Nat) :
    ∀ (rem i : Nat) (podCopy selected : List α), rem ≤ podCopy.length →
      ∃ picked rest, selectLoop draws rem i podCopy selected = .ok (selected ++ picked) ∧
        picked.length = rem ∧ (picked ++ rest).Perm podCopy := by
  intro rem
  induction rem with
  | zero =>
    intro i podCopy selected _
    exact ⟨[], podCopy, by simp [selectLoop], rfl, by simp⟩
  | succ rem ih =>
    intro i podCopy selected h
    have hpos : 0 < podCopy.length := by omega
    have hr : draws i % podCopy.length < podCopy.length := Nat.mod_lt _ hpos
    obtain ⟨picked, rest, h1, h2, h3⟩ := ih (i + 1)
      (podCopy.take (draws i % podCopy.length) ++ podCopy.drop (draws i % podCopy.length + 1))
      (selected ++ [podCopy[draws i % podCopy.length]]) (by
        simp [List.length_take, List.length_drop]; omega)
    refine ⟨podCopy[draws i % podCopy.length] :: picked, rest, ?_, by simp [h2], ?_⟩
    · simp only [selectLoop, Intn_pos _ _ hpos, List.getElem?_eq_getElem hr]
      rw [h1]; simp
    · exact ((List.Perm.cons _ h3).trans (remove_perm podCopy _ hr))

theorem selectLoop_map {α β : Type} (f : α → β) (draws : Nat → Nat) :
    ∀ (rem i : Nat) (podCopy selected : List α),
      selectLoop draws rem i (podCopy.map f) (selected.map f) =
        (selectLoop draws rem i podCopy selected).map (List.map f) := by
  intro rem
  induction rem with
  | zero => intro i podCopy selected; rfl
  | succ rem ih =>
    intro i podCopy selected
    simp only [selectLoop, List.length_map]
    cases hI : Intn (draws i) (podCopy.length : Int) with
    | error e => rfl
    | ok r =>
      simp only [List.getElem?_map]
      cases hg : podCopy[r]? with
      | none => rfl
      | some p =>
        simp only [Option.map_some']
        have := ih (i + 1) (podCopy.take r ++ podCopy.drop (r + 1)) (selected ++ [p])
        simpa [List.map_take, List.map_drop] using this

theorem selectRandomPods_map {α β : Type} (f : α → β) (draws : Nat → Nat) (pods : List α) (k : Int) :
    selectRandomPods draws (pods.map f) k = (selectRandomPods draws pods k).map (List.map f) := by
  unfold selectRandomPods
  simp only [List.length_map]
  split
  · rfl
  · split
    · rfl
    · simpa using selectLoop_map f draws k.toNat 0 pods []

theorem selectRandomPods_spec {α : Type} (draws : Nat → Nat) (pods : List α) (k : Int) (hk : 0 ≤ k) :
    ∃ l rest, selectRandomPods draws pods k = .ok l ∧ l.length = min k.toNat pods.length ∧
      (l ++ rest).Perm pods := by
  unfold selectRandomPods
  by_cases h : k ≥ (pods.length : Int)
  · refine ⟨pods, [], by simp [h], ?_, by simp⟩
    have : pods.length ≤ k.toNat := by omega
    omega
  · have h0 : ¬ k < 0 := by omega
    obtain ⟨picked, rest, h1, h2, h3⟩ := selectLoop_spec draws k.toNat 0 pods [] (by omega)
    refine ⟨picked, rest, by simpa [h, h0] using h1, ?_, h3⟩
    rw [h2]; omega


/-- C1: for every pod list, every count `k >= 0` and every sequence of random draws,
`selectRandomPods(pods, k)` returns a list of length exactly `min(k, len(pods))`. -/
theorem selectRandomPods_length {α : Type} (draws : Nat → Nat) (pods : List α) (k : Int)
    (hk : 0 ≤ k) :
    ∃ l, selectRandomPods draws pods k = .ok l ∧ (l.length : Int) = min k (pods.length : Int) := by
  obtain ⟨l, rest, h1, h2, _⟩ := selectRandomPods_spec draws pods k hk
  refine ⟨l, h1, ?_⟩
  rw [h2]; omega

/-- C1 (witness): three pods out of five. -/
theorem selectRandomPods_length_witness :
    ∃ l, selectRandomPods (fun i => 7 * i + 3) ["a", "b", "c", "d", "e"] 3 = .ok l ∧
      (l.length : Int) = min 3 ((["a", "b", "c", "d", "e"].length : Nat) : Int) :=
  selectRandomPods_length (fun i => 7 * i + 3) ["a", "b", "c", "d", "e"] 3 (by decide)

/-- C2: for every pod list, every count `k >= 0` and every sequence of random draws, the
result of `selectRandomPods(pods, k)` is read off pairwise distinct positions `idxs` of
`pods`; hence every returned element is an element of `pods`, and the returned elements
are pairwise distinct whenever the elements of `pods` are. -/
theorem selectRandomPods_distinct_positions {α : Type} (draws : Nat → Nat) (pods : List α)
    (k : Int) (hk : 0 ≤ k) :
    ∃ (l : List α) (idxs : List (Fin pods.length)),
      selectRandomPods draws pods k = .ok l ∧ idxs.Nodup ∧ l = idxs.map pods.get ∧
      (∀ x ∈ l, x ∈ pods) ∧ (pods.Nodup → l.Nodup) := by
  obtain ⟨idxs, rest, h1, _, h3⟩ :=
    selectRandomPods_spec draws (List.finRange pods.length) k hk
  have hnd : idxs.Nodup :=
    ((h3.nodup_iff).2 (List.nodup_finRange _)).of_append_left
  have hrun : selectRandomPods draws pods k = .ok (idxs.map pods.get) := by
    have := selectRandomPods_map pods.get draws (List.finRange pods.length) k
    rw [List.finRange_map_get, h1] at this
    exact this
  obtain ⟨l, rest2, g1, _, g3⟩ := selectRandomPods_spec draws pods k hk
  have hl : l = idxs.map pods.get := by
    rw [g1] at hrun; exact Except.ok.inj hrun
  refine ⟨l, idxs, g1, hnd, hl, ?_, ?_⟩
  · intro x hx
    exact g3.subset (List.mem_append_left _ hx)
  · intro hp
    exact ((g3.nodup_iff).2 hp).of_append_left

/-- C2 (witness): three pods out of five. -/
theorem selectRandomPods_distinct_positions_witness :
    ∃ (l : List String) (idxs : List (Fin ["a", "b", "c", "d", "e"].length)),
      selectRandomPods (fun i => 7 * i + 3) ["a", "b", "c", "d", "e"] 3 = .ok l ∧ idxs.Nodup ∧
      l = idxs.map ["a", "b", "c", "d", "e"].get ∧
      (∀ x ∈ l, x ∈ ["a", "b", "c", "d", "e"]) ∧ (["a", "b", "c", "d", "e"].Nodup → l.Nodup) :=
  selectRandomPods_distinct_positions (fun i => 7 * i + 3) ["a", "b", "c", "d", "e"] 3 (by decide)

/-! ### Projections of a trace -/

theorem actionTargets_append (s t : List Event) :
    actionTargets (s ++ t) = actionTargets s ++ actionTargets t := by
  simp [actionTargets, List.filterMap_append]

theorem actionTargets_cons (e : Event) (t : List Event) :
    actionTargets (e :: t) = (actionTarget e).toList ++ actionTargets t := by
  cases h : actionTarget e <;> simp [actionTargets, List.filterMap_cons, h]

theorem actionTargets_nil : actionTargets [] = [] := rfl

theorem deleteTargets_append (s t : List Event) :
    deleteTargets (s ++ t) = deleteTargets s ++ deleteTargets t := by
  simp [deleteTargets, List.filterMap_append]

theorem deleteTargets_cons (e : Event) (t : List Event) :
    deleteTargets (e :: t) = (deleteTarget e).toList ++ deleteTargets t := by
  cases h : deleteTarget e <;> simp [deleteTargets, List.filterMap_cons, h]

theorem deleteTargets_nil : deleteTargets [] = [] := rfl

theorem tallies_append (s t : List Event) : tallies (s ++ t) = tallies s ++ tallies t := by
  simp [tallies, List.filterMap_append]

theorem tallies_cons (e : Event) (t : List Event) :
    tallies (e :: t) = (tallyOf e).toList ++ tallies t := by
  cases h : tallyOf e <;> simp [tallies, List.filterMap_cons, h]

theorem tallies_nil : tallies [] = [] := rfl

theorem okReports_append (s t : List Event) :
    okReports (s ++ t) = okReports s ++ okReports t := by
  simp [okReports, List.filterMap_append]

theorem okReports_cons (e : Event) (t : List Event) :
    okReports (e :: t) = (okReport e).toList ++ okReports t := by
  cases h : okReport e <;> simp [okReports, List.filterMap_cons, h]

theorem okReports_nil : okReports [] = [] := rfl

theorem failReports_append (s t : List Event) :
    failReports (s ++ t) = failReports s ++ failReports t := by
  simp [failReports, List.filterMap_append]

theorem failReports_cons (e : Event) (t : List Event) :
    failReports (e :: t) = (failReport e).toList ++ failReports t := by
  cases h : failReport e <;> simp [failReports, List.filterMap_cons, h]

theorem failReports_nil : failReports [] = [] := rfl

theorem withContainer_cons_nil (pod : Pod) (rest : List Pod) (h : pod.Containers = []) :
    withContainer (pod :: rest) = withContainer rest := by
  simp [withContainer, h]

theorem withContainer_cons_some (pod : Pod) (rest : List Pod) (c : String) (cs : List String)
    (h : pod.Containers = c :: cs) :
    withContainer (pod :: rest) = pod.Name :: withContainer rest := by
  simp [withContainer, h]

/-! ### The victim loops -/

theorem stressJob_target (name : String) (cfg : ChaosConfig) (u : Int) :
    labelValue (stressJob name cfg u).Labels "target-pod" = name := by
  simp [stressJob, labelValue, List.find?]

theorem memStressJob_target (name : String) (cfg : ChaosConfig) (u : Int) :
    labelValue (memStressJob name cfg u).Labels "target-pod" = name := by
  simp [memStressJob, labelValue, List.find?]

theorem createLoop_actionTargets (w : World) (cfg : ChaosConfig)
    (job : String → ChaosConfig → Int → StressJob)
    (hjob : ∀ name u, labelValue (job name cfg u).Labels "target-pod" = name) (total : Nat) :
    ∀ (victims : List Pod) (i : Nat),
      actionTargets (createLoop w cfg job total i victims) = victims.map (fun pod => pod.Name) := by
  intro victims
  induction victims with
  | nil => intro i; rfl
  | cons pod rest ih =>
    intro i
    cases hE : w.createErr i <;>
      simp [createLoop, actionTargets_append, actionTargets_cons, actionTargets_nil, ih,
        actionTarget, hjob, hE]

theorem inPodLoop_spec (w : World) (cfg : ChaosConfig) (cmd : String) (mon : Bool)
    (total : Nat) :
    ∀ (victims : List Pod) (i calls : Nat),
      actionTargets (inPodLoop w cfg cmd mon total i calls victims) = withContainer victims ∧
      tallies (inPodLoop w cfg cmd mon total i calls victims) = [] ∧
      okReports (inPodLoop w cfg cmd mon total i calls victims) =
        succeededAt w.execErr calls (withContainer victims) ∧
      failReports (inPodLoop w cfg cmd mon total i calls victims) =
        failedAt w.execErr calls (withContainer victims) := by
  intro victims
  induction victims with
  | nil => intro i calls; exact ⟨rfl, rfl, rfl, rfl⟩
  | cons pod rest ih =>
    intro i calls
    unfold inPodLoop
    cases hC : pod.Containers with
    | nil =>
      obtain ⟨h1, h2, h3, h4⟩ := ih (i + 1) calls
      simp [actionTargets_cons, tallies_cons, okReports_cons, failReports_cons,
        h1, h2, h3, h4, withContainer_cons_nil pod rest hC,
        actionTarget, tallyOf, okReport, failReport]
    | cons c cs =>
      obtain ⟨h1, h2, h3, h4⟩ := ih (i + 1) (calls + 1)
      cases hE : w.execErr calls <;> cases mon <;>
        simp [actionTargets_append, tallies_append, okReports_append, failReports_append,
          actionTargets_cons, tallies_cons, okReports_cons, failReports_cons,
          actionTargets_nil, tallies_nil, okReports_nil, failReports_nil,
          h1, h2, h3, h4, withContainer_cons_some pod rest c cs hC,
          actionTarget, tallyOf, okReport, failReport, succeededAt, failedAt, hE]

theorem inPodCPULoop_spec (w : World) (cfg : ChaosConfig) (total : Nat) :
    ∀ (victims : List Pod) (i calls : Nat),
      actionTargets (inPodCPULoop w cfg total i calls victims) = withContainer victims ∧
      tallies (inPodCPULoop w cfg total i calls victims) = [] ∧
      okReports (inPodCPULoop w cfg total i calls victims) =
        succeededAt w.execErr calls (withContainer victims) ∧
      failReports (inPodCPULoop w cfg total i calls victims) =
        failedAt w.execErr calls (withContainer victims) := by
  intro victims
  induction victims with
  | nil => intro i calls; exact ⟨rfl, rfl, rfl, rfl⟩
  | cons pod rest ih =>
    intro i calls
    unfold inPodCPULoop
    cases hC : pod.Containers with
    | nil =>
      obtain ⟨h1, h2, h3, h4⟩ := ih (i + 1) calls
      simp [actionTargets_cons, tallies_cons, okReports_cons, failReports_cons,
        h1, h2, h3, h4, withContainer_cons_nil pod rest hC,
        actionTarget, tallyOf, okReport, failReport]
    | cons c cs =>
      obtain ⟨h1, h2, h3, h4⟩ := ih (i + 1) (calls + 1)
      cases hE : w.execErr calls <;>
        simp [actionTargets_append, tallies_append, okReports_append, failReports_append,
          actionTargets_cons, tallies_cons, okReports_cons, failReports_cons,
          actionTargets_nil, tallies_nil, okReports_nil, failReports_nil,
          h1, h2, h3, h4, withContainer_cons_some pod rest c cs hC,
          actionTarget, tallyOf, okReport, failReport, succeededAt, failedAt, hE]

theorem deleteLoop_spec (w : World) (ns : String) (total : Nat) :
    ∀ (victims : List Pod) (i : Nat) (deleted : List String),
      deleteTargets (deleteLoop w ns total i victims deleted).1 =
        victims.map (fun pod => pod.Name) ∧
      actionTargets (deleteLoop w ns total i victims deleted).1 =
        victims.map (fun pod => pod.Name) ∧
      tallies (deleteLoop w ns total i victims deleted).1 = [] ∧
      (deleteLoop w ns total i victims deleted).2 =
        deleted ++ succeededAt w.deleteErr i (victims.map (fun pod => pod.Name)) := by
  intro victims
  induction victims with
  | nil =>
    intro i deleted
    simp [deleteLoop, deleteTargets_nil, actionTargets_nil, tallies_nil, succeededAt]
  | cons pod rest ih =>
    intro i deleted
    unfold deleteLoop
    cases hE : w.deleteErr i with
    | none =>
      obtain ⟨h1, h2, h3, h4⟩ := ih (i + 1) (deleted ++ [pod.Name])
      simp [deleteTargets_append, actionTargets_append, tallies_append,
        deleteTargets_cons, actionTargets_cons, tallies_cons,
        deleteTargets_nil, actionTargets_nil, tallies_nil, h1, h2, h3, h4,
        deleteTarget, actionTarget, tallyOf, succeededAt, hE]
    | some err =>
      obtain ⟨h1, h2, h3, h4⟩ := ih (i + 1) deleted
      simp [deleteTargets_append, actionTargets_append, tallies_append,
        deleteTargets_cons, actionTargets_cons, tallies_cons,
        deleteTargets_nil, actionTargets_nil, tallies_nil, h1, h2, h3, h4,
        deleteTarget, actionTarget, tallyOf, succeededAt, hE]

/-! ### The campaign functions -/

theorem clampCount_actionTargets (k : Int) (n : Nat) : actionTargets (clampCount k n).2 = [] := by
  unfold clampCount; split <;> rfl

theorem clampCount_tallies (k : Int) (n : Nat) : tallies (clampCount k n).2 = [] := by
  unfold clampCount; split <;> rfl

theorem selectedOf_clamp (w : World) (k : Int) (n : Nat) (cands : List Pod) (c : Int)
    (t : List Event) :
    selectedOf w ((clampCount k n).2 ++ Event.selectPods cands c :: t) =
      (match selectRandomPods w.draws cands c with
        | .ok selected => selected
        | .error _ => []) := by
  unfold clampCount; split <;> rfl

theorem inPodCampaign_actions (w w2 : World) (cfg : ChaosConfig) (kind : String)
    (loop loop2 : List Pod → List Event) (hl : w2.list = w.list) (hd : w2.draws = w.draws)
    (hloop : ∀ v, actionTargets (loop v) = withContainer v)
    (hloop2 : ∀ v, actionTargets (loop2 v) = withContainer v) :
    (inPodCampaign w2 cfg kind loop2).result = (inPodCampaign w cfg kind loop).result ∧
    actionTargets (inPodCampaign w2 cfg kind loop2).trace =
      actionTargets (inPodCampaign w cfg kind loop).trace ∧
    actionTargets (inPodCampaign w cfg kind loop).trace =
      withContainer (selectedOf w (inPodCampaign w cfg kind loop).trace) ∧
    (actionTargets (inPodCampaign w cfg kind loop).trace ≠ [] →
      (inPodCampaign w cfg kind loop).result = .ok none) := by
  unfold inPodCampaign
  simp only [hl, hd]
  cases w.list with
  | error err => simp [actionTargets_cons, actionTargets_nil, actionTarget, selectedOf, withContainer]
  | ok items =>
    by_cases h0 : items.length = 0
    · simp [h0, actionTargets_cons, actionTargets_nil, actionTarget, selectedOf, withContainer]
    · by_cases h1 : (filterAvailableNoChaos items).length = 0
      · simp [h0, h1, actionTargets_cons, actionTargets_nil, actionTarget, selectedOf,
          withContainer]
      · simp only [h0, h1, if_false]
        cases hs : selectRandomPods w.draws (filterAvailableNoChaos items)
            (clampCount cfg.TargetCount (filterAvailableNoChaos items).length).1 with
        | error p =>
          simp [actionTargets_append, actionTargets_cons, actionTargets_nil,
            clampCount_actionTargets, actionTarget, selectedOf, selectedOf_clamp, hs,
            withContainer]
        | ok victims =>
          simp [actionTargets_append, actionTargets_cons, actionTargets_nil,
            clampCount_actionTargets, actionTarget, selectedOf, selectedOf_clamp, hs,
            hloop, hloop2]

theorem ApplyCPUStress_actions (w w2 : World) (cfg : ChaosConfig) (hl : w2.list = w.list)
    (hd : w2.draws = w.draws) :
    (ApplyCPUStress w2 cfg).result = (ApplyCPUStress w cfg).result ∧
    actionTargets (ApplyCPUStress w2 cfg).trace = actionTargets (ApplyCPUStress w cfg).trace ∧
    actionTargets (ApplyCPUStress w cfg).trace =
      (selectedOf w (ApplyCPUStress w cfg).trace).map (fun pod => pod.Name) ∧
    (actionTargets (ApplyCPUStress w cfg).trace ≠ [] →
      (ApplyCPUStress w cfg).result = .ok none) := by
  unfold ApplyCPUStress
  simp only [hl, hd]
  cases w.list with
  | error err => simp [actionTargets_cons, actionTargets_nil, actionTarget, selectedOf]
  | ok items =>
    by_cases h0 : items.length = 0
    · simp [h0, actionTargets_cons, actionTargets_nil, actionTarget, selectedOf]
    · simp only [h0, if_false]
      cases hs : selectRandomPods w.draws items (clampCount cfg.TargetCount items.length).1 with
      | error p =>
        simp [actionTargets_append, actionTargets_cons, actionTargets_nil,
          clampCount_actionTargets, actionTarget, selectedOf, selectedOf_clamp, hs]
      | ok victims =>
        simp [actionTargets_append, actionTargets_cons, actionTargets_nil,
          clampCount_actionTargets, actionTarget, selectedOf, selectedOf_clamp, hs,
          createLoop_actionTargets _ cfg stressJob (fun n u => stressJob_target n cfg u)]

theorem ApplyMemoryStress_actions (w w2 : World) (cfg : ChaosConfig) (hl : w2.list = w.list)
    (hd : w2.draws = w.draws) :
    (ApplyMemoryStress w2 cfg).result = (ApplyMemoryStress w cfg).result ∧
    actionTargets (ApplyMemoryStress w2 cfg).trace =
      actionTargets (ApplyMemoryStress w cfg).trace ∧
    actionTargets (ApplyMemoryStress w cfg).trace =
      (selectedOf w (ApplyMemoryStress w cfg).trace).map (fun pod => pod.Name) ∧
    (actionTargets (ApplyMemoryStress w cfg).trace ≠ [] →
      (ApplyMemoryStress w cfg).result = .ok none) := by
  unfold ApplyMemoryStress
  simp only [hl, hd]
  cases w.list with
  | error err => simp [actionTargets_cons, actionTargets_nil, actionTarget, selectedOf]
  | ok items =>
    by_cases h0 : items.length = 0
    · simp [h0, actionTargets_cons, actionTargets_nil, actionTarget, selectedOf]
    · simp only [h0, if_false]
      cases hs : selectRandomPods w.draws items cfg.TargetCount with
      | error p =>
        simp [actionTargets_append, actionTargets_cons, actionTargets_nil,
          actionTarget, selectedOf, hs]
      | ok victims =>
        simp [actionTargets_append, actionTargets_cons, actionTargets_nil,
          actionTarget, selectedOf, hs,
          createLoop_actionTargets _ cfg memStressJob (fun n u => memStressJob_target n cfg u)]

theorem applyPodDeleteChaos_actions (w w2 : World) (avail : List Pod) (cfg : ChaosConfig)
    (hd : w2.draws = w.draws) :
    (applyPodDeleteChaos w2 avail cfg false).result =
      (applyPodDeleteChaos w avail cfg false).result ∧
    actionTargets (applyPodDeleteChaos w2 avail cfg false).trace =
      actionTargets (applyPodDeleteChaos w avail cfg false).trace ∧
    actionTargets (applyPodDeleteChaos w avail cfg false).trace =
      (selectedOf w (applyPodDeleteChaos w avail cfg false).trace).map (fun pod => pod.Name) ∧
    (actionTargets (applyPodDeleteChaos w avail cfg false).trace ≠ [] →
      (applyPodDeleteChaos w avail cfg false).result = .ok none) := by
  unfold applyPodDeleteChaos
  simp only [hd]
  cases hs : selectRandomPods w.draws avail (clampCount cfg.TargetCount avail.length).1 with
  | error p =>
    simp [actionTargets_append, actionTargets_cons, actionTargets_nil,
      clampCount_actionTargets, actionTarget, selectedOf, selectedOf_clamp, hs]
  | ok victims =>
    simp [actionTargets_append, actionTargets_cons, actionTargets_nil,
      clampCount_actionTargets, actionTarget, selectedOf, selectedOf_clamp, hs,
      (deleteLoop_spec _ _ _ _ _ _).2.1]

/-- C9: for every campaign kind (every value of the chaos type, dispatched as `main`
does, dry-run off), every selection and every pattern of per-victim outcomes: two worlds
that differ only in the outcomes of the delete, create and exec calls see the same
result and the same sequence of per-victim actions; the action is attempted on each
selected victim in order (an in-pod campaign skips a victim that declares no
container); and whenever an action was attempted the campaign function returns a nil
error. -/
theorem per_victim_failure_never_aborts (w w2 : World) (avail : List Pod) (cfg : ChaosConfig)
    (hl : w2.list = w.list) (hd : w2.draws = w.draws) :
    (dispatch w2 avail cfg false).result = (dispatch w avail cfg false).result ∧
    actionTargets (dispatch w2 avail cfg false).trace =
      actionTargets (dispatch w avail cfg false).trace ∧
    actionTargets (dispatch w avail cfg false).trace =
      attempted cfg.ChaosType (selectedOf w (dispatch w avail cfg false).trace) ∧
    (actionTargets (dispatch w avail cfg false).trace ≠ [] →
      (dispatch w avail cfg false).result = .ok none) := by
  unfold dispatch
  by_cases h1 : cfg.ChaosType = ChaosTypePodDelete
  · have hk : cfg.ChaosType ∉ inPodKinds := by rw [h1]; decide
    simpa [h1, attempted, hk] using applyPodDeleteChaos_actions w w2 avail cfg hd
  by_cases h2 : cfg.ChaosType = ChaosTypeCPUStress
  · have hk : cfg.ChaosType ∉ inPodKinds := by rw [h2]; decide
    simpa [h1, h2, attempted, hk] using ApplyCPUStress_actions w w2 cfg hl hd
  by_cases h3 : cfg.ChaosType = ChaosTypeMemoryStress
  · have hk : cfg.ChaosType ∉ inPodKinds := by rw [h3]; decide
    simpa [h1, h2, h3, attempted, hk] using ApplyMemoryStress_actions w w2 cfg hl hd
  by_cases h4 : cfg.ChaosType = ChaosTypeInPodCPUStress
  · have hk : cfg.ChaosType ∈ inPodKinds := by rw [h4]; decide
    simpa [h1, h2, h3, h4, attempted, hk, ApplyInPodCPUStress] using
      inPodCampaign_actions w w2 cfg "in-pod-cpu-stress" _ _ hl hd
        (fun v => (inPodCPULoop_spec w cfg v.length v 0 0).1)
        (fun v => (inPodCPULoop_spec w2 cfg v.length v 0 0).1)
  by_cases h5 : cfg.ChaosType = ChaosTypeInPodMemoryStress
  · have hk : cfg.ChaosType ∈ inPodKinds := by rw [h5]; decide
    simpa [h1, h2, h3, h4, h5, attempted, hk, ApplyInPodMemoryStress] using
      inPodCampaign_actions w w2 cfg "in-pod-memory-stress" _ _ hl hd
        (fun v => (inPodLoop_spec w cfg _ false v.length v 0 0).1)
        (fun v => (inPodLoop_spec w2 cfg _ false v.length v 0 0).1)
  by_cases h6 : cfg.ChaosType = ChaosTypeInPodMixedStress
  · have hk : cfg.ChaosType ∈ inPodKinds := by rw [h6]; decide
    simpa [h1, h2, h3, h4, h5, h6, attempted, hk, ApplyInPodMixedStress] using
      inPodCampaign_actions w w2 cfg "in-pod-mixed-stress" _ _ hl hd
        (fun v => (inPodLoop_spec w cfg _ false v.length v 0 0).1)
        (fun v => (inPodLoop_spec w2 cfg _ false v.length v 0 0).1)
  by_cases h7 : cfg.ChaosType = ChaosTypeKillProcess
  · have hk : cfg.ChaosType ∈ inPodKinds := by rw [h7]; decide
    simpa [h1, h2, h3, h4, h5, h6, h7, attempted, hk, ApplyKillProcessChaos] using
      inPodCampaign_actions w w2 cfg "kill-process" _ _ hl hd
        (fun v => (inPodLoop_spec w cfg _ true v.length v 0 0).1)
        (fun v => (inPodLoop_spec w2 cfg _ true v.length v 0 0).1)
  by_cases h8 : cfg.ChaosType = ChaosTypeCorruptMemory
  · have hk : cfg.ChaosType ∈ inPodKinds := by rw [h8]; decide
    simpa [h1, h2, h3, h4, h5, h6, h7, h8, attempted, hk, ApplyCorruptMemoryChaos] using
      inPodCampaign_actions w w2 cfg "corrupt-memory" _ _ hl hd
        (fun v => (inPodLoop_spec w cfg _ true v.length v 0 0).1)
        (fun v => (inPodLoop_spec w2 cfg _ true v.length v 0 0).1)
  have hk : cfg.ChaosType ∉ inPodKinds := by
    simp [inPodKinds, h4, h5, h6, h7, h8]
  simpa [h1, h2, h3, h4, h5, h6, h7, h8, attempted, hk, actionTargets_cons, actionTarget,
    selectedOf] using applyPodDeleteChaos_actions w w2 avail cfg hd

theorem succeededAt_all {α : Type} (err : Nat → Option String) (h : ∀ i, err i = none) :
    ∀ (xs : List α) (j : Nat), succeededAt err j xs = xs := by
  intro xs
  induction xs with
  | nil => intro j; rfl
  | cons x xs ih => intro j; simp [succeededAt, h, ih]

theorem filter_not_mem_of_perm (victims rest avail : List Pod)
    (hp : (victims ++ rest).Perm avail)
    (hn : (avail.map (fun pod => pod.Name)).Nodup) :
    (avail.filter (fun pod => decide (pod.Name ∉ victims.map (fun pod => pod.Name)))).length =
      rest.length := by
  have hn2 : ((victims ++ rest).map (fun pod => pod.Name)).Nodup :=
    ((hp.map _).nodup_iff).2 hn
  rw [← (hp.filter _).length_eq, List.filter_append, List.length_append]
  have e1 : victims.filter
      (fun pod => decide (pod.Name ∉ victims.map (fun pod => pod.Name))) = [] := by
    rw [List.filter_eq_nil_iff]
    intro pod hpod
    simpa using ⟨pod, hpod, rfl⟩
  have e2 : rest.filter
      (fun pod => decide (pod.Name ∉ victims.map (fun pod => pod.Name))) = rest := by
    rw [List.filter_eq_self]
    intro pod hpod
    rw [List.map_append] at hn2
    have hdis := (List.nodup_append.1 hn2).2.2
    have hmem : pod.Name ∈ rest.map (fun pod => pod.Name) := List.mem_map_of_mem _ hpod
    simpa using fun hv => hdis hv hmem
  rw [e1, e2]; simp

/-- C10: for every eligible pod list with pairwise distinct names, every requested count
`k` with `0 <= k <= n`, dry-run off and every pattern of delete outcomes,
`applyPodDeleteChaos` returns normally, issues delete calls for exactly `k` pairwise
distinct pod names, all from the eligible list; exactly `n - k` eligible pods receive no
delete call; the printed tally is `s/k` with `s` the number of deletes that returned no
error, hence `k/k` when every delete succeeds. -/
theorem pod_delete_deletes_exactly_k (w : World) (avail : List Pod) (cfg : ChaosConfig)
    (hn : (avail.map (fun pod => pod.Name)).Nodup) (h0 : 0 ≤ cfg.TargetCount)
    (hk : cfg.TargetCount ≤ (avail.length : Int)) :
    (applyPodDeleteChaos w avail cfg false).result = .ok none ∧
    ((deleteTargets (applyPodDeleteChaos w avail cfg false).trace).length : Int) =
      cfg.TargetCount ∧
    (deleteTargets (applyPodDeleteChaos w avail cfg false).trace).Nodup ∧
    (∀ name ∈ deleteTargets (applyPodDeleteChaos w avail cfg false).trace,
      name ∈ avail.map (fun pod => pod.Name)) ∧
    (((avail.filter (fun pod =>
        decide (pod.Name ∉ deleteTargets (applyPodDeleteChaos w avail cfg false).trace))).length :
        Nat) : Int) = (avail.length : Int) - cfg.TargetCount ∧
    tallies (applyPodDeleteChaos w avail cfg false).trace =
      [((succeededAt w.deleteErr 0
          (deleteTargets (applyPodDeleteChaos w avail cfg false).trace)).length,
        cfg.TargetCount.toNat)] ∧
    ((∀ i, w.deleteErr i = none) →
      tallies (applyPodDeleteChaos w avail cfg false).trace =
        [(cfg.TargetCount.toNat, cfg.TargetCount.toNat)]) := by
  have hc : clampCount cfg.TargetCount avail.length = (cfg.TargetCount, []) := by
    unfold clampCount
    have : ¬ cfg.TargetCount > (avail.length : Int) := by omega
    simp [this]
  obtain ⟨victims, rest, hs, hlen, hperm⟩ :=
    selectRandomPods_spec w.draws avail cfg.TargetCount h0
  have hlen2 : victims.length = cfg.TargetCount.toNat := by omega
  obtain ⟨d1, _, d3, d4⟩ := deleteLoop_spec w cfg.Namespace victims.length victims 0 []
  have htr : deleteTargets (applyPodDeleteChaos w avail cfg false).trace =
      victims.map (fun pod => pod.Name) := by
    simp [applyPodDeleteChaos, hc, hs, deleteTargets_append, deleteTargets_cons,
      deleteTargets_nil, deleteTarget, d1]
  have hta : tallies (applyPodDeleteChaos w avail cfg false).trace =
      [((succeededAt w.deleteErr 0 (victims.map (fun pod => pod.Name))).length,
        cfg.TargetCount.toNat)] := by
    simp [applyPodDeleteChaos, hc, hs, tallies_append, tallies_cons, tallies_nil, tallyOf, d3,
      d4]
    exact hlen2
  have hnv : (victims.map (fun pod => pod.Name)).Nodup := by
    have := ((hperm.map (fun pod => pod.Name)).nodup_iff).2 hn
    rw [List.map_append] at this
    exact this.of_append_left
  rw [htr]
  refine ⟨by simp [applyPodDeleteChaos, hc, hs], by simp; omega, hnv, ?_, ?_, hta, ?_⟩
  · intro name hname
    obtain ⟨pod, hpod, rfl⟩ := List.mem_map.1 hname
    exact List.mem_map_of_mem _ (hperm.subset (List.mem_append_left _ hpod))
  · rw [filter_not_mem_of_perm victims rest avail hperm hn]
    have := hperm.length_eq
    simp at this
    omega
  · intro hall
    rw [hta, succeededAt_all _ hall]
    simp [hlen2]

/-! ### Reading numbers back -/

theorem agree_of_isPrefixOf (pat : List Char) :
    ∀ (s b : List Char), pat.isPrefixOf (s ++ b) = true → agree pat s = true := by
  induction pat with
  | nil => intro s b _; simp [agree]
  | cons p ps ih =>
    intro s b h
    cases s with
    | nil => rfl
    | cons c cs =>
      simp only [List.cons_append, List.isPrefixOf, Bool.and_eq_true] at h
      simp only [agree, Bool.and_eq_true]
      exact ⟨h.1, ih cs b h.2⟩

theorem afterFirst_skip (pat : List Char) :
    ∀ (a b : List Char), noStart pat a = true → afterFirst pat (a ++ b) = afterFirst pat b := by
  intro a
  induction a with
  | nil => intro b _; rfl
  | cons c cs ih =>
    intro b h
    simp only [noStart, Bool.and_eq_true, Bool.not_eq_true'] at h
    have hne : pat.isPrefixOf (c :: cs ++ b) = false := by
      cases hx : pat.isPrefixOf (c :: cs ++ b) with
      | false => rfl
      | true =>
        have := agree_of_isPrefixOf pat (c :: cs) b hx
        rw [h.1] at this
        exact absurd this (by decide)
    simp only [List.cons_append] at hne ⊢
    simp only [afterFirst, hne]
    exact ih b h.2

theorem isPrefixOf_append_self (pat rest : List Char) : pat.isPrefixOf (pat ++ rest) = true := by
  induction pat with
  | nil => simp [List.isPrefixOf]
  | cons p ps ih => simp [List.isPrefixOf, ih]

theorem afterFirst_here (pat rest : List Char) (hp : pat ≠ []) :
    afterFirst pat (pat ++ rest) = some rest := by
  cases pat with
  | nil => exact absurd rfl hp
  | cons p ps =>
    have h := isPrefixOf_append_self (p :: ps) rest
    simp only [List.cons_append] at h ⊢
    simp [afterFirst, h]

theorem digitChar_isDigit (d : Nat) (h : d < 10) : (Nat.digitChar d).isDigit = true := by
  interval_cases d <;> decide

theorem digitChar_value (d : Nat) (h : d < 10) : (Nat.digitChar d).toNat - 48 = d := by
  interval_cases d <;> decide

theorem toDigitsCore_spec :
    ∀ (fuel n : Nat) (ds : List Char), n < fuel →
      ∃ body : List Char, Nat.toDigitsCore 10 fuel n ds = body ++ ds ∧ body ≠ [] ∧
        (∀ c ∈ body, c.isDigit = true) ∧ digitsValue body = n := by
  intro fuel
  induction fuel with
  | zero => intro n ds h; omega
  | succ fuel ih =>
    intro n ds h
    unfold Nat.toDigitsCore
    by_cases h0 : n / 10 = 0
    · refine ⟨[Nat.digitChar (n % 10)], by simp [h0], by simp, ?_, ?_⟩
      · intro c hc
        rw [List.mem_singleton] at hc
        rw [hc]; exact digitChar_isDigit _ (Nat.mod_lt _ (by decide))
      · simp only [digitsValue, List.foldl]
        rw [digitChar_value _ (Nat.mod_lt _ (by decide))]
        omega
    · obtain ⟨body, e, _, hd, hv⟩ := ih (n / 10) (Nat.digitChar (n % 10) :: ds) (by omega)
      refine ⟨body ++ [Nat.digitChar (n % 10)], by simp [h0, e], by simp, ?_, ?_⟩
      · intro c hc
        rcases List.mem_append.1 hc with hc | hc
        · exact hd c hc
        · rw [List.mem_singleton] at hc
          rw [hc]; exact digitChar_isDigit _ (Nat.mod_lt _ (by decide))
      · simp only [digitsValue, List.foldl_append, List.foldl] at hv ⊢
        rw [hv, digitChar_value _ (Nat.mod_lt _ (by decide))]
        omega

theorem toDigits_spec (n : Nat) :
    Nat.toDigits 10 n ≠ [] ∧ (∀ c ∈ Nat.toDigits 10 n, c.isDigit = true) ∧
      digitsValue (Nat.toDigits 10 n) = n := by
  obtain ⟨body, e, h1, h2, h3⟩ := toDigitsCore_spec (n + 1) n [] (by omega)
  have e2 : Nat.toDigits 10 n = body := by simpa [Nat.toDigits] using e
  rw [e2]; exact ⟨h1, h2, h3⟩

theorem takeWhile_digits (ds rest : List Char) (hd : ∀ c ∈ ds, c.isDigit = true)
    (hr : stops rest) :
    (ds ++ rest).takeWhile Char.isDigit = ds ∧ (ds ++ rest).dropWhile Char.isDigit = rest := by
  induction ds with
  | nil =>
    cases rest with
    | nil => simp
    | cons c cs =>
      have := hr c rfl
      simp [List.takeWhile, List.dropWhile, this]
  | cons d ds ih =>
    have hd1 := hd d (List.mem_cons_self _ _)
    obtain ⟨i1, i2⟩ := ih (fun c hc => hd c (List.mem_cons_of_mem _ hc))
    simp [List.takeWhile, List.dropWhile, hd1, i1, i2]

theorem readNat_toDigits (n : Nat) (rest : List Char) (hr : stops rest) :
    readNat (Nat.toDigits 10 n ++ rest) = some (n, rest) := by
  obtain ⟨h1, h2, h3⟩ := toDigits_spec n
  obtain ⟨t1, t2⟩ := takeWhile_digits _ rest h2 hr
  unfold readNat
  rw [t1, t2, h3]
  cases hx : Nat.toDigits 10 n with
  | nil => exact absurd hx h1
  | cons c cs => simp

theorem fmtD_toList (z : Int) :
    (fmtD z).toList =
      if z < 0 then '-' :: Nat.toDigits 10 z.natAbs else Nat.toDigits 10 z.toNat := by
  unfold fmtD
  split <;> simp [Nat.repr, List.asString, String.toList]

theorem readInt_fmtD (z : Int) (rest : List Char) (hr : stops rest) :
    readInt ((fmtD z).toList ++ rest) = some (z, rest) := by
  rw [fmtD_toList]
  by_cases hz : z < 0
  · simp only [hz, if_true, List.cons_append, readInt]
    rw [readNat_toDigits _ _ hr]
    have : -((z.natAbs : Nat) : Int) = z := by omega
    simp only [Option.map_some', this]
  · simp only [hz, if_false]
    obtain ⟨h1, h2, _⟩ := toDigits_spec z.toNat
    cases hx : Nat.toDigits 10 z.toNat with
    | nil => exact absurd hx h1
    | cons c cs =>
      have hc : c.isDigit = true := h2 c (by rw [hx]; exact List.mem_cons_self _ _)
      have hne : c ≠ '-' := by
        intro h; rw [h] at hc; exact absurd hc (by decide)
      simp only [List.cons_append, readInt, hne, if_false]
      rw [← List.cons_append, ← hx, readNat_toDigits _ _ hr]
      have : ((z.toNat : Nat) : Int) = z := by omega
      simp only [Option.map_some', this]

theorem stops_cons (c : Char) (r : List Char) (h : c.isDigit = false) : stops (c :: r) := by
  intro x hx
  simp only [List.head?_cons, Option.some.injEq] at hx
  rw [← hx]; exact h

theorem noStart_digits (tl : List Char) :
    ∀ ds : List Char, (∀ c ∈ ds, c.isDigit = true) → noStart ('-' :: tl) ds = true := by
  intro ds
  induction ds with
  | nil => intro _; rfl
  | cons c cs ih =>
    intro h
    have hc := h c (List.mem_cons_self _ _)
    have hne : ('-' == c) = false := by
      cases hx : ('-' == c) with
      | false => rfl
      | true =>
        have : c = '-' := (beq_iff_eq.1 hx).symm
        rw [this] at hc; exact absurd hc (by decide)
    simp only [noStart, agree, hne, Bool.false_and, Bool.not_false, Bool.true_and]
    exact ih (fun x hx => h x (List.mem_cons_of_mem _ hx))

theorem noStart_fmtD (tl : List Char) (z : Int) :
    noStart ('-' :: '-' :: tl) (fmtD z).toList = true := by
  rw [fmtD_toList]
  obtain ⟨h1, h2, _⟩ := toDigits_spec z.natAbs
  obtain ⟨_, g2, _⟩ := toDigits_spec z.toNat
  split
  · cases hx : Nat.toDigits 10 z.natAbs with
    | nil => exact absurd hx h1
    | cons c cs =>
      have hc : c.isDigit = true := h2 c (by rw [hx]; exact List.mem_cons_self _ _)
      have hne : ('-' == c) = false := by
        cases hy : ('-' == c) with
        | false => rfl
        | true =>
          have : c = '-' := (beq_iff_eq.1 hy).symm
          rw [this] at hc; exact absurd hc (by decide)
      have := noStart_digits ('-' :: tl) (c :: cs) (by rw [← hx]; exact h2)
      simp [noStart, agree, hne] at this ⊢
      exact this
  · exact noStart_digits _ _ g2

set_option maxRecDepth 100000 in
theorem head_noStart_cpu :
    noStart "--cpu ".toList (baseCmd ++ stressCmdHead ++ "stress-ng ").toList = true := by
  decide

set_option maxRecDepth 100000 in
theorem head_noStart_vm :
    noStart "--vm ".toList (baseCmd ++ stressCmdHead ++ "stress-ng ").toList = true := by
  decide

set_option maxRecDepth 100000 in
theorem head_noStart_vmBytes :
    noStart "--vm-bytes ".toList (baseCmd ++ stressCmdHead ++ "stress-ng --vm ").toList = true := by
  decide

theorem parseFlag_of_shape (flag cmd : String) (a rest : List Char) (z : Int)
    (hshape : cmd.toList = a ++ ((flag.toList ++ [' ']) ++ ((fmtD z).toList ++ rest)))
    (ha : noStart (flag.toList ++ [' ']) a = true) (hr : stops rest) :
    parseFlag flag cmd = some (z, rest) := by
  unfold parseFlag
  rw [hshape, afterFirst_skip _ _ _ ha, afterFirst_here _ _ (by simp)]
  simp only [Option.bind_eq_bind, Option.some_bind]
  exact readInt_fmtD z rest hr

theorem cpu_shape (i : Int) (d : Duration) :
    (generateStressCommand StressCommandCPU i d).toList =
      (baseCmd ++ stressCmdHead ++ "stress-ng ").toList ++
        (("--cpu".toList ++ [' ']) ++
          ((fmtD (mulInt i 2)).toList ++
            (" --timeout " ++ Duration.String d ++ "; else " ++ cpuFallback i d ++ "; fi").toList)) := by
  have e : "stress-ng --cpu ".data = "stress-ng ".data ++ ("--cpu".data ++ [' ']) := by decide
  simp [generateStressCommand, cpuInvocation, String.toList, String.data_append, e,
    List.append_assoc]

theorem memory_shape_vm (i : Int) (d : Duration) :
    (generateStressCommand StressCommandMemory i d).toList =
      (baseCmd ++ stressCmdHead ++ "stress-ng ").toList ++
        (("--vm".toList ++ [' ']) ++
          ((fmtD i).toList ++
            (" --vm-bytes " ++ fmtD (mulInt i 50) ++ "M --timeout " ++ Duration.String d ++
              "; else " ++ memoryFallback i d ++ "; fi").toList)) := by
  have e : "stress-ng --vm ".data = "stress-ng ".data ++ ("--vm".data ++ [' ']) := by decide
  have hne : ¬ StressCommandMemory = StressCommandCPU := by decide
  simp [generateStressCommand, memoryInvocation, String.toList, String.data_append, e,
    List.append_assoc, hne]

theorem memory_shape_vmBytes (i : Int) (d : Duration) :
    (generateStressCommand StressCommandMemory i d).toList =
      (baseCmd ++ stressCmdHead ++ "stress-ng --vm ").toList ++
        ((fmtD i).toList ++ ([' '] ++ ("--vm-bytes ".toList ++
          ((fmtD (mulInt i 50)).toList ++
            ("M --timeout " ++ Duration.String d ++ "; else " ++ memoryFallback i d ++
              "; fi").toList)))) := by
  have e : " --vm-bytes ".data = [' '] ++ "--vm-bytes ".data := by decide
  have hne : ¬ StressCommandMemory = StressCommandCPU := by decide
  simp [generateStressCommand, memoryInvocation, String.toList, String.data_append, e,
    List.append_assoc, hne]

theorem wrapInt_of_range (x : Int) (h1 : -2 ^ 63 ≤ x) (h2 : x < 2 ^ 63) : wrapInt x = x := by
  unfold wrapInt
  rw [Int.emod_eq_of_lt (by omega) (by omega)]
  omega

/-- C7: for every intensity and duration the command of the CPU kind holds the invocation
`stress-ng --cpu N --timeout D` with `N` the Go product `intensity*2`, the command of the
memory kind holds `stress-ng --vm V --vm-bytes BM --timeout D` with `V = intensity` and `B`
the Go product `intensity*50`, `D` being the duration's string form; reading the numbers
back from the command text recovers `N`, `V` and `B`; and these products are the exact
products `i*2` and `i*50` whenever `i*50` fits Go's 64-bit `int`. -/
theorem stress_command_scaling (i : Int) (d : Duration) :
    generateStressCommand StressCommandCPU i d =
      baseCmd ++ (stressCmdHead ++
        ("stress-ng --cpu " ++ fmtD (mulInt i 2) ++ " --timeout " ++ Duration.String d) ++
        "; else " ++ cpuFallback i d ++ "; fi") ∧
    parseFlag "--cpu" (generateStressCommand StressCommandCPU i d) =
      some (mulInt i 2,
        (" --timeout " ++ Duration.String d ++ "; else " ++ cpuFallback i d ++ "; fi").toList) ∧
    generateStressCommand StressCommandMemory i d =
      baseCmd ++ (stressCmdHead ++
        ("stress-ng --vm " ++ fmtD i ++ " --vm-bytes " ++ fmtD (mulInt i 50) ++ "M --timeout " ++
          Duration.String d) ++
        "; else " ++ memoryFallback i d ++ "; fi") ∧
    parseFlag "--vm" (generateStressCommand StressCommandMemory i d) =
      some (i,
        (" --vm-bytes " ++ fmtD (mulInt i 50) ++ "M --timeout " ++ Duration.String d ++
          "; else " ++ memoryFallback i d ++ "; fi").toList) ∧
    parseFlag "--vm-bytes" (generateStressCommand StressCommandMemory i d) =
      some (mulInt i 50,
        ("M --timeout " ++ Duration.String d ++ "; else " ++ memoryFallback i d ++
          "; fi").toList) ∧
    (-2 ^ 63 ≤ i * 50 ∧ i * 50 < 2 ^ 63 → mulInt i 2 = i * 2 ∧ mulInt i 50 = i * 50) := by
  refine ⟨?_, ?_, ?_, ?_, ?_, ?_⟩
  · simp [generateStressCommand, cpuInvocation]
  · refine parseFlag_of_shape _ _ _ _ _ (cpu_shape i d) head_noStart_cpu ?_
    have e : ∀ s : String, (" --timeout " ++ s).toList = ' ' :: ("--timeout " ++ s).toList := by
      intro s; simp [String.toList, String.data_append]
    simp only [String.append_assoc]
    rw [e]; exact stops_cons _ _ (by decide)
  · have hne : ¬ StressCommandMemory = StressCommandCPU := by decide
    simp [generateStressCommand, memoryInvocation, hne]
  · refine parseFlag_of_shape _ _ _ _ _ (memory_shape_vm i d) head_noStart_vm ?_
    have e : ∀ s : String, (" --vm-bytes " ++ s).toList = ' ' :: ("--vm-bytes " ++ s).toList := by
      intro s; simp [String.toList, String.data_append]
    simp only [String.append_assoc]
    rw [e]; exact stops_cons _ _ (by decide)
  · unfold parseFlag
    have ep : "--vm-bytes".toList ++ [' '] = '-' :: '-' :: "vm-bytes ".toList := by decide
    have ep2 : "--vm-bytes ".toList = '-' :: '-' :: "vm-bytes ".toList := by decide
    have hA : noStart ('-' :: '-' :: "vm-bytes ".toList)
        (baseCmd ++ stressCmdHead ++ "stress-ng --vm ").toList = true := by
      rw [← ep2]; exact head_noStart_vmBytes
    rw [memory_shape_vmBytes, ep, ep2, afterFirst_skip _ _ _ hA,
      afterFirst_skip _ _ _ (noStart_fmtD _ i), afterFirst_skip _ _ _ (by decide),
      afterFirst_here _ _ (by simp)]
    simp only [Option.bind_eq_bind, Option.some_bind]
    refine readInt_fmtD _ _ ?_
    have e : ∀ s : String, ("M --timeout " ++ s).toList = 'M' :: (" --timeout " ++ s).toList := by
      intro s; simp [String.toList, String.data_append]
    simp only [String.append_assoc]
    rw [e]; exact stops_cons _ _ (by decide)
  · rintro ⟨h1, h2⟩
    unfold mulInt
    rw [wrapInt_of_range _ (by omega) (by omega), wrapInt_of_range _ h1 h2]
    exact ⟨rfl, rfl⟩

theorem clampCount_okReports (k : Int) (n : Nat) : okReports (clampCount k n).2 = [] := by
  unfold clampCount; split <;> rfl

theorem clampCount_failReports (k : Int) (n : Nat) : failReports (clampCount k n).2 = [] := by
  unfold clampCount; split <;> rfl

theorem inPodCampaign_reports (w : World) (cfg : ChaosConfig) (kind : String)
    (loop : List Pod → List Event)
    (hloop : ∀ v, actionTargets (loop v) = withContainer v ∧ tallies (loop v) = [] ∧
      okReports (loop v) = succeededAt w.execErr 0 (withContainer v) ∧
      failReports (loop v) = failedAt w.execErr 0 (withContainer v)) :
    tallies (inPodCampaign w cfg kind loop).trace = [] ∧
    actionTargets (inPodCampaign w cfg kind loop).trace =
      withContainer (selectedOf w (inPodCampaign w cfg kind loop).trace) ∧
    okReports (inPodCampaign w cfg kind loop).trace =
      succeededAt w.execErr 0
        (withContainer (selectedOf w (inPodCampaign w cfg kind loop).trace)) ∧
    failReports (inPodCampaign w cfg kind loop).trace =
      failedAt w.execErr 0
        (withContainer (selectedOf w (inPodCampaign w cfg kind loop).trace)) := by
  unfold inPodCampaign
  cases w.list with
  | error err =>
    simp [actionTargets_cons, actionTargets_nil, actionTarget, tallies_cons, tallies_nil, tallyOf,
      okReports_cons, okReports_nil, okReport, failReports_cons, failReports_nil, failReport,
      selectedOf, withContainer, succeededAt, failedAt]
  | ok items =>
    by_cases h0 : items.length = 0
    · simp [h0, actionTargets_cons, actionTargets_nil, actionTarget, tallies_cons, tallies_nil,
        tallyOf, okReports_cons, okReports_nil, okReport, failReports_cons, failReports_nil,
        failReport, selectedOf, withContainer, succeededAt, failedAt]
    · by_cases h1 : (filterAvailableNoChaos items).length = 0
      · simp [h0, h1, actionTargets_cons, actionTargets_nil, actionTarget, tallies_cons,
          tallies_nil, tallyOf, okReports_cons, okReports_nil, okReport, failReports_cons,
          failReports_nil, failReport, selectedOf, withContainer, succeededAt, failedAt]
      · simp only [h0, h1, if_false]
        cases hs : selectRandomPods w.draws (filterAvailableNoChaos items)
            (clampCount cfg.TargetCount (filterAvailableNoChaos items).length).1 with
        | error p =>
          simp [actionTargets_append, actionTargets_cons, actionTargets_nil,
            clampCount_actionTargets, actionTarget, tallies_append, tallies_cons, tallies_nil,
            clampCount_tallies, tallyOf, okReports_append, okReports_cons, okReports_nil,
            clampCount_okReports, okReport, failReports_append, failReports_cons,
            failReports_nil, clampCount_failReports, failReport, selectedOf, selectedOf_clamp,
            hs, withContainer, succeededAt, failedAt]
        | ok victims =>
          obtain ⟨l1, l2, l3, l4⟩ := hloop victims
          simp [actionTargets_append, actionTargets_cons, actionTargets_nil,
            clampCount_actionTargets, actionTarget, tallies_append, tallies_cons, tallies_nil,
            clampCount_tallies, tallyOf, okReports_append, okReports_cons, okReports_nil,
            clampCount_okReports, okReport, failReports_append, failReports_cons,
            failReports_nil, clampCount_failReports, failReport, selectedOf, selectedOf_clamp,
            hs, l1, l2, l3, l4]

/-- C8 (amended): every in-pod campaign function prints no aggregate tally; it calls
`execInPod` once for each selected victim that declares a container, prints one success
line for each of these whose exec returned no error and one failure line for each of
these whose exec returned an error. -/
theorem in_pod_campaign_reports_per_victim (w : World) (cfg : ChaosConfig) :
    ∀ f ∈ [ApplyInPodCPUStress, ApplyInPodMemoryStress, ApplyInPodMixedStress,
        ApplyKillProcessChaos, ApplyCorruptMemoryChaos],
      tallies (f w cfg).trace = [] ∧
      actionTargets (f w cfg).trace = withContainer (selectedOf w (f w cfg).trace) ∧
      okReports (f w cfg).trace =
        succeededAt w.execErr 0 (withContainer (selectedOf w (f w cfg).trace)) ∧
      failReports (f w cfg).trace =
        failedAt w.execErr 0 (withContainer (selectedOf w (f w cfg).trace)) := by
  intro f hf
  simp only [List.mem_cons, List.mem_singleton, List.not_mem_nil, or_false] at hf
  rcases hf with rfl | rfl | rfl | rfl | rfl
  · exact inPodCampaign_reports w cfg _ _ (fun v => inPodCPULoop_spec w cfg v.length v 0 0)
  · exact inPodCampaign_reports w cfg _ _ (fun v => inPodLoop_spec w cfg _ false v.length v 0 0)
  · exact inPodCampaign_reports w cfg _ _ (fun v => inPodLoop_spec w cfg _ false v.length v 0 0)
  · exact inPodCampaign_reports w cfg _ _ (fun v => inPodLoop_spec w cfg _ true v.length v 0 0)
  · exact inPodCampaign_reports w cfg _ _ (fun v => inPodLoop_spec w cfg _ true v.length v 0 0)

/-- C8 (counterexample): three victims are selected, the exec fails on the first and
succeeds on the other two; `ApplyInPodMemoryStress` prints one failure line and two
success lines and no tally at all, and returns a nil error: no `attempted=3, succeeded=2`
is reported. -/
theorem in_pod_campaign_prints_no_tally :
    actionTargets (ApplyInPodMemoryStress
      (firstFailsWorld [podNamed "a", podNamed "b", podNamed "c"] (fun _ => 0))
      (configFor ChaosTypeInPodMemoryStress 3)).trace = ["a", "b", "c"] ∧
    failReports (ApplyInPodMemoryStress
      (firstFailsWorld [podNamed "a", podNamed "b", podNamed "c"] (fun _ => 0))
      (configFor ChaosTypeInPodMemoryStress 3)).trace = ["a"] ∧
    okReports (ApplyInPodMemoryStress
      (firstFailsWorld [podNamed "a", podNamed "b", podNamed "c"] (fun _ => 0))
      (configFor ChaosTypeInPodMemoryStress 3)).trace = ["b", "c"] ∧
    ¬ tallies (ApplyInPodMemoryStress
      (firstFailsWorld [podNamed "a", podNamed "b", podNamed "c"] (fun _ => 0))
      (configFor ChaosTypeInPodMemoryStress 3)).trace = [(2, 3)] ∧
    tallies (ApplyInPodMemoryStress
      (firstFailsWorld [podNamed "a", podNamed "b", podNamed "c"] (fun _ => 0))
      (configFor ChaosTypeInPodMemoryStress 3)).trace = [] := by
  decide

/-- C5 (amended): when the listing succeeds and is empty, each of the seven campaign
functions returns the error "no pods found in namespace <ns>"; when the listing succeeds,
is not empty and no listed pod passes the filter of the in-pod campaigns, each of the five
in-pod campaign functions returns the error "no available pods found in namespace <ns>
(excluding chaos pods)" (`ApplyCPUStress` and `ApplyMemoryStress` do not filter); in all
these cases the function selects nothing and makes no create, exec or delete call. -/
theorem no_target_campaign_returns_error (w : World) (cfg : ChaosConfig) (items : List Pod)
    (hl : w.list = .ok items) :
    (items = [] →
      ∀ f ∈ [ApplyCPUStress, ApplyMemoryStress, ApplyInPodCPUStress, ApplyInPodMemoryStress,
          ApplyInPodMixedStress, ApplyKillProcessChaos, ApplyCorruptMemoryChaos],
        (f w cfg).result = .ok (some ("no pods found in namespace " ++ cfg.Namespace)) ∧
        candidatesOf (f w cfg).trace = [] ∧ actionTargets (f w cfg).trace = []) ∧
    (items ≠ [] → filterAvailableNoChaos items = [] →
      ∀ f ∈ [ApplyInPodCPUStress, ApplyInPodMemoryStress, ApplyInPodMixedStress,
          ApplyKillProcessChaos, ApplyCorruptMemoryChaos],
        (f w cfg).result =
          .ok (some ("no available pods found in namespace " ++ cfg.Namespace ++
            " (excluding chaos pods)")) ∧
        candidatesOf (f w cfg).trace = [] ∧ actionTargets (f w cfg).trace = []) := by
  constructor
  · intro he f hf
    subst he
    simp only [List.mem_cons, List.mem_singleton, List.not_mem_nil, or_false] at hf
    rcases hf with rfl | rfl | rfl | rfl | rfl | rfl | rfl
    · simp [ApplyCPUStress, hl, candidatesOf, candidatesOfEvent, actionTargets, actionTarget]
    · simp [ApplyMemoryStress, hl, candidatesOf, candidatesOfEvent, actionTargets, actionTarget]
    all_goals
      simp [ApplyInPodCPUStress, ApplyInPodMemoryStress, ApplyInPodMixedStress,
        ApplyKillProcessChaos, ApplyCorruptMemoryChaos, inPodCampaign, hl,
        candidatesOf, candidatesOfEvent, actionTargets, actionTarget]
  · intro hne he f hf
    have h0 : ¬ items.length = 0 := fun h => hne (List.length_eq_zero.mp h)
    simp only [List.mem_cons, List.mem_singleton, List.not_mem_nil, or_false] at hf
    rcases hf with rfl | rfl | rfl | rfl | rfl <;>
      simp [ApplyInPodCPUStress, ApplyInPodMemoryStress, ApplyInPodMixedStress,
        ApplyKillProcessChaos, ApplyCorruptMemoryChaos, inPodCampaign, hl, he, h0,
        candidatesOf, candidatesOfEvent, actionTargets, actionTarget]

/-- C5 (counterexample): on an empty listing, and on a listing whose pods are all
filtered out, the campaign function returns an error value, not nil. -/
theorem empty_listing_returns_error :
    (ApplyInPodCPUStress (quietWorld [] (fun _ => 0))
      (configFor ChaosTypeInPodCPUStress 1)).result =
        .ok (some "no pods found in namespace default") ∧
    (ApplyCPUStress (quietWorld [] (fun _ => 0)) (configFor ChaosTypeCPUStress 1)).result =
        .ok (some "no pods found in namespace default") ∧
    (ApplyInPodCPUStress (quietWorld [podBatch, podStressRunner] (fun _ => 0))
      (configFor ChaosTypeInPodCPUStress 1)).result =
        .ok (some "no available pods found in namespace default (excluding chaos pods)") := by
  refine ⟨rfl, rfl, ?_⟩
  rfl

/-- C3 (the code at the failing input): the cluster lists a running pod and a pod in phase
`Failed`; `main` with `-chaos-type=cpu-stress` (and likewise `memory-stress`) hands both
pods to `selectRandomPods`, and with the raw draw 1 the stress job is created for the
failed pod. -/
theorem cpu_stress_candidates_include_failed_pod :
    podBatch.Phase = PodFailed ∧
    candidatesOf (mainChaos (quietWorld [podWeb, podBatch] (fun _ => 1))
      (flagsFor ChaosTypeCPUStress 1)).trace = [[podWeb, podBatch]] ∧
    createTargets (mainChaos (quietWorld [podWeb, podBatch] (fun _ => 1))
      (flagsFor ChaosTypeCPUStress 1)).trace = ["batch"] ∧
    candidatesOf (mainChaos (quietWorld [podWeb, podBatch] (fun _ => 1))
      (flagsFor ChaosTypeMemoryStress 1)).trace = [[podWeb, podBatch]] ∧
    candidatesOf (mainChaos (quietWorld [podWeb, podBatch] (fun _ => 1))
      (flagsFor ChaosTypeInPodCPUStress 1)).trace = [[podWeb]] ∧
    candidatesOf (mainChaos (quietWorld [podWeb, podBatch] (fun _ => 1))
      (flagsFor ChaosTypePodDelete 1)).trace = [[podWeb]] := by
  decide

/-- C4 (the code at the failing input): the cluster lists a running application pod and a
running stress-runner pod labelled `chaos-type=cpu-stress`; `main` with
`-chaos-type=cpu-stress` hands both to `selectRandomPods` and, with the raw draw 1,
creates a stress job for the stress runner; with `-chaos-type=pod-delete` it hands both
to `selectRandomPods` too and deletes the stress runner; the in-pod sibling leaves the
stress runner out. -/
theorem chaos_labelled_pod_is_a_candidate :
    labelValue podStressRunner.Labels "chaos-type" = "cpu-stress" ∧
    candidatesOf (mainChaos (quietWorld [podWeb, podStressRunner] (fun _ => 1))
      (flagsFor ChaosTypeCPUStress 1)).trace = [[podWeb, podStressRunner]] ∧
    createTargets (mainChaos (quietWorld [podWeb, podStressRunner] (fun _ => 1))
      (flagsFor ChaosTypeCPUStress 1)).trace = ["stress-web-1700000000"] ∧
    candidatesOf (mainChaos (quietWorld [podWeb, podStressRunner] (fun _ => 1))
      (flagsFor ChaosTypePodDelete 1)).trace = [[podWeb, podStressRunner]] ∧
    deleteTargets (mainChaos (quietWorld [podWeb, podStressRunner] (fun _ => 1))
      (flagsFor ChaosTypePodDelete 1)).trace = ["stress-web-1700000000"] ∧
    candidatesOf (mainChaos (quietWorld [podWeb, podStressRunner] (fun _ => 1))
      (flagsFor ChaosTypeInPodCPUStress 1)).trace = [[podWeb]] := by
  decide

/-- C6 (the code at the failing input): two victims are requested and one pod is listed;
`ApplyMemoryStress` stresses that one pod and returns nil, and prints no clamp warning,
where `ApplyCPUStress` prints the warning for the same request. -/
theorem memory_stress_clamps_without_warning :
    (ApplyMemoryStress (quietWorld [podWeb] (fun _ => 0))
      (configFor ChaosTypeMemoryStress 2)).result = .ok none ∧
    createTargets (ApplyMemoryStress (quietWorld [podWeb] (fun _ => 0))
      (configFor ChaosTypeMemoryStress 2)).trace = ["web"] ∧
    clampWarnings (ApplyMemoryStress (quietWorld [podWeb] (fun _ => 0))
      (configFor ChaosTypeMemoryStress 2)).trace = [] ∧
    clampWarnings (ApplyCPUStress (quietWorld [podWeb] (fun _ => 0))
      (configFor ChaosTypeCPUStress 2)).trace = [(2, 1)] := by
  refine ⟨rfl, ?_, ?_, ?_⟩ <;> decide

/-- C5 (witness): on an empty listing `ApplyMemoryStress` and `ApplyKillProcessChaos`
return "no pods found in namespace default"; on a listing of a failed pod and a stress
runner, which the in-pod filter removes, `ApplyInPodMixedStress` returns "no available
pods found in namespace default (excluding chaos pods)". -/
theorem no_target_campaign_returns_error_witness :
    (quietWorld [] (fun _ => 0)).list = .ok [] ∧
    (ApplyMemoryStress (quietWorld [] (fun _ => 0)) (configFor ChaosTypeMemoryStress 1)).result =
      .ok (some "no pods found in namespace default") ∧
    (ApplyKillProcessChaos (quietWorld [] (fun _ => 0))
      (configFor ChaosTypeKillProcess 1)).result =
      .ok (some "no pods found in namespace default") ∧
    filterAvailableNoChaos [podBatch, podStressRunner] = [] ∧
    (ApplyInPodMixedStress (quietWorld [podBatch, podStressRunner] (fun _ => 0))
      (configFor ChaosTypeInPodMixedStress 1)).result =
      .ok (some "no available pods found in namespace default (excluding chaos pods)") ∧
    candidatesOf (ApplyInPodMixedStress (quietWorld [podBatch, podStressRunner] (fun _ => 0))
      (configFor ChaosTypeInPodMixedStress 1)).trace = [] :=
  ⟨rfl,
    ((no_target_campaign_returns_error (quietWorld [] (fun _ => 0))
      (configFor ChaosTypeMemoryStress 1) [] rfl).1 rfl ApplyMemoryStress (by simp)).1,
    ((no_target_campaign_returns_error (quietWorld [] (fun _ => 0))
      (configFor ChaosTypeKillProcess 1) [] rfl).1 rfl ApplyKillProcessChaos (by simp)).1,
    by decide,
    ((no_target_campaign_returns_error (quietWorld [podBatch, podStressRunner] (fun _ => 0))
      (configFor ChaosTypeInPodMixedStress 1) [podBatch, podStressRunner] rfl).2
        (by simp) (by decide) ApplyInPodMixedStress (by simp)).1,
    ((no_target_campaign_returns_error (quietWorld [podBatch, podStressRunner] (fun _ => 0))
      (configFor ChaosTypeInPodMixedStress 1) [podBatch, podStressRunner] rfl).2
        (by simp) (by decide) ApplyInPodMixedStress (by simp)).2.1⟩

/-- C9 (witness). -/
theorem per_victim_failure_never_aborts_witness :
    (dispatch (firstFailsWorld [podNamed "a", podNamed "b", podNamed "c"] (fun _ => 0))
        [podNamed "a", podNamed "b", podNamed "c"]
        (configFor ChaosTypeInPodMixedStress 3) false).result =
      (dispatch (quietWorld [podNamed "a", podNamed "b", podNamed "c"] (fun _ => 0))
        [podNamed "a", podNamed "b", podNamed "c"]
        (configFor ChaosTypeInPodMixedStress 3) false).result ∧
    actionTargets (dispatch (firstFailsWorld [podNamed "a", podNamed "b", podNamed "c"] (fun _ => 0))
        [podNamed "a", podNamed "b", podNamed "c"]
        (configFor ChaosTypeInPodMixedStress 3) false).trace =
      actionTargets (dispatch (quietWorld [podNamed "a", podNamed "b", podNamed "c"] (fun _ => 0))
        [podNamed "a", podNamed "b", podNamed "c"]
        (configFor ChaosTypeInPodMixedStress 3) false).trace :=
  ⟨(per_victim_failure_never_aborts
      (quietWorld [podNamed "a", podNamed "b", podNamed "c"] (fun _ => 0))
      (firstFailsWorld [podNamed "a", podNamed "b", podNamed "c"] (fun _ => 0))
      [podNamed "a", podNamed "b", podNamed "c"] (configFor ChaosTypeInPodMixedStress 3)
      rfl rfl).1,
   (per_victim_failure_never_aborts
      (quietWorld [podNamed "a", podNamed "b", podNamed "c"] (fun _ => 0))
      (firstFailsWorld [podNamed "a", podNamed "b", podNamed "c"] (fun _ => 0))
      [podNamed "a", podNamed "b", podNamed "c"] (configFor ChaosTypeInPodMixedStress 3)
      rfl rfl).2.1⟩

/-- C10 (witness): five eligible pods, three deletes requested, every delete succeeds:
three distinct pods are deleted, two are left, the tally is 3/3. -/
theorem pod_delete_deletes_exactly_k_witness :
    tallies (applyPodDeleteChaos (quietWorld [] (fun i => i + 1))
      [podNamed "a", podNamed "b", podNamed "c", podNamed "d", podNamed "e"]
      (configFor ChaosTypePodDelete 3) false).trace = [(3, 3)] ∧
    (([podNamed "a", podNamed "b", podNamed "c", podNamed "d", podNamed "e"].filter (fun pod =>
        decide (pod.Name ∉ deleteTargets (applyPodDeleteChaos (quietWorld [] (fun i => i + 1))
          [podNamed "a", podNamed "b", podNamed "c", podNamed "d", podNamed "e"]
          (configFor ChaosTypePodDelete 3) false).trace))).length : Int) = 5 - 3 :=
  ⟨(pod_delete_deletes_exactly_k (quietWorld [] (fun i => i + 1))
      [podNamed "a", podNamed "b", podNamed "c", podNamed "d", podNamed "e"]
      (configFor ChaosTypePodDelete 3) (by decide) (by decide) (by decide)).2.2.2.2.2.2
      (fun _ => rfl),
   (pod_delete_deletes_exactly_k (quietWorld [] (fun i => i + 1))
      [podNamed "a", podNamed "b", podNamed "c", podNamed "d", podNamed "e"]
      (configFor ChaosTypePodDelete 3) (by decide) (by decide) (by decide)).2.2.2.2.1⟩

/-- C7 (witness): intensity 5 and 30 seconds. -/
theorem stress_command_scaling_witness :
    parseFlag "--cpu" (generateStressCommand StressCommandCPU 5 30000000000) =
      some (mulInt 5 2,
        (" --timeout " ++ Duration.String 30000000000 ++ "; else " ++
          cpuFallback 5 30000000000 ++ "; fi").toList) ∧
    mulInt 5 2 = 5 * 2 ∧ mulInt 5 50 = 5 * 50 :=
  ⟨(stress_command_scaling 5 30000000000).2.1,
    (stress_command_scaling 5 30000000000).2.2.2.2.2 (by decide)⟩

/-- C8 (witness): `ApplyInPodMemoryStress` on three victims, the first exec failing. -/
theorem in_pod_campaign_reports_per_victim_witness :
    tallies (ApplyInPodMemoryStress
      (firstFailsWorld [podNamed "a", podNamed "b", podNamed "c"] (fun _ => 0))
      (configFor ChaosTypeInPodMemoryStress 3)).trace = [] :=
  (in_pod_campaign_reports_per_victim
    (firstFailsWorld [podNamed "a", podNamed "b", podNamed "c"] (fun _ => 0))
    (configFor ChaosTypeInPodMemoryStress 3) ApplyInPodMemoryStress (by simp)).1

/-! ### The candidates of the kinds that filter, the warning of the kinds that clamp -/

theorem candidatesOf_append (s t : List Event) :
    candidatesOf (s ++ t) = candidatesOf s ++ candidatesOf t := by
  simp [candidatesOf, List.filterMap_append]

theorem candidatesOf_cons (e : Event) (t : List Event) :
    candidatesOf (e :: t) = (candidatesOfEvent e).toList ++ candidatesOf t := by
  cases h : candidatesOfEvent e <;> simp [candidatesOf, List.filterMap_cons, h]

theorem candidatesOf_nil : candidatesOf [] = [] := rfl

theorem clampWarnings_append (s t : List Event) :
    clampWarnings (s ++ t) = clampWarnings s ++ clampWarnings t := by
  simp [clampWarnings, List.filterMap_append]

theorem clampWarnings_cons (e : Event) (t : List Event) :
    clampWarnings (e :: t) = (clampWarningOf e).toList ++ clampWarnings t := by
  cases h : clampWarningOf e <;> simp [clampWarnings, List.filterMap_cons, h]

theorem clampWarnings_nil : clampWarnings [] = [] := rfl

theorem createLoop_quiet (w : World) (cfg : ChaosConfig)
    (job : String → ChaosConfig → Int → StressJob) (total : Nat) :
    ∀ (victims : List Pod) (i : Nat),
      candidatesOf (createLoop w cfg job total i victims) = [] ∧
      clampWarnings (createLoop w cfg job total i victims) = [] := by
  intro victims
  induction victims with
  | nil => intro i; exact ⟨rfl, rfl⟩
  | cons pod rest ih =>
    intro i
    obtain ⟨h1, h2⟩ := ih (i + 1)
    cases hE : w.createErr i <;>
      simp [createLoop, candidatesOf_append, candidatesOf_cons, candidatesOf_nil,
        clampWarnings_append, clampWarnings_cons, clampWarnings_nil, h1, h2,
        candidatesOfEvent, clampWarningOf, hE]

theorem inPodLoop_quiet (w : World) (cfg : ChaosConfig) (cmd : String) (mon : Bool)
    (total : Nat) :
    ∀ (victims : List Pod) (i calls : Nat),
      candidatesOf (inPodLoop w cfg cmd mon total i calls victims) = [] ∧
      clampWarnings (inPodLoop w cfg cmd mon total i calls victims) = [] := by
  intro victims
  induction victims with
  | nil => intro i calls; exact ⟨rfl, rfl⟩
  | cons pod rest ih =>
    intro i calls
    unfold inPodLoop
    cases hC : pod.Containers with
    | nil =>
      obtain ⟨h1, h2⟩ := ih (i + 1) calls
      simp [candidatesOf_cons, clampWarnings_cons, h1, h2, candidatesOfEvent, clampWarningOf]
    | cons c cs =>
      obtain ⟨h1, h2⟩ := ih (i + 1) (calls + 1)
      cases hE : w.execErr calls <;> cases mon <;>
        simp [candidatesOf_append, candidatesOf_cons, candidatesOf_nil,
          clampWarnings_append, clampWarnings_cons, clampWarnings_nil, h1, h2,
          candidatesOfEvent, clampWarningOf, hE]

theorem inPodCPULoop_quiet (w : World) (cfg : ChaosConfig) (total : Nat) :
    ∀ (victims : List Pod) (i calls : Nat),
      candidatesOf (inPodCPULoop w cfg total i calls victims) = [] ∧
      clampWarnings (inPodCPULoop w cfg total i calls victims) = [] := by
  intro victims
  induction victims with
  | nil => intro i calls; exact ⟨rfl, rfl⟩
  | cons pod rest ih =>
    intro i calls
    unfold inPodCPULoop
    cases hC : pod.Containers with
    | nil =>
      obtain ⟨h1, h2⟩ := ih (i + 1) calls
      simp [candidatesOf_cons, clampWarnings_cons, h1, h2, candidatesOfEvent, clampWarningOf]
    | cons c cs =>
      obtain ⟨h1, h2⟩ := ih (i + 1) (calls + 1)
      cases hE : w.execErr calls <;>
        simp [candidatesOf_append, candidatesOf_cons, candidatesOf_nil,
          clampWarnings_append, clampWarnings_cons, clampWarnings_nil, h1, h2,
          candidatesOfEvent, clampWarningOf, hE]

theorem deleteLoop_quiet (w : World) (ns : String) (total : Nat) :
    ∀ (victims : List Pod) (i : Nat) (deleted : List String),
      candidatesOf (deleteLoop w ns total i victims deleted).1 = [] ∧
      clampWarnings (deleteLoop w ns total i victims deleted).1 = [] := by
  intro victims
  induction victims with
  | nil => intro i deleted; exact ⟨rfl, rfl⟩
  | cons pod rest ih =>
    intro i deleted
    unfold deleteLoop
    cases hE : w.deleteErr i with
    | none =>
      obtain ⟨h1, h2⟩ := ih (i + 1) (deleted ++ [pod.Name])
      simp [candidatesOf_append, candidatesOf_cons, candidatesOf_nil,
        clampWarnings_append, clampWarnings_cons, clampWarnings_nil, h1, h2,
        candidatesOfEvent, clampWarningOf]
    | some err =>
      obtain ⟨h1, h2⟩ := ih (i + 1) deleted
      simp [candidatesOf_append, candidatesOf_cons, candidatesOf_nil,
        clampWarnings_append, clampWarnings_cons, clampWarnings_nil, h1, h2,
        candidatesOfEvent, clampWarningOf]

theorem clampCount_candidatesOf (k : Int) (n : Nat) : candidatesOf (clampCount k n).2 = [] := by
  unfold clampCount; split <;> rfl

theorem filterAvailable_spec (items : List Pod) :
    ∀ pod ∈ filterAvailable items,
      pod.Phase ≠ PodSucceeded ∧ pod.Phase ≠ PodFailed ∧ pod.DeletionTimestamp = none := by
  intro pod h
  have := (List.mem_filter.1 h).2
  simpa [notTerminal, Option.isNone_iff_eq_none, and_assoc] using this

theorem filterAvailableNoChaos_spec (items : List Pod) :
    ∀ pod ∈ filterAvailableNoChaos items,
      labelValue pod.Labels "chaos-type" = "" ∧
      pod.Phase ≠ PodSucceeded ∧ pod.Phase ≠ PodFailed ∧ pod.DeletionTimestamp = none := by
  intro pod h
  have := (List.mem_filter.1 h).2
  by_cases hc : labelValue pod.Labels "chaos-type" = ""
  · simpa [hc, notTerminal, Option.isNone_iff_eq_none, and_assoc] using this
  · simp [hc] at this

/-- The candidates of the five in-pod campaign functions carry no `chaos-type` label and
are neither `Succeeded`, nor `Failed`, nor being deleted. -/
theorem inPodCampaign_candidates (w : World) (cfg : ChaosConfig) (kind : String)
    (loop : List Pod → List Event) (hloop : ∀ v, candidatesOf (loop v) = []) :
    ∀ cands ∈ candidatesOf (inPodCampaign w cfg kind loop).trace, ∀ pod ∈ cands,
      labelValue pod.Labels "chaos-type" = "" ∧
      pod.Phase ≠ PodSucceeded ∧ pod.Phase ≠ PodFailed ∧ pod.DeletionTimestamp = none := by
  unfold inPodCampaign
  cases w.list with
  | error err => simp [candidatesOf_cons, candidatesOf_nil, candidatesOfEvent]
  | ok items =>
    by_cases h0 : items.length = 0
    · simp [h0, candidatesOf_cons, candidatesOf_nil, candidatesOfEvent]
    · by_cases h1 : (filterAvailableNoChaos items).length = 0
      · simp [h0, h1, candidatesOf_cons, candidatesOf_nil, candidatesOfEvent]
      · simp only [h0, h1, if_false]
        cases hs : selectRandomPods w.draws (filterAvailableNoChaos items)
            (clampCount cfg.TargetCount (filterAvailableNoChaos items).length).1 <;>
          simp only [candidatesOf_append, candidatesOf_cons, candidatesOf_nil,
            clampCount_candidatesOf, candidatesOfEvent, hloop, Option.toList,
            List.nil_append, List.append_nil, List.singleton_append, List.mem_singleton,
            forall_eq] <;>
          exact filterAvailableNoChaos_spec items

/-- The candidates of `applyPodDeleteChaos` are the pods it is given, which `main` has
filtered by phase and deletion timestamp. -/
theorem applyPodDeleteChaos_candidates (w : World) (avail : List Pod) (cfg : ChaosConfig)
    (dryRun : Bool) :
    candidatesOf (applyPodDeleteChaos w avail cfg dryRun).trace = [avail] := by
  unfold applyPodDeleteChaos
  cases hs : selectRandomPods w.draws avail (clampCount cfg.TargetCount avail.length).1 with
  | error p =>
    simp [hs, candidatesOf_append, candidatesOf_cons, candidatesOf_nil,
      clampCount_candidatesOf, candidatesOfEvent]
  | ok victims =>
    have hdry : ∀ (l : List Pod) (i : Nat), candidatesOf (dryRunLines i l) = [] := by
      intro l
      induction l with
      | nil => intro i; rfl
      | cons p ps ih => intro i; simp [dryRunLines, candidatesOf_cons, candidatesOfEvent, ih]
    cases dryRun <;>
      simp [hs, candidatesOf_append, candidatesOf_cons, candidatesOf_nil,
        clampCount_candidatesOf, candidatesOfEvent, (deleteLoop_quiet _ _ _ _ _ _).1, hdry]

/-- The kinds that clamp warn: when more victims are requested than the non-empty
candidate list holds, `applyPodDeleteChaos` prints the clamp warning, selects every
candidate and returns normally. -/
theorem applyPodDeleteChaos_clamp_warning (w : World) (avail : List Pod) (cfg : ChaosConfig)
    (h : cfg.TargetCount > (avail.length : Int)) :
    (applyPodDeleteChaos w avail cfg false).result = .ok none ∧
    clampWarnings (applyPodDeleteChaos w avail cfg false).trace =
      [(cfg.TargetCount, avail.length)] ∧
    selectedOf w (applyPodDeleteChaos w avail cfg false).trace = avail := by
  have hc : clampCount cfg.TargetCount avail.length =
      ((avail.length : Int), [Event.warnClamped cfg.TargetCount avail.length]) := by
    simp [clampCount, h]
  have hs : selectRandomPods w.draws avail (avail.length : Int) = .ok avail := by
    simp [selectRandomPods]
  simp [applyPodDeleteChaos, hc, hs, clampWarnings_append, clampWarnings_cons,
    clampWarnings_nil, clampWarningOf, (deleteLoop_quiet _ _ _ _ _ _).2, selectedOf]

/-- The kinds that clamp warn: `ApplyCPUStress`. -/
theorem ApplyCPUStress_clamp_warning (w : World) (cfg : ChaosConfig) (items : List Pod)
    (hl : w.list = .ok items) (hne : items ≠ [])
    (h : cfg.TargetCount > (items.length : Int)) :
    (ApplyCPUStress w cfg).result = .ok none ∧
    clampWarnings (ApplyCPUStress w cfg).trace = [(cfg.TargetCount, items.length)] ∧
    selectedOf w (ApplyCPUStress w cfg).trace = items := by
  have hc : clampCount cfg.TargetCount items.length =
      ((items.length : Int), [Event.warnClamped cfg.TargetCount items.length]) := by
    simp [clampCount, h]
  have hs : selectRandomPods w.draws items (items.length : Int) = .ok items := by
    simp [selectRandomPods]
  have h0 : items.length ≠ 0 := by simpa using hne
  simp [ApplyCPUStress, hl, h0, hc, hs, clampWarnings_append, clampWarnings_cons,
    clampWarnings_nil, clampWarningOf, (createLoop_quiet _ _ _ _ _ _).2, selectedOf]

/-- The kinds that clamp warn: the five in-pod campaign functions. -/
theorem inPodCampaign_clamp_warning (w : World) (cfg : ChaosConfig) (kind : String)
    (loop : List Pod → List Event) (hloop : ∀ v, clampWarnings (loop v) = [])
    (items : List Pod) (hl : w.list = .ok items) (hne : filterAvailableNoChaos items ≠ [])
    (h : cfg.TargetCount > ((filterAvailableNoChaos items).length : Int)) :
    (inPodCampaign w cfg kind loop).result = .ok none ∧
    clampWarnings (inPodCampaign w cfg kind loop).trace =
      [(cfg.TargetCount, (filterAvailableNoChaos items).length)] ∧
    selectedOf w (inPodCampaign w cfg kind loop).trace = filterAvailableNoChaos items := by
  have hc : clampCount cfg.TargetCount (filterAvailableNoChaos items).length =
      (((filterAvailableNoChaos items).length : Int),
        [Event.warnClamped cfg.TargetCount (filterAvailableNoChaos items).length]) := by
    simp [clampCount, h]
  have hs : selectRandomPods w.draws (filterAvailableNoChaos items)
      ((filterAvailableNoChaos items).length : Int) = .ok (filterAvailableNoChaos items) := by
    simp [selectRandomPods]
  have h1 : (filterAvailableNoChaos items).length ≠ 0 := by simpa using hne
  have h0 : items.length ≠ 0 := by
    intro h0
    have : items = [] := List.length_eq_zero.1 h0
    rw [this] at hne
    exact hne rfl
  simp [inPodCampaign, hl, h0, h1, hc, hs, clampWarnings_append, clampWarnings_cons,
    clampWarnings_nil, clampWarningOf, hloop, selectedOf]

/-- The candidates of a pod-delete run of `main` are neither `Succeeded`, nor `Failed`,
nor being deleted. -/
theorem mainChaos_podDelete_candidates (w : World) (f : Flags)
    (h : f.chaosType = ChaosTypePodDelete) :
    ∀ cands ∈ candidatesOf (mainChaos w f).trace, ∀ pod ∈ cands,
      pod.Phase ≠ PodSucceeded ∧ pod.Phase ≠ PodFailed ∧ pod.DeletionTimestamp = none := by
  unfold mainChaos
  cases w.mainList with
  | error err => simp [candidatesOf_cons, candidatesOf_nil, candidatesOfEvent]
  | ok items =>
    by_cases h0 : items.length = 0
    · simp [h0, candidatesOf_cons, candidatesOf_nil, candidatesOfEvent]
    · by_cases h1 : (filterAvailable items).length = 0
      · simp [h0, h1, candidatesOf_cons, candidatesOf_nil, candidatesOfEvent]
      · simp only [h0, h1, if_false, dispatch, h, if_true, candidatesOf_append,
          candidatesOf_cons, candidatesOf_nil, candidatesOfEvent,
          applyPodDeleteChaos_candidates, Option.toList, List.nil_append, List.mem_singleton,
          forall_eq]
        exact filterAvailable_spec items


/-! ### The cron trigger -/

theorem firedLines_append (s t : List CronEvent) :
    firedLines (s ++ t) = firedLines s ++ firedLines t := by
  simp [firedLines, List.filterMap_append]

theorem firedLines_cons (e : CronEvent) (t : List CronEvent) :
    firedLines (e :: t) = (firedOf e).toList ++ firedLines t := by
  cases h : firedOf e <;> simp [firedLines, List.filterMap_cons, h]

theorem skippedLines_append (s t : List CronEvent) :
    skippedLines (s ++ t) = skippedLines s ++ skippedLines t := by
  simp [skippedLines, List.filterMap_append]

theorem skippedLines_cons (e : CronEvent) (t : List CronEvent) :
    skippedLines (e :: t) = (skippedOf e).toList ++ skippedLines t := by
  cases h : skippedOf e <;> simp [skippedLines, List.filterMap_cons, h]

theorem campaignsOf_append (s t : List CronEvent) :
    campaignsOf (s ++ t) = campaignsOf s ++ campaignsOf t := by
  simp [campaignsOf, List.filterMap_append]

theorem campaignsOf_cons (e : CronEvent) (t : List CronEvent) :
    campaignsOf (e :: t) = (campaignOf e).toList ++ campaignsOf t := by
  cases h : campaignOf e <;> simp [campaignsOf, List.filterMap_cons, h]

theorem Intn_ok (raw : Nat) (n : Nat) (h : 0 < n) : Intn raw (n : Int) = .ok (raw % n) :=
  Intn_pos raw n h

theorem buildCronChaosConfig_eq (config : CronTriggerConfig) (ri rt : Nat) :
    buildCronChaosConfig config ri rt =
      .ok { ChaosType := config.ChaosType, Namespace := "default", Labels := [],
            Duration := config.MaxDuration, Intensity := ((ri % 10 : Nat) : Int) + 1,
            TargetCount := ((rt % 3 : Nat) : Int) + 1 } := by
  have h10 : Intn ri 10 = .ok (ri % 10) := Intn_pos ri 10 (by decide)
  have h3 : Intn rt 3 = .ok (rt % 3) := Intn_pos rt 3 (by decide)
  simp [buildCronChaosConfig, h10, h3]

theorem ApplyCPUStress_no_panic (w : World) (cfg : ChaosConfig) (h : 0 ≤ cfg.TargetCount) :
    ∃ err, (ApplyCPUStress w cfg).result = .ok err := by
  unfold ApplyCPUStress
  cases w.list with
  | error err => exact ⟨_, rfl⟩
  | ok items =>
    by_cases h0 : items.length = 0
    · simp [h0]
    · have hc : 0 ≤ (clampCount cfg.TargetCount items.length).1 := by
        unfold clampCount; split
        · simp
        · simpa using h
      obtain ⟨l, _, hs, _, _⟩ := selectRandomPods_spec w.draws items _ hc
      simp [h0, hs]

theorem ApplyMemoryStress_no_panic (w : World) (cfg : ChaosConfig) (h : 0 ≤ cfg.TargetCount) :
    ∃ err, (ApplyMemoryStress w cfg).result = .ok err := by
  unfold ApplyMemoryStress
  cases w.list with
  | error err => exact ⟨_, rfl⟩
  | ok items =>
    by_cases h0 : items.length = 0
    · simp [h0]
    · obtain ⟨l, _, hs, _, _⟩ := selectRandomPods_spec w.draws items _ h
      simp [h0, hs]

theorem cronDispatch_no_panic (w : World) (config : CronTriggerConfig) (cfg : ChaosConfig)
    (h : 0 ≤ cfg.TargetCount) : (cronDispatch w config cfg).panic = none := by
  unfold cronDispatch
  split
  · rfl
  · split
    · obtain ⟨err, he⟩ := ApplyCPUStress_no_panic w cfg h
      simp [he]
    · split
      · obtain ⟨err, he⟩ := ApplyMemoryStress_no_panic w cfg h
        simp [he]
      · rfl

theorem cronDispatch_lines (w : World) (config : CronTriggerConfig) (cfg : ChaosConfig) :
    firedLines (cronDispatch w config cfg).trace = [] ∧
    skippedLines (cronDispatch w config cfg).trace = [] := by
  unfold cronDispatch
  split
  · exact ⟨rfl, rfl⟩
  · split
    · exact ⟨rfl, rfl⟩
    · split <;> exact ⟨rfl, rfl⟩

theorem cronFiring_pass (w : CronWorld) (config : CronTriggerConfig) (i : Nat)
    (h : probabilityGate (w.float64 i) config = true) :
    (cronFiring w config i).panic = none ∧
    firedLines (cronFiring w config i).trace = [config.ChaosType] ∧
    skippedLines (cronFiring w config i).trace = [] := by
  unfold cronFiring
  rw [buildCronChaosConfig_eq]
  simp only [h, if_true]
  obtain ⟨l1, l2⟩ := cronDispatch_lines (w.campaign i) config
    { ChaosType := config.ChaosType, Namespace := "default", Labels := [],
      Duration := config.MaxDuration, Intensity := ((w.intensityDraw i % 10 : Nat) : Int) + 1,
      TargetCount := ((w.targetDraw i % 3 : Nat) : Int) + 1 }
  refine ⟨cronDispatch_no_panic _ _ _ (by simp; omega), ?_, ?_⟩
  · rw [firedLines_cons, l1]; rfl
  · rw [skippedLines_cons, l2]; rfl

theorem cronFiring_skip (w : CronWorld) (config : CronTriggerConfig) (i : Nat)
    (h : probabilityGate (w.float64 i) config = false) :
    (cronFiring w config i).panic = none ∧
    (cronFiring w config i).trace = [CronEvent.skipped config.Probability] := by
  unfold cronFiring
  simp [h]

theorem cronLoop_all_pass (w : CronWorld) (config : CronTriggerConfig)
    (h : ∀ i, probabilityGate (w.float64 i) config = true) :
    ∀ n i, (cronLoop w config n i).panic = none ∧
      firedLines (cronLoop w config n i).trace = List.replicate n config.ChaosType ∧
      skippedLines (cronLoop w config n i).trace = [] := by
  intro n
  induction n with
  | zero => intro i; exact ⟨rfl, rfl, rfl⟩
  | succ n ih =>
    intro i
    obtain ⟨p1, p2, p3⟩ := cronFiring_pass w config i (h i)
    obtain ⟨q1, q2, q3⟩ := ih (i + 1)
    unfold cronLoop
    simp only [p1]
    refine ⟨q1, ?_, ?_⟩
    · simp [firedLines_cons, firedLines_append, firedOf, p2, q2, List.replicate_succ]
    · simp [skippedLines_cons, skippedLines_append, skippedOf, p3, q3]

theorem cronLoop_all_skip (w : CronWorld) (config : CronTriggerConfig)
    (h : ∀ i, probabilityGate (w.float64 i) config = false) :
    ∀ n i, (cronLoop w config n i).panic = none ∧
      firedLines (cronLoop w config n i).trace = [] ∧
      campaignsOf (cronLoop w config n i).trace = [] := by
  intro n
  induction n with
  | zero => intro i; exact ⟨rfl, rfl, rfl⟩
  | succ n ih =>
    intro i
    obtain ⟨p1, p2⟩ := cronFiring_skip w config i (h i)
    obtain ⟨q1, q2, q3⟩ := ih (i + 1)
    unfold cronLoop
    simp only [p1, p2]
    refine ⟨q1, ?_, ?_⟩
    · simp [firedLines_cons, firedOf, q2]
    · simp [campaignsOf_cons, campaignOf, q3]

/-- With probability 0.0 the gate passes for the draw 0.0 and for no other draw of
`[0, 1)`: a trigger whose draws are all positive never fires. -/
theorem cron_probability_zero_positive_draws (w : CronWorld) (config : CronTriggerConfig)
    (n : Nat) (hp : config.Probability = 0) (hr : ∀ i, 0 < w.float64 i) :
    firedLines (StartCronTrigger w config n).trace = [] ∧
    campaignsOf (StartCronTrigger w config n).trace = [] := by
  have hg : ∀ i, probabilityGate (w.float64 i) config = false := by
    intro i
    simp [probabilityGate, hp, hr i]
  unfold StartCronTrigger
  cases w.scheduleErr with
  | some err => simp [firedLines_cons, firedOf, firedLines, campaignsOf_cons, campaignOf,
      campaignsOf]
  | none =>
    obtain ⟨_, q2, q3⟩ := cronLoop_all_skip w config hg n 0
    simp [firedLines_cons, firedOf, q2, campaignsOf_cons, campaignOf, q3]

/-- C11 (the code at the failing input): with trigger probability 0.0 and the draw 0.0,
a value of `[0, 1)` that `rand.Float64()` can return, the gate `0.0 <= 0.0` passes: the
firing prints "fired", dispatches `ApplyCPUStress` and a stress job is created. -/
theorem cron_probability_zero_fires_on_zero_draw :
    (0 : ℚ) ≤ 0 ∧ (0 : ℚ) < 1 ∧
    probabilityGate 0 (cronConfigFor ChaosTypeCPUStress 0) = true ∧
    firedLines (StartCronTrigger (cronWorldWith 0 [podWeb])
      (cronConfigFor ChaosTypeCPUStress 0) 1).trace = ["cpu-stress"] ∧
    (campaignsOf (StartCronTrigger (cronWorldWith 0 [podWeb])
      (cronConfigFor ChaosTypeCPUStress 0) 1).trace).map (fun c => c.1) = ["ApplyCPUStress"] ∧
    cronActionTargets (StartCronTrigger (cronWorldWith 0 [podWeb])
      (cronConfigFor ChaosTypeCPUStress 0) 1).trace = ["web"] := by
  refine ⟨le_refl _, by norm_num, by decide, by decide, by decide, by decide⟩

/-- C12: with trigger probability 1.0 the gate `r <= 1.0` passes for every value `r` of
`[0, 1)`, at every firing: no firing of `StartCronTrigger` is skipped, and with a valid
schedule each of the first `n` firings prints "fired". -/
theorem cron_probability_one_never_skips (w : CronWorld) (config : CronTriggerConfig)
    (n : Nat) (hp : config.Probability = 1) (hr : ∀ i, 0 ≤ w.float64 i ∧ w.float64 i < 1) :
    (∀ i, probabilityGate (w.float64 i) config = true) ∧
    skippedLines (StartCronTrigger w config n).trace = [] ∧
    (w.scheduleErr = none →
      (StartCronTrigger w config n).panic = none ∧
      firedLines (StartCronTrigger w config n).trace = List.replicate n config.ChaosType) := by
  have hg : ∀ i, probabilityGate (w.float64 i) config = true := by
    intro i
    simp [probabilityGate, hp, le_of_lt (hr i).2]
  obtain ⟨q1, q2, q3⟩ := cronLoop_all_pass w config hg n 0
  refine ⟨hg, ?_, ?_⟩
  · unfold StartCronTrigger
    cases w.scheduleErr with
    | some err => simp [skippedLines_cons, skippedOf, skippedLines]
    | none => simp [skippedLines_cons, skippedOf, q3]
  · intro hs
    unfold StartCronTrigger
    simp [hs, q1, firedLines_cons, firedOf, q2]

theorem cronDispatch_campaigns (w : World) (config : CronTriggerConfig) (cfg : ChaosConfig) :
    ∀ fc ∈ campaignsOf (cronDispatch w config cfg).trace, fc.2 = cfg := by
  intro fc hfc
  unfold cronDispatch at hfc
  split at hfc
  · simp [campaignsOf, campaignOf] at hfc
  · split at hfc
    · simp [campaignsOf, campaignOf] at hfc
      simp [hfc]
    · split at hfc
      · simp [campaignsOf, campaignOf] at hfc
        simp [hfc]
      · simp [campaignsOf, campaignOf] at hfc

/-- C13: for every firing that passes the probability gate and every pair of raw values
behind `rand.Intn(10)` and `rand.Intn(3)`, the `ChaosConfig` of the firing is built without
a panic, has `Intensity` in `[1, 10]`, `TargetCount` in `[1, 3]`, the configured chaos kind
as its type and the configured `MaxDuration` as its duration; it is the config handed to
every campaign function that the firing calls. -/
theorem cron_config_bounds (w : CronWorld) (config : CronTriggerConfig) (i : Nat)
    (h : probabilityGate (w.float64 i) config = true) :
    ∃ c, buildCronChaosConfig config (w.intensityDraw i) (w.targetDraw i) = .ok c ∧
      1 ≤ c.Intensity ∧ c.Intensity ≤ 10 ∧ 1 ≤ c.TargetCount ∧ c.TargetCount ≤ 3 ∧
      c.ChaosType = config.ChaosType ∧ c.Duration = config.MaxDuration ∧
      ∀ fc ∈ campaignsOf (cronFiring w config i).trace, fc.2 = c := by
  refine ⟨_, buildCronChaosConfig_eq config _ _, ?_, ?_, ?_, ?_, rfl, rfl, ?_⟩
  · show (1 : Int) ≤ ((w.intensityDraw i % 10 : Nat) : Int) + 1
    omega
  · show ((w.intensityDraw i % 10 : Nat) : Int) + 1 ≤ 10
    omega
  · show (1 : Int) ≤ ((w.targetDraw i % 3 : Nat) : Int) + 1
    omega
  · show ((w.targetDraw i % 3 : Nat) : Int) + 1 ≤ 3
    omega
  · intro fc hfc
    unfold cronFiring at hfc
    rw [buildCronChaosConfig_eq] at hfc
    simp only [h, if_true, campaignsOf_cons, firedOf, campaignOf, Option.toList,
      List.nil_append] at hfc
    exact cronDispatch_campaigns _ _ _ fc hfc

/-- C13 (witness): probability 1.0, draw 0.0, chaos kind cpu-stress. -/
theorem cron_config_bounds_witness :
    ∃ c, buildCronChaosConfig (cronConfigFor ChaosTypeCPUStress 1)
        ((cronWorldWith 0 [podWeb]).intensityDraw 7) ((cronWorldWith 0 [podWeb]).targetDraw 7) =
          .ok c ∧
      1 ≤ c.Intensity ∧ c.Intensity ≤ 10 ∧ 1 ≤ c.TargetCount ∧ c.TargetCount ≤ 3 ∧
      c.ChaosType = (cronConfigFor ChaosTypeCPUStress 1).ChaosType ∧
      c.Duration = (cronConfigFor ChaosTypeCPUStress 1).MaxDuration ∧
      ∀ fc ∈ campaignsOf (cronFiring (cronWorldWith 0 [podWeb])
        (cronConfigFor ChaosTypeCPUStress 1) 7).trace, fc.2 = c :=
  cron_config_bounds (cronWorldWith 0 [podWeb]) (cronConfigFor ChaosTypeCPUStress 1) 7
    (by decide)

/-- C12 (witness): probability 1.0, every draw 1/2, three firings. -/
theorem cron_probability_one_never_skips_witness :
    skippedLines (StartCronTrigger (cronWorldWith (1 / 2) [podWeb])
      (cronConfigFor ChaosTypeCPUStress 1) 3).trace = [] ∧
    firedLines (StartCronTrigger (cronWorldWith (1 / 2) [podWeb])
      (cronConfigFor ChaosTypeCPUStress 1) 3).trace =
        List.replicate 3 (cronConfigFor ChaosTypeCPUStress 1).ChaosType :=
  ⟨(cron_probability_one_never_skips (cronWorldWith (1 / 2) [podWeb])
      (cronConfigFor ChaosTypeCPUStress 1) 3 rfl
      (fun _ => ⟨by show (0 : ℚ) ≤ 1 / 2; norm_num, by show (1 / 2 : ℚ) < 1; norm_num⟩)).2.1,
   ((cron_probability_one_never_skips (cronWorldWith (1 / 2) [podWeb])
      (cronConfigFor ChaosTypeCPUStress 1) 3 rfl
      (fun _ => ⟨by show (0 : ℚ) ≤ 1 / 2; norm_num, by show (1 / 2 : ℚ) < 1; norm_num⟩)).2.2
      rfl).2⟩

/-- The switch of the cron trigger calls a campaign function for the kinds cpu-stress and
memory-stress only: a firing of any other kind dispatches no campaign. -/
theorem cron_dispatches_stress_runners_only (w : CronWorld) (config : CronTriggerConfig)
    (i : Nat) (h1 : config.ChaosType ≠ ChaosTypeCPUStress)
    (h2 : config.ChaosType ≠ ChaosTypeMemoryStress) :
    campaignsOf (cronFiring w config i).trace = [] := by
  unfold cronFiring
  rw [buildCronChaosConfig_eq]
  split
  · simp only [campaignsOf_cons, campaignOf, Option.toList, List.nil_append]
    unfold cronDispatch
    simp only [h1, h2, if_false]
    split <;> rfl
  · rfl

/-- C14 (the code at the failing input): probability 1.0, one firing, the gate passes.
For the kind in-pod-cpu-stress the firing prints "fired" and "Unknown chaos type" and
calls no campaign function; for the kind pod-delete it prints "fired" and the notice
"Cron triggered pod deletion" and deletes nothing; the kind cpu-stress does dispatch
`ApplyCPUStress`. -/
theorem cron_ignores_in_pod_and_delete_kinds :
    (StartCronTrigger (cronWorldWith 0 [podWeb])
      (cronConfigFor ChaosTypeInPodCPUStress 1) 1).trace =
        [CronEvent.starting "*/5 * * * *", CronEvent.sleepUntilNext 0,
          CronEvent.fired "in-pod-cpu-stress",
          CronEvent.unknownChaosType "in-pod-cpu-stress"] ∧
    (StartCronTrigger (cronWorldWith 0 [podWeb])
      (cronConfigFor ChaosTypePodDelete 1) 1).trace =
        [CronEvent.starting "*/5 * * * *", CronEvent.sleepUntilNext 0,
          CronEvent.fired "pod-delete", CronEvent.podDeletionNotice] ∧
    List.all [ChaosTypePodDelete, ChaosTypeInPodCPUStress, ChaosTypeInPodMemoryStress,
        ChaosTypeInPodMixedStress, ChaosTypeKillProcess, ChaosTypeCorruptMemory]
      (fun kind =>
        decide (cronActionTargets (StartCronTrigger (cronWorldWith 0 [podWeb])
          (cronConfigFor kind 1) 1).trace = [])) = true ∧
    cronActionTargets (StartCronTrigger (cronWorldWith 0 [podWeb])
      (cronConfigFor ChaosTypeCPUStress 1) 1).trace = ["web"] := by
  refine ⟨by decide, by decide, by decide, by decide⟩

/-! ### The retry of `ApplyInPodCPUStress` -/

theorem execCalls_append (s t : List Event) :
    execCalls (s ++ t) = execCalls s ++ execCalls t := by
  simp [execCalls, List.filterMap_append]

theorem execCalls_cons (e : Event) (t : List Event) :
    execCalls (e :: t) = (execCall e).toList ++ execCalls t := by
  cases h : execCall e <;> simp [execCalls, List.filterMap_cons, h]

theorem execCalls_nil : execCalls [] = [] := rfl

theorem retryLines_append (s t : List Event) :
    retryLines (s ++ t) = retryLines s ++ retryLines t := by
  simp [retryLines, List.filterMap_append]

theorem retryLines_cons (e : Event) (t : List Event) :
    retryLines (e :: t) = (retryLine e).toList ++ retryLines t := by
  cases h : retryLine e <;> simp [retryLines, List.filterMap_cons, h]

theorem retryLines_nil : retryLines [] = [] := rfl

theorem inPodCPULoop_execs (w : World) (cfg : ChaosConfig) (total : Nat) :
    ∀ (victims : List Pod) (i calls : Nat),
      execCalls (inPodCPULoop w cfg total i calls victims) = firstContainers victims ∧
      retryLines (inPodCPULoop w cfg total i calls victims) = [] := by
  intro victims
  induction victims with
  | nil => intro i calls; exact ⟨rfl, rfl⟩
  | cons pod rest ih =>
    intro i calls
    unfold inPodCPULoop
    cases hC : pod.Containers with
    | nil =>
      obtain ⟨h1, h2⟩ := ih (i + 1) calls
      simp [execCalls_cons, retryLines_cons, h1, h2, execCall, retryLine, firstContainers, hC]
    | cons c cs =>
      obtain ⟨h1, h2⟩ := ih (i + 1) (calls + 1)
      cases hE : w.execErr calls <;>
        simp [execCalls_append, execCalls_cons, execCalls_nil, retryLines_append,
          retryLines_cons, retryLines_nil, h1, h2, execCall, retryLine, firstContainers, hC]

theorem clampCount_execCalls (k : Int) (n : Nat) : execCalls (clampCount k n).2 = [] := by
  unfold clampCount; split <;> rfl

theorem clampCount_retryLines (k : Int) (n : Nat) : retryLines (clampCount k n).2 = [] := by
  unfold clampCount; split <;> rfl

/-- C15 (amended): in `ApplyInPodCPUStress`, for every selected victim that declares a
container, `execInPod` is called exactly once, against the pod's first declared container,
whether that call fails or succeeds: the retry is guarded by the first container's name
differing from the name already used, which is that same name, so no retry is ever made. -/
theorem in_pod_cpu_stress_never_retries (w : World) (cfg : ChaosConfig) :
    retryLines (ApplyInPodCPUStress w cfg).trace = [] ∧
    execCalls (ApplyInPodCPUStress w cfg).trace =
      firstContainers (selectedOf w (ApplyInPodCPUStress w cfg).trace) := by
  unfold ApplyInPodCPUStress inPodCampaign
  cases w.list with
  | error err =>
    simp [execCalls_cons, execCalls_nil, execCall, retryLines_cons, retryLines_nil, retryLine,
      selectedOf, firstContainers]
  | ok items =>
    by_cases h0 : items.length = 0
    · simp [h0, execCalls_cons, execCalls_nil, execCall, retryLines_cons, retryLines_nil,
        retryLine, selectedOf, firstContainers]
    · by_cases h1 : (filterAvailableNoChaos items).length = 0
      · simp [h0, h1, execCalls_cons, execCalls_nil, execCall, retryLines_cons,
          retryLines_nil, retryLine, selectedOf, firstContainers]
      · simp only [h0, h1, if_false]
        cases hs : selectRandomPods w.draws (filterAvailableNoChaos items)
            (clampCount cfg.TargetCount (filterAvailableNoChaos items).length).1 with
        | error p =>
          simp [execCalls_append, execCalls_cons, execCalls_nil, clampCount_execCalls,
            execCall, retryLines_append, retryLines_cons, retryLines_nil,
            clampCount_retryLines, retryLine, selectedOf, selectedOf_clamp, hs,
            firstContainers]
        | ok victims =>
          obtain ⟨l1, l2⟩ := inPodCPULoop_execs w cfg victims.length victims 0 0
          simp [execCalls_append, execCalls_cons, execCalls_nil, clampCount_execCalls,
            execCall, retryLines_append, retryLines_cons, retryLines_nil,
            clampCount_retryLines, retryLine, selectedOf, selectedOf_clamp, hs, l1, l2]

/-- C15 (counterexample): one victim with the single container `main`, the first
`execInPod` call fails; `ApplyInPodCPUStress` prints the failure, announces no retry and
makes no second exec call. -/
theorem failed_exec_is_not_retried :
    (firstFailsWorld [podNamed "a"] (fun _ => 0)).execErr 0 = some "boom" ∧
    failReports (ApplyInPodCPUStress (firstFailsWorld [podNamed "a"] (fun _ => 0))
      (configFor ChaosTypeInPodCPUStress 1)).trace = ["a"] ∧
    retryLines (ApplyInPodCPUStress (firstFailsWorld [podNamed "a"] (fun _ => 0))
      (configFor ChaosTypeInPodCPUStress 1)).trace = [] ∧
    execCalls (ApplyInPodCPUStress (firstFailsWorld [podNamed "a"] (fun _ => 0))
      (configFor ChaosTypeInPodCPUStress 1)).trace = [("a", "main")] := by
  refine ⟨rfl, by decide, by decide, by decide⟩

/-! ### The duration token -/

set_option maxRecDepth 100000 in
/-- C17 (the code at the failing input): for the duration 2m (120000000000 ns, the value
of `time.ParseDuration("2m")`) the token written after `--timeout` and after `timeout` is
`2m0s`, and for 1h it is `1h0m0s`: not a single number with one unit suffix; for 30s the
token is `30s`. -/
theorem two_minute_timeout_token_is_compound :
    tokenAfter "--timeout " (generateStressCommand StressCommandCPU 5 120000000000) =
      some "2m0s".toList ∧
    tokenAfter "else timeout " (generateStressCommand StressCommandCPU 5 120000000000) =
      some "2m0s".toList ∧
    simpleDuration "2m0s".toList = false ∧
    tokenAfter "--timeout " (generateStressCommand StressCommandMemory 5 3600000000000) =
      some "1h0m0s".toList ∧
    simpleDuration "1h0m0s".toList = false ∧
    tokenAfter "--timeout " (generateStressCommand StressCommandCPU 5 30000000000) =
      some "30s".toList ∧
    simpleDuration "30s".toList = true ∧ simpleDuration "2m".toList = true := by
  refine ⟨by decide, by decide, by decide, by decide, by decide, by decide, by decide,
    by decide⟩

/-! ### The health monitor -/

theorem restartReports_append (s t : List MonitorEvent) :
    restartReports (s ++ t) = restartReports s ++ restartReports t := by
  simp [restartReports, List.filterMap_append]

theorem restartReports_containerReports (cs : List ContainerStatus) :
    restartReports (containerReports cs) =
      (cs.filter (fun c => decide (c.RestartCount > 0))).map
        (fun c => (c.Name, c.RestartCount)) := by
  induction cs with
  | nil => rfl
  | cons c rest ih =>
    unfold containerReports
    rw [restartReports_append, restartReports_append, ih]
    by_cases h : c.RestartCount > 0 <;> cases hr : c.Ready <;>
      simp [h, restartReports, List.filter_cons]

theorem restartReports_conditionReports (podName : String) (conds : List PodCondition) :
    restartReports (conditionReports podName conds) = [] := by
  induction conds with
  | nil => rfl
  | cons c rest ih =>
    unfold conditionReports
    rw [restartReports_append, ih]
    split <;> simp [restartReports]

theorem notReadyReports_append (s t : List MonitorEvent) :
    notReadyReports (s ++ t) = notReadyReports s ++ notReadyReports t := by
  simp [notReadyReports, List.filterMap_append]

theorem schedulingReports_append (s t : List MonitorEvent) :
    schedulingReports (s ++ t) = schedulingReports s ++ schedulingReports t := by
  simp [schedulingReports, List.filterMap_append]

/-- The lines of the container loop: per container, in the order of the
status list, the restart line when the count is positive and then the
not-ready line when the container is not ready. -/
theorem containerReports_eq (cs : List ContainerStatus) :
    containerReports cs =
      cs.flatMap (fun c =>
        (if c.RestartCount > 0 then [MonitorEvent.containerRestart c.Name c.RestartCount]
          else []) ++
        (if c.Ready = false then [MonitorEvent.containerNotReady c.Name] else [])) := by
  induction cs with
  | nil => rfl
  | cons c rest ih =>
    unfold containerReports
    rw [ih, List.flatMap_cons]
    cases hr : c.Ready <;> simp

/-- The lines of the condition loop: one scheduling-failure line for every
condition of type `PodScheduled` with status `False`, in order. -/
theorem conditionReports_eq (podName : String) (conds : List PodCondition) :
    conditionReports podName conds =
      (conds.filter (fun c => decide (c.Kind = PodScheduled ∧ c.Status = ConditionFalse))).map
        (fun c => MonitorEvent.schedulingFailed podName c.Message) := by
  induction conds with
  | nil => rfl
  | cons c rest ih =>
    unfold conditionReports
    rw [ih]
    by_cases h : c.Kind = PodScheduled ∧ c.Status = ConditionFalse <;>
      simp [h, List.filter_cons]

theorem notReadyReports_containerReports (cs : List ContainerStatus) :
    notReadyReports (containerReports cs) =
      (cs.filter (fun c => !c.Ready)).map (fun c => c.Name) := by
  induction cs with
  | nil => rfl
  | cons c rest ih =>
    unfold containerReports
    rw [notReadyReports_append, notReadyReports_append, ih]
    by_cases h : c.RestartCount > 0 <;> cases hr : c.Ready <;>
      simp [h, notReadyReports, List.filter_cons, hr]

theorem notReadyReports_conditionReports (podName : String) (conds : List PodCondition) :
    notReadyReports (conditionReports podName conds) = [] := by
  induction conds with
  | nil => rfl
  | cons c rest ih =>
    unfold conditionReports
    rw [notReadyReports_append, ih]
    split <;> simp [notReadyReports]

theorem schedulingReports_containerReports (cs : List ContainerStatus) :
    schedulingReports (containerReports cs) = [] := by
  induction cs with
  | nil => rfl
  | cons c rest ih =>
    unfold containerReports
    rw [schedulingReports_append, schedulingReports_append, ih]
    by_cases h : c.RestartCount > 0 <;> cases hr : c.Ready <;>
      simp [h, schedulingReports]

theorem schedulingReports_conditionReports (podName : String) (conds : List PodCondition) :
    schedulingReports (conditionReports podName conds) =
      (conds.filter (fun c => decide (c.Kind = PodScheduled ∧ c.Status = ConditionFalse))).map
        (fun c => (podName, c.Message)) := by
  rw [conditionReports_eq]
  induction conds with
  | nil => rfl
  | cons c rest ih =>
    by_cases h : c.Kind = PodScheduled ∧ c.Status = ConditionFalse
    · simp only [List.filter_cons, h, and_self, decide_True, if_true, List.map_cons]
      simp only [schedulingReports, List.filterMap_cons] at ih ⊢
      rw [ih]
    · simp only [List.filter_cons, h, decide_False, Bool.false_eq_true, if_false]
      exact ih

/-- C18: at a poll tick of `MonitorPodHealth` the checks run in this order.  When the
elapsed time has reached the duration the tick prints "completed" and stops, without a
`Get` call.  Otherwise the pod is fetched; when it is in the `Failed` phase the tick
reports the failure and stops, with no restart, not-ready or scheduling report; when it
is in another phase the tick emits, after the `Get` call and in this order, for each
container its restart report (when its restart count is positive) and its not-ready
report (when it is not ready), then one scheduling-failure report for each condition
`PodScheduled` with status `False`, and the loop goes on: the restart reports are those
of the containers with a positive count, the not-ready reports those of the containers
that are not ready, the scheduling reports those of the failed scheduling conditions.
When the fetch fails the tick prints the error and the loop goes on.  Each iteration of
the loop whose ticker fires first is such a tick. -/
theorem monitor_tick_order (w : MonitorWorld) (ns podName : String) (duration : Duration)
    (n i : Nat) (ht : w.timerFirst i = false) :
    monitorLoop w ns podName duration (n + 1) i =
      (if (monitorTick ns podName duration (w.elapsed i) (w.get i)).2 then
        ((monitorTick ns podName duration (w.elapsed i) (w.get i)).1 ++
          (monitorLoop w ns podName duration n (i + 1)).1,
          (monitorLoop w ns podName duration n (i + 1)).2)
      else ((monitorTick ns podName duration (w.elapsed i) (w.get i)).1, false)) ∧
    (w.elapsed i ≥ duration →
      monitorTick ns podName duration (w.elapsed i) (w.get i) =
        ([MonitorEvent.completed podName], false) ∧
      getCalls (monitorTick ns podName duration (w.elapsed i) (w.get i)).1 = []) ∧
    (w.elapsed i < duration →
      (∀ status, w.get i = .ok status → status.Phase = PodFailed →
        monitorTick ns podName duration (w.elapsed i) (w.get i) =
          ([MonitorEvent.getPod ns podName, MonitorEvent.podFailed podName status.Phase],
            false) ∧
        restartReports (monitorTick ns podName duration (w.elapsed i) (w.get i)).1 = [] ∧
        notReadyReports (monitorTick ns podName duration (w.elapsed i) (w.get i)).1 = [] ∧
        schedulingReports (monitorTick ns podName duration (w.elapsed i) (w.get i)).1 = []) ∧
      (∀ status, w.get i = .ok status → status.Phase ≠ PodFailed →
        monitorTick ns podName duration (w.elapsed i) (w.get i) =
          (MonitorEvent.getPod ns podName ::
            (containerReports status.ContainerStatuses ++
              conditionReports podName status.Conditions), true) ∧
        monitorTick ns podName duration (w.elapsed i) (w.get i) =
          (MonitorEvent.getPod ns podName ::
            (status.ContainerStatuses.flatMap (fun c =>
                (if c.RestartCount > 0 then
                  [MonitorEvent.containerRestart c.Name c.RestartCount] else []) ++
                (if c.Ready = false then [MonitorEvent.containerNotReady c.Name] else [])) ++
              (status.Conditions.filter
                (fun c => decide (c.Kind = PodScheduled ∧ c.Status = ConditionFalse))).map
                (fun c => MonitorEvent.schedulingFailed podName c.Message)), true) ∧
        restartReports (monitorTick ns podName duration (w.elapsed i) (w.get i)).1 =
          (status.ContainerStatuses.filter (fun c => decide (c.RestartCount > 0))).map
            (fun c => (c.Name, c.RestartCount)) ∧
        notReadyReports (monitorTick ns podName duration (w.elapsed i) (w.get i)).1 =
          (status.ContainerStatuses.filter (fun c => !c.Ready)).map (fun c => c.Name) ∧
        schedulingReports (monitorTick ns podName duration (w.elapsed i) (w.get i)).1 =
          (status.Conditions.filter
            (fun c => decide (c.Kind = PodScheduled ∧ c.Status = ConditionFalse))).map
            (fun c => (podName, c.Message))) ∧
      (∀ err, w.get i = .error err →
        monitorTick ns podName duration (w.elapsed i) (w.get i) =
          ([MonitorEvent.getPod ns podName, MonitorEvent.getFailed err], true))) := by
  refine ⟨?_, ?_, ?_⟩
  · simp only [monitorLoop, ht, Bool.false_eq_true, if_false]
  · intro he
    simp [monitorTick, he, getCalls]
  · intro he
    have hne : ¬ w.elapsed i ≥ duration := not_le.mpr he
    refine ⟨?_, ?_, ?_⟩
    · intro status hg hp
      have e : monitorTick ns podName duration (w.elapsed i) (w.get i) =
          ([MonitorEvent.getPod ns podName, MonitorEvent.podFailed podName status.Phase],
            false) := by
        simp [monitorTick, hne, hg, hp]
      rw [e]
      exact ⟨rfl, rfl, rfl, rfl⟩
    · intro status hg hp
      have e : monitorTick ns podName duration (w.elapsed i) (w.get i) =
          (MonitorEvent.getPod ns podName ::
            (containerReports status.ContainerStatuses ++
              conditionReports podName status.Conditions), true) := by
        simp [monitorTick, hne, hg, hp]
      have hc : ∀ t : List MonitorEvent,
          restartReports (MonitorEvent.getPod ns podName :: t) = restartReports t ∧
          notReadyReports (MonitorEvent.getPod ns podName :: t) = notReadyReports t ∧
          schedulingReports (MonitorEvent.getPod ns podName :: t) = schedulingReports t := by
        intro t
        simp [restartReports, notReadyReports, schedulingReports, List.filterMap_cons]
      refine ⟨e, ?_, ?_, ?_, ?_⟩
      · rw [e, containerReports_eq, conditionReports_eq]
      · rw [e]
        simp only [(hc _).1, restartReports_append, restartReports_containerReports,
          restartReports_conditionReports, List.append_nil]
      · rw [e]
        simp only [(hc _).2.1, notReadyReports_append, notReadyReports_containerReports,
          notReadyReports_conditionReports, List.append_nil]
      · rw [e]
        simp only [(hc _).2.2, schedulingReports_append, schedulingReports_containerReports,
          schedulingReports_conditionReports, List.nil_append]
    · intro err hg
      simp [monitorTick, hne, hg]

/-- C18 (witness): the second tick of a 30 second watch over a running pod whose
container `init` is not ready, whose container `app` has restarted twice, whose container
`sidecar` has restarted once and is not ready, and whose scheduling has failed: 10
seconds have elapsed, the pod is fetched, and the tick prints the not-ready line of
`init`, the restart line of `app`, the restart and the not-ready line of `sidecar` and
the scheduling-failure line, and goes on. -/
theorem monitor_tick_order_witness :
    monitorTick "default" "web" 30000000000
        ((steadyMonitorWorld statusTroubled).elapsed 1)
        ((steadyMonitorWorld statusTroubled).get 1) =
      ([MonitorEvent.getPod "default" "web",
        MonitorEvent.containerNotReady "init",
        MonitorEvent.containerRestart "app" 2,
        MonitorEvent.containerRestart "sidecar" 1,
        MonitorEvent.containerNotReady "sidecar",
        MonitorEvent.schedulingFailed "web" "0/3 nodes available"], true) ∧
    notReadyReports (monitorTick "default" "web" 30000000000
        ((steadyMonitorWorld statusTroubled).elapsed 1)
        ((steadyMonitorWorld statusTroubled).get 1)).1 = ["init", "sidecar"] ∧
    schedulingReports (monitorTick "default" "web" 30000000000
        ((steadyMonitorWorld statusTroubled).elapsed 1)
        ((steadyMonitorWorld statusTroubled).get 1)).1 = [("web", "0/3 nodes available")] :=
  ⟨(((monitor_tick_order (steadyMonitorWorld statusTroubled) "default" "web"
      30000000000 0 1 rfl).2.2 (by decide)).2.1 statusTroubled rfl (by decide)).2.1,
    (((monitor_tick_order (steadyMonitorWorld statusTroubled) "default" "web"
      30000000000 0 1 rfl).2.2 (by decide)).2.1 statusTroubled rfl (by decide)).2.2.2.1,
    (((monitor_tick_order (steadyMonitorWorld statusTroubled) "default" "web"
      30000000000 0 1 rfl).2.2 (by decide)).2.1 statusTroubled rfl (by decide)).2.2.2.2⟩

/-- C19 (amended): `MonitorPodHealth` reports a container restart at a poll exactly when
that container's restart count is greater than zero at that poll, with no comparison to
the previous poll: at every tick that fetches a pod which is not in the `Failed` phase,
the restart reports are those of the containers with a positive restart count, each with
its count. -/
theorem restart_report_iff_count_positive (ns podName : String) (duration elapsed : Duration)
    (status : PodStatus) (he : elapsed < duration) (hp : status.Phase ≠ PodFailed) :
    restartReports (monitorTick ns podName duration elapsed (.ok status)).1 =
      (status.ContainerStatuses.filter (fun c => decide (c.RestartCount > 0))).map
        (fun c => (c.Name, c.RestartCount)) := by
  have hne : ¬ elapsed ≥ duration := not_le.mpr he
  simp only [monitorTick, hne, if_false, hp]
  rw [show ∀ (e : MonitorEvent) (t : List MonitorEvent), e :: t = [e] ++ t from fun _ _ => rfl,
    restartReports_append, restartReports_append, restartReports_containerReports,
    restartReports_conditionReports]
  simp [restartReports]

/-- C19 (witness): a tick 10 seconds into a 30 second watch. -/
theorem restart_report_iff_count_positive_witness :
    restartReports (monitorTick "default" "web" 30000000000 10000000000
        (.ok statusRestartedTwice)).1 =
      (statusRestartedTwice.ContainerStatuses.filter
        (fun c => decide (c.RestartCount > 0))).map (fun c => (c.Name, c.RestartCount)) :=
  restart_report_iff_count_positive "default" "web" 30000000000 10000000000
    statusRestartedTwice (by decide) (by decide)

/-- C19 (counterexample): the container `app` has the restart count 2 at the first and at
the second poll, unchanged; the second poll emits the restart report again. -/
theorem unchanged_restart_count_is_reported_again :
    (steadyMonitorWorld statusRestartedTwice).get 0 =
      (steadyMonitorWorld statusRestartedTwice).get 1 ∧
    restartReports (monitorTick "default" "web" 30000000000
        ((steadyMonitorWorld statusRestartedTwice).elapsed 1)
        ((steadyMonitorWorld statusRestartedTwice).get 1)).1 = [("app", 2)] ∧
    restartReports (MonitorPodHealth (steadyMonitorWorld statusRestartedTwice) "default" "web"
        30000000000 2).1 = [("app", 2), ("app", 2)] := by
  refine ⟨rfl, by decide, by decide⟩

/-! ### `selectRandomPods` never fails -/

theorem selectLoopLog_result {α : Type} (draws : Nat → Nat) :
    ∀ (rem i : Nat) (podCopy selected : List α),
      (selectLoopLog draws rem i podCopy selected).1 = selectLoop draws rem i podCopy selected := by
  intro rem
  induction rem with
  | zero => intro i podCopy selected; rfl
  | succ rem ih =>
    intro i podCopy selected
    simp only [selectLoopLog, selectLoop]
    cases hI : Intn (draws i) (podCopy.length : Int) with
    | error e => rfl
    | ok r =>
      simp only []
      cases hg : podCopy[r]? with
      | none => rfl
      | some p => exact ih _ _ _

theorem selectRandomPodsLog_result {α : Type} (draws : Nat → Nat) (pods : List α) (k : Int) :
    (selectRandomPodsLog draws pods k).1 = selectRandomPods draws pods k := by
  unfold selectRandomPodsLog selectRandomPods
  split
  · rfl
  · split
    · rfl
    · exact selectLoopLog_result draws _ _ _ _

theorem selectLoopLog_log {α : Type} (draws : Nat → Nat) :
    ∀ (rem i : Nat) (podCopy selected : List α), rem ≤ podCopy.length →
      (selectLoopLog draws rem i podCopy selected).2 =
        (List.range rem).map
          (fun j => (podCopy.length - j, draws (i + j) % (podCopy.length - j))) := by
  intro rem
  induction rem with
  | zero => intro i podCopy selected _; rfl
  | succ rem ih =>
    intro i podCopy selected h
    have hpos : 0 < podCopy.length := by omega
    have hr : draws i % podCopy.length < podCopy.length := Nat.mod_lt _ hpos
    have hlen : (podCopy.take (draws i % podCopy.length) ++
        podCopy.drop (draws i % podCopy.length + 1)).length = podCopy.length - 1 := by
      simp [List.length_take, List.length_drop]; omega
    have := ih (i + 1)
      (podCopy.take (draws i % podCopy.length) ++ podCopy.drop (draws i % podCopy.length + 1))
      (selected ++ [podCopy[draws i % podCopy.length]]) (by rw [hlen]; omega)
    simp only [selectLoopLog, Intn_pos _ _ hpos, List.getElem?_eq_getElem hr, this, hlen]
    rw [List.range_succ_eq_map, List.map_cons, List.map_map]
    simp only [Nat.sub_zero, Nat.add_zero, List.cons.injEq, true_and]
    apply List.map_congr_left
    intro j _
    simp only [Function.comp, Nat.succ_eq_add_one]
    rw [show podCopy.length - 1 - j = podCopy.length - (j + 1) by omega,
      show i + 1 + j = i + (j + 1) by omega]

/-- C20: for every pod list and every count `k >= 0`, `selectRandomPods(pods, k)` returns
without a panic.  When `k >= len(pods)` no draw is made.  When `k < len(pods)` exactly `k`
draws are made; at the `i`-th draw the working copy has length `len(pods) - i`, which is
at least 1, so `rand.Intn` gets a positive argument, and the index it returns is below
that length, so the index expression and both slice expressions are within bounds. -/
theorem selectRandomPods_never_fails {α : Type} (draws : Nat → Nat) (pods : List α) (k : Int)
    (hk : 0 ≤ k) :
    (∃ l, selectRandomPods draws pods k = .ok l) ∧
    (selectRandomPodsLog draws pods k).1 = selectRandomPods draws pods k ∧
    (k ≥ (pods.length : Int) → (selectRandomPodsLog draws pods k).2 = []) ∧
    (k < (pods.length : Int) →
      (selectRandomPodsLog draws pods k).2 =
        (List.range k.toNat).map (fun i => (pods.length - i, draws i % (pods.length - i))) ∧
      ∀ e ∈ (selectRandomPodsLog draws pods k).2, 1 ≤ e.1 ∧ e.2 < e.1 ∧ e.2 + 1 ≤ e.1) := by
  obtain ⟨l, _, hs, _, _⟩ := selectRandomPods_spec draws pods k hk
  refine ⟨⟨l, hs⟩, selectRandomPodsLog_result draws pods k, ?_, ?_⟩
  · intro h
    simp [selectRandomPodsLog, h]
  · intro h
    have h1 : ¬ k ≥ (pods.length : Int) := by omega
    have h2 : ¬ k < 0 := by omega
    have hlog : (selectRandomPodsLog draws pods k).2 =
        (List.range k.toNat).map
          (fun i => (pods.length - i, draws i % (pods.length - i))) := by
      simp only [selectRandomPodsLog, h1, h2, if_false]
      rw [selectLoopLog_log draws k.toNat 0 pods [] (by omega)]
      simp
    refine ⟨hlog, ?_⟩
    intro e he
    rw [hlog] at he
    obtain ⟨i, hi, rfl⟩ := List.mem_map.1 he
    have hi2 : i < k.toNat := List.mem_range.1 hi
    have hpos : 0 < pods.length - i := by omega
    have := Nat.mod_lt (draws i) hpos
    exact ⟨hpos, this, this⟩

/-- C20 (witness): three pods out of five. -/
theorem selectRandomPods_never_fails_witness :
    (selectRandomPodsLog (fun i => 7 * i + 3) ["a", "b", "c", "d", "e"] 3).2 =
      (List.range (3 : Int).toNat).map
        (fun i => (["a", "b", "c", "d", "e"].length - i,
          (fun i => 7 * i + 3) i % (["a", "b", "c", "d", "e"].length - i))) :=
  ((selectRandomPods_never_fails (fun i => 7 * i + 3) ["a", "b", "c", "d", "e"] 3
    (by decide)).2.2.2 (by decide)).1

/-! ### The selection as a bijection -/

theorem selectLoop_step {α : Type} (draws : Nat → Nat) (rem i : Nat) (podCopy selected : List α)
    (r : Nat) (hr : r < podCopy.length) (hd : draws i = r) :
    selectLoop draws (rem + 1) i podCopy selected =
      selectLoop draws rem (i + 1) (podCopy.take r ++ podCopy.drop (r + 1))
        (selected ++ [podCopy[r]]) := by
  have hpos : 0 < podCopy.length := by omega
  have hm : draws i % podCopy.length = r := by rw [hd]; exact Nat.mod_eq_of_lt hr
  simp only [selectLoop, Intn_pos _ _ hpos, hm, List.getElem?_eq_getElem hr]

theorem remove_length {α : Type} (l : List α) (r : Nat) (h : r < l.length) :
    (l.take r ++ l.drop (r + 1)).length = l.length - 1 := by
  simp [List.length_take, List.length_drop]; omega

theorem remove_nodup {α : Type} (l : List α) (r : Nat) (h : r < l.length) (hn : l.Nodup) :
    (l.take r ++ l.drop (r + 1)).Nodup :=
  (List.nodup_cons.1 (((remove_perm l r h).nodup_iff).2 hn)).2

theorem mem_remove {α : Type} (l : List α) (r : Nat) (h : r < l.length) (y : α)
    (hy : y ∈ l) (hne : y ≠ l[r]) : y ∈ l.take r ++ l.drop (r + 1) := by
  have := (remove_perm l r h).symm.subset hy
  rcases List.mem_cons.1 this with h1 | h1
  · exact absurd h1 hne
  · exact h1

theorem selectLoop_injective {α : Type} :
    ∀ (rem i : Nat) (podCopy selected : List α) (d e : Nat → Nat), podCopy.Nodup →
      rem ≤ podCopy.length →
      (∀ j, j < rem → d (i + j) < podCopy.length - j) →
      (∀ j, j < rem → e (i + j) < podCopy.length - j) →
      selectLoop d rem i podCopy selected = selectLoop e rem i podCopy selected →
      ∀ j, j < rem → d (i + j) = e (i + j) := by
  intro rem
  induction rem with
  | zero => intro i podCopy selected d e _ _ _ _ _ j hj; omega
  | succ rem ih =>
    intro i podCopy selected d e hn hle hd he heq j hj
    have hd0 : d i < podCopy.length := by simpa using hd 0 (by omega)
    have he0 : e i < podCopy.length := by simpa using he 0 (by omega)
    rw [selectLoop_step d rem i podCopy selected (d i) hd0 rfl,
      selectLoop_step e rem i podCopy selected (e i) he0 rfl] at heq
    obtain ⟨p1, _, s1, _, _⟩ := selectLoop_spec d rem (i + 1)
      (podCopy.take (d i) ++ podCopy.drop (d i + 1)) (selected ++ [podCopy[d i]])
      (by rw [remove_length _ _ hd0]; omega)
    obtain ⟨p2, _, s2, _, _⟩ := selectLoop_spec e rem (i + 1)
      (podCopy.take (e i) ++ podCopy.drop (e i + 1)) (selected ++ [podCopy[e i]])
      (by rw [remove_length _ _ he0]; omega)
    have hx : podCopy[d i] = podCopy[e i] := by
      have h3 := heq
      rw [s1, s2] at h3
      have h4 := Except.ok.inj h3
      simp only [List.append_assoc, List.singleton_append] at h4
      have h5 := List.append_cancel_left h4
      exact (List.cons.inj h5).1
    have hde : d i = e i := (List.Nodup.getElem_inj_iff hn).1 hx
    cases j with
    | zero => simpa using hde
    | succ j =>
      have key : ∀ (r : Nat) (hr : r < podCopy.length), r = d i →
          selectLoop e rem (i + 1) (podCopy.take r ++ podCopy.drop (r + 1))
              (selected ++ [podCopy[r]]) =
            selectLoop e rem (i + 1) (podCopy.take (d i) ++ podCopy.drop (d i + 1))
              (selected ++ [podCopy[d i]]) := by
        intro r hr h
        subst h
        rfl
      have heq2 := heq.trans (key (e i) he0 hde.symm)
      have := ih (i + 1) (podCopy.take (d i) ++ podCopy.drop (d i + 1))
        (selected ++ [podCopy[d i]]) d e (remove_nodup _ _ hd0 hn)
        (by rw [remove_length _ _ hd0]; omega)
        (fun j hj => by
          rw [remove_length _ _ hd0]
          have := hd (j + 1) (by omega)
          rw [show i + 1 + j = i + (j + 1) by omega]; omega)
        (fun j hj => by
          rw [remove_length _ _ hd0]
          have := he (j + 1) (by omega)
          rw [show i + 1 + j = i + (j + 1) by omega]; omega)
        heq2 j (by omega)
      rw [show i + (j + 1) = i + 1 + j by omega]; exact this

theorem selectLoop_surjective {α : Type} :
    ∀ (target : List α) (i : Nat) (podCopy selected : List α), podCopy.Nodup → target.Nodup →
      (∀ x ∈ target, x ∈ podCopy) →
      ∃ ds : List Nat, ds.length = target.length ∧
        (∀ j, j < target.length → ds.getD j 0 < podCopy.length - j) ∧
        ∀ draws : Nat → Nat, (∀ j, j < target.length → draws (i + j) = ds.getD j 0) →
          selectLoop draws target.length i podCopy selected = .ok (selected ++ target) := by
  intro target
  induction target with
  | nil =>
    intro i podCopy selected _ _ _
    exact ⟨[], rfl, fun j hj => by simp at hj, fun draws _ => by simp [selectLoop]⟩
  | cons x t ih =>
    intro i podCopy selected hn ht hsub
    obtain ⟨r, hr, hrx⟩ := List.mem_iff_getElem.1 (hsub x (List.mem_cons_self _ _))
    have hxt : x ∉ t := (List.nodup_cons.1 ht).1
    obtain ⟨ds, hlen, hval, hrun⟩ := ih (i + 1) (podCopy.take r ++ podCopy.drop (r + 1))
      (selected ++ [x]) (remove_nodup _ _ hr hn) (List.nodup_cons.1 ht).2
      (fun y hy => mem_remove podCopy r hr y (hsub y (List.mem_cons_of_mem _ hy))
        (by rw [hrx]; intro h; exact hxt (h ▸ hy)))
    refine ⟨r :: ds, by simp [hlen], ?_, ?_⟩
    · intro j hj
      cases j with
      | zero => simpa using hr
      | succ j =>
        have := hval j (by simpa using hj)
        rw [remove_length _ _ hr] at this
        simp only [List.getD_cons_succ]
        omega
    · intro draws hdraws
      have h0 : draws i = r := by simpa using hdraws 0 (by simp)
      rw [List.length_cons, selectLoop_step draws t.length i podCopy selected r hr h0, hrx]
      rw [hrun draws (fun j hj => by
        have := hdraws (j + 1) (by simpa using hj)
        rw [show i + 1 + j = i + (j + 1) by omega]
        simpa using this)]
      simp

theorem selectRandomPods_lt {α : Type} (draws : Nat → Nat) (pods : List α) (k : Nat)
    (hk : k < pods.length) :
    selectRandomPods draws pods (k : Int) = selectLoop draws k 0 pods [] := by
  have h1 : ¬ (k : Int) ≥ (pods.length : Int) := by omega
  have h2 : ¬ (k : Int) < 0 := by omega
  simp [selectRandomPods, h1, h2]


/-! ### Counting: every `k`-subset comes from `k!` draw sequences -/

theorem mem_drawSequences :
    ∀ (k n : Nat) (ds : List Nat),
      ds ∈ drawSequences n k ↔ ds.length = k ∧ ∀ i, i < k → ds.getD i 0 < n - i := by
  intro k
  induction k with
  | zero =>
    intro n ds
    simp only [drawSequences, List.mem_singleton]
    constructor
    · intro h; subst h; exact ⟨rfl, fun i hi => absurd hi (by omega)⟩
    · intro h; exact List.length_eq_zero.1 h.1
  | succ k ih =>
    intro n ds
    simp only [drawSequences, List.mem_flatMap, List.mem_range, List.mem_map]
    constructor
    · rintro ⟨r, hr, ds', hds', rfl⟩
      obtain ⟨h1, h2⟩ := (ih (n - 1) ds').1 hds'
      refine ⟨by simp [h1], ?_⟩
      intro i hi
      cases i with
      | zero => simpa using hr
      | succ i =>
        have := h2 i (by omega)
        simp only [List.getD_cons_succ]
        omega
    · rintro ⟨h1, h2⟩
      cases ds with
      | nil => simp at h1
      | cons r ds' =>
        refine ⟨r, by simpa using h2 0 (by omega), ds', ?_, rfl⟩
        refine (ih (n - 1) ds').2 ⟨by simpa using h1, ?_⟩
        intro i hi
        have := h2 (i + 1) (by omega)
        simp only [List.getD_cons_succ] at this
        omega

theorem nodup_drawSequences : ∀ (k n : Nat), (drawSequences n k).Nodup := by
  intro k
  induction k with
  | zero => intro n; simp [drawSequences]
  | succ k ih =>
    intro n
    simp only [drawSequences]
    rw [List.nodup_flatMap]
    constructor
    · intro r _
      exact (ih (n - 1)).map (fun a b h => (List.cons.inj h).2)
    · refine (List.nodup_range n).pairwise_of_forall_ne ?_
      intro a _ b _ hab
      intro x hxa hxb
      obtain ⟨_, _, rfl⟩ := List.mem_map.1 hxa
      obtain ⟨_, _, h⟩ := List.mem_map.1 hxb
      exact hab (List.cons.inj h).1.symm

theorem length_drawSequences : ∀ (k n : Nat), (drawSequences n k).length = n.descFactorial k := by
  intro k
  induction k with
  | zero => intro n; simp [drawSequences]
  | succ k ih =>
    intro n
    simp only [drawSequences, List.length_flatMap, List.length_map, ih]
    cases n with
    | zero => simp
    | succ n =>
      rw [Nat.succ_descFactorial_succ]
      have hc : (List.length ∘ fun r => List.map (fun ds => r :: ds) (drawSequences n k)) =
          fun _ => n.descFactorial k := by
        funext r
        simp [ih]
      simp [hc, List.map_const', List.sum_replicate]

theorem positions_nodup (n k : Nat) (d : Nat → Nat) :
    ∃ idxs : List (Fin n), selectRandomPods d (List.finRange n) (k : Int) = .ok idxs ∧
      idxs.length = min k n ∧ idxs.Nodup := by
  obtain ⟨idxs, rest, h1, h2, h3⟩ := selectRandomPods_spec d (List.finRange n) (k : Int) (by omega)
  refine ⟨idxs, h1, ?_, ((h3.nodup_iff).2 (List.nodup_finRange _)).of_append_left⟩
  rw [h2]; simp

theorem positions_injective (n k : Nat) (hk : k < n) (d e : Nat → Nat)
    (hd : ∀ i, i < k → d i < n - i) (he : ∀ i, i < k → e i < n - i)
    (heq : selectRandomPods d (List.finRange n) (k : Int) =
      selectRandomPods e (List.finRange n) (k : Int)) :
    ∀ i, i < k → d i = e i := by
  have hkf : k < (List.finRange n).length := by simpa using hk
  rw [selectRandomPods_lt d _ k hkf, selectRandomPods_lt e _ k hkf] at heq
  intro i hi
  have := selectLoop_injective k 0 (List.finRange n) [] d e
    (List.nodup_finRange _) (by simp; omega)
    (fun j hj => by simpa using hd j hj) (fun j hj => by simpa using he j hj) heq i hi
  simpa using this

theorem positions_surjective (n k : Nat) (hk : k < n) (idxs : List (Fin n))
    (hlen : idxs.length = k) (hnd : idxs.Nodup) :
    ∃ ds : List Nat, ds.length = k ∧ (∀ i, i < k → ds.getD i 0 < n - i) ∧
      selectRandomPods (fun j => ds.getD j 0) (List.finRange n) (k : Int) = .ok idxs := by
  have hkf : k < (List.finRange n).length := by simpa using hk
  obtain ⟨ds, hl, hval, hrun⟩ := selectLoop_surjective idxs 0 (List.finRange n) []
    (List.nodup_finRange _) hnd (fun x _ => List.mem_finRange x)
  refine ⟨ds, by omega, ?_, ?_⟩
  · intro i hi
    have := hval i (by omega)
    simpa using this
  · rw [selectRandomPods_lt _ _ k hkf, ← hlen]
    have := hrun (fun j => ds.getD j 0) (fun j _ => by simp)
    simpa using this

theorem selectedPositions_ok (n k : Nat) (ds : List Nat) :
    selectRandomPods (fun i => ds.getD i 0) (List.finRange n) (k : Int) =
      .ok (selectedPositions n k ds) := by
  obtain ⟨idxs, h, _, _⟩ := positions_nodup n k (fun i => ds.getD i 0)
  unfold selectedPositions
  rw [h]

theorem subset_fiber_count (n k : Nat) (hk : k < n) (S : Finset (Fin n)) (hS : S.card = k) :
    ((drawSequences n k).filter
      (fun ds => decide ((selectedPositions n k ds).toFinset = S))).length = k.factorial := by
  have hnd1 : (((drawSequences n k).filter
      (fun ds => decide ((selectedPositions n k ds).toFinset = S))).map
        (selectedPositions n k)).Nodup := by
    refine List.Nodup.map_on ?_ ((nodup_drawSequences k n).filter _)
    intro x hx y hy hxy
    obtain ⟨hx1, hx2⟩ := (mem_drawSequences k n x).1 (List.mem_filter.1 hx).1
    obtain ⟨hy1, hy2⟩ := (mem_drawSequences k n y).1 (List.mem_filter.1 hy).1
    have heq : selectRandomPods (fun i => x.getD i 0) (List.finRange n) (k : Int) =
        selectRandomPods (fun i => y.getD i 0) (List.finRange n) (k : Int) := by
      rw [selectedPositions_ok, selectedPositions_ok, hxy]
    have hall := positions_injective n k hk _ _ hx2 hy2 heq
    apply List.ext_getElem (by omega)
    intro i h1 h2
    have hi : x.getD i 0 = y.getD i 0 := hall i (by omega)
    rw [List.getD_eq_getElem _ _ h1, List.getD_eq_getElem _ _ h2] at hi
    exact hi
  have hnd2 : S.toList.permutations.Nodup := List.nodup_permutations _ S.nodup_toList
  have hmem : ∀ l : List (Fin n),
      l ∈ ((drawSequences n k).filter
        (fun ds => decide ((selectedPositions n k ds).toFinset = S))).map
          (selectedPositions n k) ↔ l ∈ S.toList.permutations := by
    intro l
    rw [List.mem_permutations]
    constructor
    · intro hl
      obtain ⟨ds, hds, rfl⟩ := List.mem_map.1 hl
      have hset : (selectedPositions n k ds).toFinset = S := by
        simpa using (List.mem_filter.1 hds).2
      obtain ⟨idxs, h, _, hn⟩ := positions_nodup n k (fun i => ds.getD i 0)
      have he : selectedPositions n k ds = idxs := by
        have := selectedPositions_ok n k ds
        rw [h] at this
        exact (Except.ok.inj this).symm
      rw [he] at hset ⊢
      exact List.perm_of_nodup_nodup_toFinset_eq hn S.nodup_toList
        (by rw [hset, Finset.toList_toFinset])
    · intro hp
      have hn : l.Nodup := (hp.nodup_iff).2 S.nodup_toList
      have hlen : l.length = k := by rw [hp.length_eq, Finset.length_toList, hS]
      have hset : l.toFinset = S := by
        rw [List.toFinset_eq_of_perm _ _ hp, Finset.toList_toFinset]
      obtain ⟨ds, h1, h2, h3⟩ := positions_surjective n k hk l hlen hn
      have he : selectedPositions n k ds = l := by
        have := selectedPositions_ok n k ds
        rw [h3] at this
        exact (Except.ok.inj this).symm
      refine List.mem_map.2 ⟨ds, List.mem_filter.2 ⟨(mem_drawSequences k n ds).2 ⟨h1, h2⟩, ?_⟩, he⟩
      simp [he, hset]
  have hperm := (List.perm_ext_iff_of_nodup hnd1 hnd2).2 hmem
  have := hperm.length_eq
  rw [List.length_map, List.length_permutations, Finset.length_toList, hS] at this
  exact this

/-- C16: for every pod list of `n` pods and every `k < n`, the input positions that
`selectRandomPods` selects are those it selects on the list `0, ..., n-1` of positions.
As a map from the draw sequences `(r_0, ..., r_{k-1})` with `r_i < n - i` to lists of
positions, the selection lands in the lists of `k` pairwise distinct positions, is
injective (two draw sequences with the same selection agree on the `k` draws) and is
surjective (every list of `k` pairwise distinct positions is the selection of such a draw
sequence).  There are `n!/(n-k)!` such draw sequences (`drawSequences n k` lists each
once), and every set of `k` positions is the selection of exactly `k!` of them. -/
theorem selection_is_bijective {α : Type} (pods : List α) (k : Nat) (hk : k < pods.length) :
    (∀ d : Nat → Nat,
      selectRandomPods d pods (k : Int) =
        (selectRandomPods d (List.finRange pods.length) (k : Int)).map (List.map pods.get)) ∧
    (∀ d : Nat → Nat, ∃ idxs : List (Fin pods.length),
      selectRandomPods d (List.finRange pods.length) (k : Int) = .ok idxs ∧
        idxs.length = k ∧ idxs.Nodup) ∧
    (∀ d e : Nat → Nat, (∀ i, i < k → d i < pods.length - i) →
      (∀ i, i < k → e i < pods.length - i) →
      selectRandomPods d (List.finRange pods.length) (k : Int) =
        selectRandomPods e (List.finRange pods.length) (k : Int) →
      ∀ i, i < k → d i = e i) ∧
    (∀ idxs : List (Fin pods.length), idxs.length = k → idxs.Nodup →
      ∃ d : Nat → Nat, (∀ i, i < k → d i < pods.length - i) ∧
        selectRandomPods d (List.finRange pods.length) (k : Int) = .ok idxs) ∧
    (∀ ds : List Nat, ds ∈ drawSequences pods.length k ↔
      ds.length = k ∧ ∀ i, i < k → ds.getD i 0 < pods.length - i) ∧
    (drawSequences pods.length k).Nodup ∧
    (drawSequences pods.length k).length = pods.length.factorial / (pods.length - k).factorial ∧
    (∀ S : Finset (Fin pods.length), S.card = k →
      ((drawSequences pods.length k).filter
        (fun ds => decide ((selectedPositions pods.length k ds).toFinset = S))).length =
          k.factorial) := by
  refine ⟨?_, ?_, ?_, ?_, mem_drawSequences k pods.length, nodup_drawSequences k pods.length,
    ?_, fun S hS => subset_fiber_count pods.length k hk S hS⟩
  · intro d
    have := selectRandomPods_map pods.get d (List.finRange pods.length) (k : Int)
    rw [List.finRange_map_get] at this
    exact this
  · intro d
    obtain ⟨idxs, h1, h2, h3⟩ := positions_nodup pods.length k d
    exact ⟨idxs, h1, by omega, h3⟩
  · intro d e hd he heq
    exact positions_injective pods.length k hk d e hd he heq
  · intro idxs hlen hnd
    obtain ⟨ds, _, h2, h3⟩ := positions_surjective pods.length k hk idxs hlen hnd
    exact ⟨fun j => ds.getD j 0, h2, h3⟩
  · rw [length_drawSequences, Nat.descFactorial_eq_div (by omega)]

/-- C16 (witness): three positions out of five. -/
theorem selection_is_bijective_witness :
    (∃ d : Nat → Nat, (∀ i, i < 3 → d i < ["a", "b", "c", "d", "e"].length - i) ∧
      selectRandomPods d (List.finRange ["a", "b", "c", "d", "e"].length) ((3 : Nat) : Int) =
        .ok [⟨4, by decide⟩, ⟨0, by decide⟩, ⟨2, by decide⟩]) ∧
    (drawSequences ["a", "b", "c", "d", "e"].length 3).length =
      ["a", "b", "c", "d", "e"].length.factorial /
        (["a", "b", "c", "d", "e"].length - 3).factorial :=
  ⟨(selection_is_bijective ["a", "b", "c", "d", "e"] 3 (by decide)).2.2.2.1
    [⟨4, by decide⟩, ⟨0, by decide⟩, ⟨2, by decide⟩] (by decide) (by decide),
   (selection_is_bijective ["a", "b", "c", "d", "e"] 3 (by decide)).2.2.2.2.2.2.1⟩


/-! ## The label selector of the campaign functions -/

theorem listSelectors_append (s t : List Event) :
    listSelectors (s ++ t) = listSelectors s ++ listSelectors t := by
  simp [listSelectors, List.filterMap_append]

/-- Every character of a piece of `splitOnP` is a character of the text. -/
theorem mem_of_mem_splitOnP (p : Char → Bool) (l : List Char) :
    ∀ x ∈ l.splitOnP p, ∀ c ∈ x, c ∈ l := by
  induction l with
  | nil => intro x hx c hc; simp at hx; subst hx; simp at hc
  | cons a l ih =>
    intro x hx c hc
    rw [List.splitOnP_cons] at hx
    split at hx
    · rcases List.mem_cons.mp hx with h | h
      · subst h; simp at hc
      · exact List.mem_cons_of_mem _ (ih x h c hc)
    · cases hs : List.splitOnP p l with
      | nil => exact absurd hs (List.splitOnP_ne_nil p l)
      | cons y ys =>
        rw [hs] at hx ih
        simp only [List.modifyHead_cons, List.mem_cons] at hx
        rcases hx with h | h
        · subst h
          rcases List.mem_cons.mp hc with h1 | h1
          · subst h1; exact List.mem_cons_self _ _
          · exact List.mem_cons_of_mem _ (ih y (List.mem_cons_self _ _) c h1)
        · exact List.mem_cons_of_mem _ (ih x (List.mem_cons_of_mem _ h) c hc)

/-- Every character of a trimmed text is a character of the text. -/
theorem mem_of_mem_trimSpace (s : List Char) : ∀ c ∈ trimSpace s, c ∈ s := by
  intro c hc
  unfold trimSpace at hc
  rw [List.mem_reverse] at hc
  have h1 := (List.dropWhile_sublist isSpace).subset hc
  rw [List.mem_reverse] at h1
  exact (List.dropWhile_sublist isSpace).subset h1

/-- A pair without an equals sign leaves the label map as it is. -/
theorem parseLabels_step_no_equals (labels : List (String × String)) (pair : List Char)
    (h : '=' ∉ pair) :
    (match (trimSpace pair).splitOn '=' with
      | [k, v] => setLabel labels (String.mk (trimSpace k)) (String.mk (trimSpace v))
      | _ => labels) = labels := by
  have h1 : (trimSpace pair).splitOn '=' = [trimSpace pair] := by
    refine List.splitOnP_eq_single _ _ ?_
    intro y hy H
    rw [eq_of_beq H] at hy
    exact h (mem_of_mem_trimSpace pair _ hy)
  rw [h1]

/-- A label filter without an equals sign parses to the empty label map. -/
theorem parseLabels_of_no_equals (s : String) (h : '=' ∉ s.toList) : parseLabels s = [] := by
  unfold parseLabels
  split
  · rfl
  · have key : ∀ (pairs : List (List Char)), (∀ x ∈ pairs, '=' ∉ x) →
        ∀ acc : List (String × String),
        pairs.foldl
          (fun labels pair =>
            match (trimSpace pair).splitOn '=' with
            | [k, v] => setLabel labels (String.mk (trimSpace k)) (String.mk (trimSpace v))
            | _ => labels) acc = acc := by
      intro pairs
      induction pairs with
      | nil => intro _ acc; rfl
      | cons x xs ih =>
        intro hx acc
        rw [List.foldl_cons, parseLabels_step_no_equals acc x (hx x (List.mem_cons_self _ _))]
        exact ih (fun y hy => hx y (List.mem_cons_of_mem _ hy)) acc
    refine key _ ?_ []
    intro x hx hc
    exact h (mem_of_mem_splitOnP _ _ x hx _ hc)

/-- The characters of the selector that the campaign functions build by
folding over the label map, from a non-empty start. -/
theorem selector_foldl_toList (rest : List (String × String)) :
    ∀ acc : String, acc ≠ "" →
    (rest.foldl
      (fun labelSelector kv =>
        (if labelSelector ≠ "" then labelSelector ++ "," else labelSelector) ++
          (kv.1 ++ "=" ++ kv.2)) acc).toList =
      acc.toList ++ (rest.map (fun kv => ',' :: entryChars kv)).flatten := by
  induction rest with
  | nil => intro acc _; simp
  | cons kv rest ih =>
    intro acc hacc
    rw [List.foldl_cons, if_pos hacc]
    have hne : acc ++ "," ++ (kv.1 ++ "=" ++ kv.2) ≠ "" := by
      intro h
      have := congrArg String.length h
      simp [String.length_append] at this
      exact absurd this.1.2 (by decide)
    rw [ih _ hne]
    simp [String.toList, String.data_append, entryChars]

/-- The characters of the selector of a non-empty label map: the entries
`key=value` in the order of enumeration, separated by commas. -/
theorem buildLabelSelector_cons_toList (kv : String × String) (rest : List (String × String)) :
    (buildLabelSelector (kv :: rest)).toList =
      entryChars kv ++ (rest.map (fun kv => ',' :: entryChars kv)).flatten := by
  unfold buildLabelSelector
  rw [if_pos (by simp), List.foldl_cons]
  have h0 : ((if ("" : String) ≠ "" then ("" : String) ++ "," else "") ++
      (kv.1 ++ "=" ++ kv.2)) = kv.1 ++ "=" ++ kv.2 := by simp
  rw [h0]
  have hne : kv.1 ++ "=" ++ kv.2 ≠ "" := by
    intro h
    have := congrArg String.length h
    simp [String.length_append] at this
    exact absurd this.1.2 (by decide)
  rw [selector_foldl_toList rest _ hne]
  simp [String.toList, String.data_append, entryChars]

/-- The selector of a label map is empty exactly when the map is empty. -/
theorem buildLabelSelector_eq_empty_iff (labels : List (String × String)) :
    buildLabelSelector labels = "" ↔ labels = [] := by
  constructor
  · intro h
    cases labels with
    | nil => rfl
    | cons kv rest =>
      have := congrArg String.toList h
      rw [buildLabelSelector_cons_toList] at this
      simp [entryChars] at this
  · intro h; subst h; rfl

/-- A label filter without an equals sign (such as the existence selector
`app` or the set selector `tier in (web, cache)`) gives the campaign
functions the empty selector. -/
theorem campaign_selector_of_no_equals (s : String) (h : '=' ∉ s.toList) :
    buildLabelSelector (parseLabels s) = "" := by
  rw [parseLabels_of_no_equals s h]; rfl

/-- C21 (fails): with the non-empty label filter `app`, which selects the
pods that carry an `app` label, `parseLabels` returns the empty map and the
selector that `ApplyCPUStress` rebuilds from it is the empty string: `main`
lists with the selector `app`, the campaign lists a second time with the
empty selector, receives every pod of the namespace and creates its stress
runner for the pod `db`, which has no `app` label. -/
theorem label_filter_without_equals_is_dropped :
    parseLabels "app" = [] ∧
    buildLabelSelector (parseLabels "app") = "" ∧
    listSelectors
      (mainChaos (twoTierWorld (fun _ => 1)) (flagsWith "app" ChaosTypeCPUStress 5)).trace
        = ["app", ""] ∧
    candidatesOf
      (mainChaos (twoTierWorld (fun _ => 1)) (flagsWith "app" ChaosTypeCPUStress 5)).trace
        = [[podWeb, podDb]] ∧
    createTargets
      (mainChaos (twoTierWorld (fun _ => 1)) (flagsWith "app" ChaosTypeCPUStress 5)).trace
        = ["db"] := by
  refine ⟨by decide, by decide, ?_, ?_, ?_⟩ <;> decide

/-! ## Round trip between the label map and the selector -/

theorem dropWhile_eq_self_of_head (p : Char → Bool) (l : List Char)
    (h : ∀ c, l.head? = some c → p c = false) : l.dropWhile p = l := by
  cases l with
  | nil => rfl
  | cons a l => rw [List.dropWhile_cons, h a rfl]; rfl

/-- The function `trimSpace` leaves a text without leading and trailing
white space as it is. -/
theorem trimSpace_eq_self (s : List Char)
    (hh : ∀ c, s.head? = some c → isSpace c = false)
    (hl : ∀ c, s.getLast? = some c → isSpace c = false) : trimSpace s = s := by
  unfold trimSpace
  rw [dropWhile_eq_self_of_head isSpace s hh,
    dropWhile_eq_self_of_head isSpace s.reverse (by rw [List.head?_reverse]; exact hl),
    List.reverse_reverse]

theorem trimSpace_clean (s : String) (h : cleanText s) : trimSpace s.toList = s.toList :=
  trimSpace_eq_self _ h.2.2.1 h.2.2.2

/-- The entry `key=value` of clean texts has no leading or trailing white
space. -/
theorem trimSpace_entryChars (kv : String × String) (hk : cleanText kv.1)
    (hv : cleanText kv.2) : trimSpace (entryChars kv) = entryChars kv := by
  refine trimSpace_eq_self _ ?_ ?_
  · intro c hc
    unfold entryChars at hc
    cases hkl : kv.1.toList with
    | nil =>
      rw [hkl] at hc
      simp only [List.nil_append, List.head?_cons, Option.some.injEq] at hc
      subst hc; decide
    | cons a as =>
      rw [hkl] at hc
      simp only [List.cons_append, List.head?_cons, Option.some.injEq] at hc
      exact hk.2.2.1 c (by rw [hkl]; simp [hc])
  · intro c hc
    unfold entryChars at hc
    rw [List.getLast?_append] at hc
    cases hvl : kv.2.toList with
    | nil =>
      rw [hvl] at hc
      simp at hc
      subst hc; decide
    | cons a as =>
      rw [hvl] at hc
      have h2 : (a :: as).getLast? = some c := by
        simpa [List.getLast?_cons_cons] using hc
      exact hv.2.2.2 c (by rw [hvl]; exact h2)

/-- Splitting the entry `key=value` at the equals sign gives the key and the
value. -/
theorem splitOn_entryChars (kv : String × String) (hk : cleanText kv.1)
    (hv : cleanText kv.2) : (entryChars kv).splitOn '=' = [kv.1.toList, kv.2.toList] := by
  unfold entryChars List.splitOn
  rw [List.splitOnP_first (fun x => x == '=') kv.1.toList
    (by intro x hx H; rw [eq_of_beq H] at hx; exact hk.2.1 hx) '=' (by simp) kv.2.toList,
    List.splitOnP_eq_single (fun x => x == '=') kv.2.toList
    (by intro x hx H; rw [eq_of_beq H] at hx; exact hv.2.1 hx)]

/-- One step of the loop of `parseLabels` on the entry `key=value` of clean
texts is the map assignment `labels[key] = value`. -/
theorem parseLabels_step_entry (labels : List (String × String)) (kv : String × String)
    (hk : cleanText kv.1) (hv : cleanText kv.2) :
    (match (trimSpace (entryChars kv)).splitOn '=' with
      | [k, v] => setLabel labels (String.mk (trimSpace k)) (String.mk (trimSpace v))
      | _ => labels) = setLabel labels kv.1 kv.2 := by
  rw [trimSpace_entryChars kv hk hv, splitOn_entryChars kv hk hv]
  simp only [trimSpace_clean _ hk, trimSpace_clean _ hv]
  rfl

/-- Splitting the comma-separated entries at the commas gives the entries. -/
theorem splitOn_comma_joined (rest : List (List Char)) :
    ∀ a : List Char, ',' ∉ a → (∀ x ∈ rest, ',' ∉ x) →
      (a ++ (rest.map (fun x => ',' :: x)).flatten).splitOn ',' = a :: rest := by
  induction rest with
  | nil =>
    intro a ha _
    simp only [List.map_nil, List.flatten_nil, List.append_nil]
    exact List.splitOnP_eq_single _ _ (by intro x hx H; rw [eq_of_beq H] at hx; exact ha hx)
  | cons b rest ih =>
    intro a ha hr
    simp only [List.map_cons, List.flatten_cons, List.cons_append]
    unfold List.splitOn
    rw [List.splitOnP_first (fun x => x == ',') a
      (by intro x hx H; rw [eq_of_beq H] at hx; exact ha hx) ',' (by simp)]
    have := ih b (hr b (List.mem_cons_self _ _)) (fun x hx => hr x (List.mem_cons_of_mem _ hx))
    unfold List.splitOn at this
    rw [this]

theorem entryChars_no_comma (kv : String × String) (hk : cleanText kv.1)
    (hv : cleanText kv.2) : ',' ∉ entryChars kv := by
  unfold entryChars
  intro h
  rcases List.mem_append.mp h with h1 | h1
  · exact hk.1 h1
  · rcases List.mem_cons.mp h1 with h2 | h2
    · exact absurd h2 (by decide)
    · exact hv.1 h2

/-- The map assignment of a key that the map does not hold appends the
entry. -/
theorem setLabel_new (labels : List (String × String)) (k v : String)
    (h : k ∉ labels.map Prod.fst) : setLabel labels k v = labels ++ [(k, v)] := by
  unfold setLabel
  rw [if_neg]
  simp only [List.any_eq_true, beq_iff_eq, not_exists, not_and]
  intro kv hkv he
  exact h (List.mem_map.mpr ⟨kv, hkv, he⟩)

/-- Assigning entries with pairwise different new keys, one after the other,
appends them in order. -/
theorem foldl_setLabel (l : List (String × String)) :
    ∀ acc : List (String × String), ((acc ++ l).map Prod.fst).Nodup →
      l.foldl (fun labels kv => setLabel labels kv.1 kv.2) acc = acc ++ l := by
  induction l with
  | nil => intro acc _; simp
  | cons kv l ih =>
    intro acc h
    rw [List.foldl_cons]
    have hnew : kv.1 ∉ acc.map Prod.fst := by
      intro hm
      rw [List.map_append, List.map_cons] at h
      have := (List.nodup_append.mp h).2.2
      exact this hm (List.mem_cons_self _ _)
    rw [setLabel_new acc kv.1 kv.2 hnew]
    have h2 : ((acc ++ [(kv.1, kv.2)] ++ l).map Prod.fst).Nodup := by
      simpa [List.append_assoc] using h
    rw [ih _ h2]
    simp

/-- The loop of `parseLabels` over the entries of a label map with clean
keys and values performs the map assignments of the entries. -/
theorem parseLabels_loop_entries (l : List (String × String))
    (hclean : ∀ kv ∈ l, cleanText kv.1 ∧ cleanText kv.2) :
    ∀ acc : List (String × String),
      (l.map entryChars).foldl
        (fun labels pair =>
          match (trimSpace pair).splitOn '=' with
          | [k, v] => setLabel labels (String.mk (trimSpace k)) (String.mk (trimSpace v))
          | _ => labels) acc =
      l.foldl (fun labels kv => setLabel labels kv.1 kv.2) acc := by
  induction l with
  | nil => intro acc; rfl
  | cons kv l ih =>
    intro acc
    rw [List.map_cons, List.foldl_cons, List.foldl_cons,
      parseLabels_step_entry acc kv (hclean kv (List.mem_cons_self _ _)).1
        (hclean kv (List.mem_cons_self _ _)).2]
    exact ih (fun x hx => hclean x (List.mem_cons_of_mem _ hx)) _

/-- The round trip on one enumeration of a label map: the entries with
pairwise different keys, clean keys and clean values. -/
theorem parseLabels_buildLabelSelector_of_enumeration (l : List (String × String))
    (hkeys : (l.map Prod.fst).Nodup)
    (hclean : ∀ kv ∈ l, cleanText kv.1 ∧ cleanText kv.2) :
    parseLabels (buildLabelSelector l) = l := by
  cases l with
  | nil => rfl
  | cons kv rest =>
    have hne : buildLabelSelector (kv :: rest) ≠ "" := by
      intro h
      exact absurd ((buildLabelSelector_eq_empty_iff _).mp h) (by simp)
    unfold parseLabels
    rw [if_neg hne, buildLabelSelector_cons_toList]
    have hmap : rest.map (fun kv => ',' :: entryChars kv) =
        (rest.map entryChars).map (fun x => ',' :: x) := by
      rw [List.map_map]; rfl
    rw [hmap, splitOn_comma_joined (rest.map entryChars) (entryChars kv)
      (entryChars_no_comma kv (hclean kv (List.mem_cons_self _ _)).1
        (hclean kv (List.mem_cons_self _ _)).2)
      (by
        intro x hx
        obtain ⟨e, he, rfl⟩ := List.mem_map.mp hx
        exact entryChars_no_comma e (hclean e (List.mem_cons_of_mem _ he)).1
          (hclean e (List.mem_cons_of_mem _ he)).2)]
    have := parseLabels_loop_entries (kv :: rest) hclean []
    rw [List.map_cons] at this
    rw [this, foldl_setLabel (kv :: rest) [] (by simpa using hkeys)]
    rfl

/-- C22: round trip between the label map and the selector. For a label map
`m` (entries with pairwise different keys) whose keys and values contain no
comma and no equals sign and have no leading or trailing white space, and
for every enumeration `l` of its entries, `parseLabels` applied to the
selector that the campaign functions build from `l` returns the entries of
`m`, each once (in the order of the enumeration); the empty map gives the
empty selector and `parseLabels ""` is the empty map. -/
theorem label_map_selector_round_trip (m : List (String × String))
    (hkeys : (m.map Prod.fst).Nodup)
    (hclean : ∀ kv ∈ m, cleanText kv.1 ∧ cleanText kv.2) :
    (∀ l : List (String × String), l.Perm m →
      parseLabels (buildLabelSelector l) = l ∧
      (parseLabels (buildLabelSelector l)).Perm m) ∧
    buildLabelSelector [] = "" ∧ parseLabels "" = [] := by
  refine ⟨?_, rfl, rfl⟩
  intro l hperm
  have h := parseLabels_buildLabelSelector_of_enumeration l
    ((hperm.map Prod.fst).nodup_iff.mpr hkeys)
    (fun kv hkv => hclean kv (hperm.mem_iff.mp hkv))
  exact ⟨h, by rw [h]; exact hperm⟩

theorem cleanText_app : cleanText "app" := by
  refine ⟨by decide, by decide, ?_, ?_⟩ <;> intro c hc <;>
    simp [String.toList] at hc <;> subst hc <;> decide

theorem cleanText_nginx : cleanText "nginx" := by
  refine ⟨by decide, by decide, ?_, ?_⟩ <;> intro c hc <;>
    simp [String.toList] at hc <;> subst hc <;> decide

theorem cleanText_env : cleanText "env" := by
  refine ⟨by decide, by decide, ?_, ?_⟩ <;> intro c hc <;>
    simp [String.toList] at hc <;> subst hc <;> decide

theorem cleanText_empty : cleanText "" := by
  refine ⟨by decide, by decide, ?_, ?_⟩ <;> intro c hc <;> simp [String.toList] at hc

/-- The round trip on the label map `app=nginx, env=` enumerated in the
other order: the selector is `env=,app=nginx` and parses back to the map. -/
theorem label_map_selector_round_trip_witness :
    buildLabelSelector [("env", ""), ("app", "nginx")] = "env=,app=nginx" ∧
    parseLabels (buildLabelSelector [("env", ""), ("app", "nginx")])
      = [("env", ""), ("app", "nginx")] ∧
    (parseLabels (buildLabelSelector [("env", ""), ("app", "nginx")])).Perm
      [("app", "nginx"), ("env", "")] :=
  ⟨by decide,
    (label_map_selector_round_trip [("app", "nginx"), ("env", "")] (by decide)
      (by
        intro kv hkv
        simp only [List.mem_cons, List.mem_singleton, List.not_mem_nil, or_false] at hkv
        rcases hkv with h | h
        · subst h; exact ⟨cleanText_app, cleanText_nginx⟩
        · subst h; exact ⟨cleanText_env, cleanText_empty⟩)).1
      [("env", ""), ("app", "nginx")] (List.Perm.swap _ _ _)⟩

/-! ## Worker counts and loop bounds of the synthesized commands -/

theorem numbersAfterChars_skip (pat : List Char) :
    ∀ (a b : List Char), noStart pat a = true →
      numbersAfterChars pat (a ++ b) = numbersAfterChars pat b := by
  intro a
  induction a with
  | nil => intro b _; rfl
  | cons c cs ih =>
    intro b h
    simp only [noStart, Bool.and_eq_true, Bool.not_eq_true'] at h
    have hne : pat.isPrefixOf (c :: cs ++ b) = false := by
      cases hx : pat.isPrefixOf (c :: cs ++ b) with
      | false => rfl
      | true =>
        have := agree_of_isPrefixOf pat (c :: cs) b hx
        rw [h.1] at this
        exact absurd this (by decide)
    simp only [List.cons_append] at hne ⊢
    simp only [numbersAfterChars, hne]
    exact ih b h.2

/-- An occurrence of the pattern followed by a formatted integer yields that
integer. -/
theorem numbersAfterChars_hit (pat : List Char) (z : Int) (rest : List Char)
    (hp : pat ≠ []) (ht : noStart pat pat.tail = true) (hr : stops rest) :
    numbersAfterChars pat (pat ++ ((fmtD z).toList ++ rest)) =
      z :: numbersAfterChars pat ((fmtD z).toList ++ rest) := by
  cases pat with
  | nil => exact absurd rfl hp
  | cons p ps =>
    have h := isPrefixOf_append_self (p :: ps) ((fmtD z).toList ++ rest)
    have hd : ((p :: ps) ++ ((fmtD z).toList ++ rest)).drop (p :: ps).length =
        (fmtD z).toList ++ rest := List.drop_left' rfl
    simp only [List.cons_append] at h hd ⊢
    simp only [numbersAfterChars, h, hd, readInt_fmtD z rest hr, if_true]
    simp only [List.tail_cons] at ht
    rw [numbersAfterChars_skip (p :: ps) ps _ ht]
    rfl

theorem noStart_of_not_mem (p : Char) (tl : List Char) :
    ∀ l : List Char, p ∉ l → noStart (p :: tl) l = true := by
  intro l
  induction l with
  | nil => intro _; rfl
  | cons c cs ih =>
    intro h
    have hne : (p == c) = false := by
      cases hx : (p == c) with
      | false => rfl
      | true => exact absurd (List.mem_cons.mpr (Or.inl (beq_iff_eq.1 hx))) h
    simp only [noStart, agree, hne, Bool.false_and, Bool.not_false, Bool.true_and]
    exact ih (fun hm => h (List.mem_cons_of_mem _ hm))

/-- A text that starts with one `-` followed by a non-empty text without
`-` holds no start of a pattern that begins with `--`. -/
theorem noStart_dash_body (tl body : List Char) (hne : body ≠ []) (hb : '-' ∉ body) :
    noStart ('-' :: '-' :: tl) ('-' :: body) = true := by
  cases body with
  | nil => exact absurd rfl hne
  | cons c cs =>
    have hc : ('-' == c) = false := by
      cases hx : ('-' == c) with
      | false => rfl
      | true => exact absurd (List.mem_cons.mpr (Or.inl (beq_iff_eq.1 hx))) hb
    have := noStart_of_not_mem '-' ('-' :: tl) (c :: cs) hb
    simp [noStart, agree, hc] at this ⊢
    exact this

theorem patOK_cases (pat : List Char) (h : patOK pat = true) :
    (∃ tl, pat = Char.ofNat 123 :: tl) ∨ (∃ tl, pat = '-' :: '-' :: tl) := by
  unfold patOK at h
  rcases Bool.or_eq_true _ _ |>.mp h with h1 | h1
  · left
    cases pat with
    | nil => simp at h1
    | cons p tl =>
      simp only [List.head?_cons, beq_iff_eq, Option.some.injEq] at h1
      exact ⟨tl, by rw [h1]⟩
  · right
    match pat, h1 with
    | p :: q :: tl, h1 =>
      simp only [List.take, beq_iff_eq, List.cons.injEq, and_true] at h1
      exact ⟨tl, by rw [h1.1, h1.2]⟩
    | [p], h1 => simp [List.take] at h1
    | [], h1 => simp at h1

theorem fmtFrac_chars :
    ∀ (prec v : Nat) (print : Bool) (acc : List Char), (∀ c ∈ acc, durChar c) →
      ∀ c ∈ (fmtFrac prec v print acc).1, durChar c := by
  intro prec
  induction prec with
  | zero =>
    intro v print acc h c hc
    simp only [fmtFrac] at hc
    split at hc
    · rcases List.mem_cons.mp hc with h1 | h1
      · subst h1; right; simp
      · exact h c h1
    · exact h c hc
  | succ prec ih =>
    intro v print acc h c hc
    simp only [fmtFrac] at hc
    refine ih _ _ _ ?_ c hc
    intro x hx
    split at hx
    · rcases List.mem_cons.mp hx with h1 | h1
      · subst h1; left; exact digitChar_isDigit _ (Nat.mod_lt _ (by decide))
      · exact h x h1
    · exact h x hx

theorem toDigits_chars (n : Nat) : ∀ c ∈ Nat.toDigits 10 n, durChar c :=
  fun c hc => Or.inl ((toDigits_spec n).2.1 c hc)

theorem durChar_append (a b : List Char) (ha : ∀ c ∈ a, durChar c) (hb : ∀ c ∈ b, durChar c) :
    ∀ c ∈ a ++ b, durChar c := by
  intro c hc
  rcases List.mem_append.mp hc with h | h
  · exact ha c h
  · exact hb c h

theorem durChar_cons (x : Char) (b : List Char) (hx : durChar x) (hb : ∀ c ∈ b, durChar c) :
    ∀ c ∈ x :: b, durChar c := by
  intro c hc
  rcases List.mem_cons.mp hc with h | h
  · subst h; exact hx
  · exact hb c h

/-- The text of a duration: an optional sign and a non-empty body of digits,
decimal point and unit letters. -/
theorem duration_chars (d : Duration) :
    ∃ body : List Char, body ≠ [] ∧ (∀ c ∈ body, durChar c) ∧
      (Duration.String d).toList = if d < 0 then '-' :: body else body := by
  have hs : ∀ c ∈ ['s'], durChar c := by intro c hc; right; simp at hc; simp [hc]
  have hns : ∀ c ∈ ['n', 's'], durChar c := by
    intro c hc; right; simp at hc; rcases hc with h | h <;> simp [h]
  have hus : ∀ c ∈ ['µ', 's'], durChar c := by
    intro c hc; right; simp at hc; rcases hc with h | h <;> simp [h]
  have hms : ∀ c ∈ ['m', 's'], durChar c := by
    intro c hc; right; simp at hc; rcases hc with h | h <;> simp [h]
  have h0s : ∀ c ∈ ['0', 's'], durChar c := by
    intro c hc; simp at hc
    rcases hc with h | h
    · left; rw [h]; decide
    · right; simp [h]
  have hm : durChar 'm' := Or.inr (by simp)
  have hh : durChar 'h' := Or.inr (by simp)
  have hne : ∀ (n : Nat) (t : List Char), Nat.toDigits 10 n ++ t ≠ [] := by
    intro n t h
    exact (toDigits_spec n).1 (List.append_eq_nil.mp h).1
  unfold Duration.String
  simp only []
  refine ⟨_, ?_, ?_, rfl⟩
  · split_ifs <;> first | exact hne _ _ | simp
  · split_ifs
    · exact h0s
    · exact durChar_append _ _ (toDigits_chars _) (fmtFrac_chars _ _ _ _ hns)
    · exact durChar_append _ _ (toDigits_chars _) (fmtFrac_chars _ _ _ _ hus)
    · exact durChar_append _ _ (toDigits_chars _) (fmtFrac_chars _ _ _ _ hms)
    · exact durChar_append _ _ (toDigits_chars _) (durChar_cons _ _ hh
        (durChar_append _ _ (toDigits_chars _) (durChar_cons _ _ hm
          (durChar_append _ _ (toDigits_chars _) (fmtFrac_chars _ _ _ _ hs)))))
    · exact durChar_append _ _ (toDigits_chars _) (durChar_cons _ _ hm
          (durChar_append _ _ (toDigits_chars _) (fmtFrac_chars _ _ _ _ hs)))
    · exact durChar_append _ _ (toDigits_chars _) (fmtFrac_chars _ _ _ _ hs)

theorem durChar_ne_dash (c : Char) (h : durChar c) : c ≠ '-' := by
  intro e; subst e
  rcases h with h | h
  · exact absurd h (by decide)
  · exact absurd h (by decide)

theorem durChar_ne_brace (c : Char) (h : durChar c) : c ≠ Char.ofNat 123 := by
  intro e; subst e
  rcases h with h | h
  · exact absurd h (by decide)
  · exact absurd h (by decide)

/-- No occurrence of a pattern that starts with `--` or with an opening
brace begins inside a formatted duration. -/
theorem noStart_dur (pat : List Char) (d : Duration) (h : patOK pat = true) :
    noStart pat (Duration.String d).toList = true := by
  obtain ⟨body, hne, hb, e⟩ := duration_chars d
  rw [e]
  rcases patOK_cases pat h with ⟨tl, rfl⟩ | ⟨tl, rfl⟩
  · refine noStart_of_not_mem _ _ _ ?_
    intro hm
    split at hm
    · rcases List.mem_cons.mp hm with h1 | h1
      · exact absurd h1 (by decide)
      · exact durChar_ne_brace _ (hb _ h1) rfl
    · exact durChar_ne_brace _ (hb _ hm) rfl
  · have hd : '-' ∉ body := fun hm => durChar_ne_dash _ (hb _ hm) rfl
    split
    · exact noStart_dash_body tl body hne hd
    · exact noStart_of_not_mem _ _ _ hd

/-- No occurrence of such a pattern begins inside a formatted integer. -/
theorem noStart_num (pat : List Char) (z : Int) (h : patOK pat = true) :
    noStart pat (fmtD z).toList = true := by
  rcases patOK_cases pat h with ⟨tl, rfl⟩ | ⟨tl, rfl⟩
  · refine noStart_of_not_mem _ _ _ ?_
    rw [fmtD_toList]
    intro hm
    have hdig : ∀ n, Char.ofNat 123 ∉ Nat.toDigits 10 n := by
      intro n hx
      exact absurd ((toDigits_spec n).2.1 _ hx) (by decide)
    split at hm
    · rcases List.mem_cons.mp hm with h1 | h1
      · exact absurd h1 (by decide)
      · exact hdig _ h1
    · exact hdig _ hm
  · exact noStart_fmtD tl z

theorem render_cons (s : Seg) (rest : List Seg) : render (s :: rest) = s.chars ++ render rest := by
  simp [render]

theorem stops_of_nextStops (tail : List Seg) (h : nextStops tail = true) :
    stops (render tail) := by
  match tail, h with
  | Seg.lit (c :: l) :: rest, h =>
    simp only [nextStops, Bool.not_eq_true'] at h
    rw [render_cons]
    exact stops_cons c _ h

/-- The integers that `scanSegs` reads off a sequence of segments are the
integers behind the occurrences of the pattern in its text. -/
theorem scanSegs_sound (pat : List Char) (hp : patOK pat = true) :
    ∀ (segs : List Seg) (ns : List Int), scanSegs pat segs = some ns →
      numbersAfterChars pat (render segs) = ns := by
  have hpne : pat ≠ [] := by
    rcases patOK_cases pat hp with ⟨tl, rfl⟩ | ⟨tl, rfl⟩ <;> simp
  intro segs
  induction segs with
  | nil => intro ns h; simp only [scanSegs, Option.some.injEq] at h; subst h; rfl
  | cons s rest ih =>
    intro ns h
    rw [render_cons]
    cases s with
    | num z =>
      simp only [scanSegs] at h
      rw [Seg.chars, numbersAfterChars_skip _ _ _ (noStart_num pat z hp)]
      exact ih ns h
    | dur d =>
      simp only [scanSegs] at h
      rw [Seg.chars, numbersAfterChars_skip _ _ _ (noStart_dur pat d hp)]
      exact ih ns h
    | lit l =>
      have plain : ∀ ns, (if noStart pat l = true then scanSegs pat rest else none) = some ns →
          numbersAfterChars pat (l ++ render rest) = ns := by
        intro ns h
        split at h
        · rename_i hl
          rw [numbersAfterChars_skip _ _ _ hl]
          exact ih ns h
        · exact absurd h (by simp)
      rw [Seg.chars]
      cases rest with
      | nil => simp only [scanSegs] at h; exact plain ns h
      | cons r tail =>
        cases r with
        | lit l2 => simp only [scanSegs] at h; exact plain ns h
        | dur d2 => simp only [scanSegs] at h; exact plain ns h
        | num z =>
          simp only [scanSegs] at h
          split at h
          · rename_i he
            have he2 : l = pat := by simpa using he
            subst he2
            split at h
            · rename_i hc
              simp only [Bool.and_eq_true] at hc
              cases hsc : scanSegs l (Seg.num z :: tail) with
              | none => simp [scanSegs] at hsc; rw [hsc] at h; simp at h
              | some ms =>
                have hsc2 : scanSegs l tail = some ms := by simpa [scanSegs] using hsc
                rw [hsc2] at h
                simp only [Option.map_some', Option.some.injEq] at h
                subst h
                rw [render_cons, Seg.chars,
                  numbersAfterChars_hit l z (render tail) hpne hc.1 (stops_of_nextStops tail hc.2)]
                have := ih ms hsc
                rw [render_cons, Seg.chars] at this
                rw [this]
            · exact absurd h (by simp)
          · exact plain ns h

theorem cpu_segs (i : Int) (d : Duration) :
    (generateStressCommand StressCommandCPU i d).toList = render (cpuSegs i d) := by
  have e1 : "stress-ng --cpu ".data = "stress-ng ".data ++ "--cpu ".data := by decide
  have e2 : " bash -c 'for i in \x7b1..".data =
      " bash -c 'for i in ".data ++ "\x7b1..".data := by decide
  have e3 : "\x7d; do while true; do :; done & done; wait'; fi".data =
      "\x7d; do while true; do :; done & done; wait'".data ++ "; fi".data := by decide
  have e4 : "; else timeout ".data = "; else ".data ++ "timeout ".data := by decide
  simp [generateStressCommand, cpuInvocation, cpuFallback, cpuSegs, render, Seg.chars,
    String.toList, String.data_append, e1, e2, e3, e4, List.append_assoc]

theorem other_segs (kind : StressCommandType) (i : Int) (d : Duration)
    (h1 : kind ≠ StressCommandMemory) (h2 : kind ≠ StressCommandIO)
    (h3 : kind ≠ StressCommandMixed) :
    (generateStressCommand kind i d).toList = render (cpuSegs i d) := by
  rw [← cpu_segs]
  by_cases h0 : kind = StressCommandCPU
  · rw [h0]
  · have : generateStressCommand kind i d = generateStressCommand StressCommandCPU i d := by
      simp [generateStressCommand, h0, h1, h2, h3]
    rw [this]

theorem memory_segs (i : Int) (d : Duration) :
    (generateStressCommand StressCommandMemory i d).toList = render (memorySegs i d) := by
  have e1 : "stress-ng --vm ".data = "stress-ng ".data ++ "--vm ".data := by decide
  have e2 : " bash -c 'for i in \x7b1..".data =
      " bash -c 'for i in ".data ++ "\x7b1..".data := by decide
  have e3 : " & done; wait'; fi".data = " & done; wait'".data ++ "; fi".data := by decide
  have e4 : "; else timeout ".data = "; else ".data ++ "timeout ".data := by decide
  have hne : ¬ StressCommandMemory = StressCommandCPU := by decide
  simp [generateStressCommand, memoryInvocation, memoryFallback, memorySegs, render, Seg.chars,
    String.toList, String.data_append, e1, e2, e3, e4, List.append_assoc, hne]

theorem io_segs (i : Int) (d : Duration) :
    (generateStressCommand StressCommandIO i d).toList = render (ioSegs i d) := by
  have e1 : "stress-ng --io ".data = "stress-ng ".data ++ "--io ".data := by decide
  have e2 : " bash -c 'for i in \x7b1..".data =
      " bash -c 'for i in ".data ++ "\x7b1..".data := by decide
  have e3 : "\x7d; do dd if=/dev/zero of=/dev/null bs=1M & done; wait'; fi".data =
      "\x7d; do dd if=/dev/zero of=/dev/null bs=1M & done; wait'".data ++ "; fi".data := by
    decide
  have e4 : "; else timeout ".data = "; else ".data ++ "timeout ".data := by decide
  have e5 : " --hdd ".data = " ".data ++ "--hdd ".data := by decide
  have hne : ¬ StressCommandIO = StressCommandCPU := by decide
  have hne2 : ¬ StressCommandIO = StressCommandMemory := by decide
  simp [generateStressCommand, ioInvocation, ioFallback, ioSegs, render, Seg.chars,
    String.toList, String.data_append, e1, e2, e3, e4, e5, List.append_assoc, hne, hne2]

set_option maxRecDepth 100000 in
theorem mixed_segs (i : Int) (d : Duration) :
    (generateStressCommand StressCommandMixed i d).toList = render (mixedSegs i d) := by
  have e1 : "stress-ng --cpu ".data = "stress-ng ".data ++ "--cpu ".data := by decide
  have e2 : " bash -c 'for i in \x7b1..".data =
      " bash -c 'for i in ".data ++ "\x7b1..".data := by decide
  have e3 : "\x7d; do dd if=/dev/zero of=/dev/null bs=1M & done; wait'; fi".data =
      "\x7d; do dd if=/dev/zero of=/dev/null bs=1M & done; wait'".data ++ "; fi".data := by
    decide
  have e4 : "; else timeout ".data = "; else ".data ++ "timeout ".data := by decide
  have e5 : " --vm ".data = " ".data ++ "--vm ".data := by decide
  have e6 : "M --io ".data = "M ".data ++ "--io ".data := by decide
  have e7 : "\x7d; do while true; do :; done & done; for i in \x7b1..".data =
      "\x7d; do while true; do :; done & done; for i in ".data ++ "\x7b1..".data := by decide
  have hne : ¬ StressCommandMixed = StressCommandCPU := by decide
  have hne2 : ¬ StressCommandMixed = StressCommandMemory := by decide
  have hne3 : ¬ StressCommandMixed = StressCommandIO := by decide
  simp [generateStressCommand, mixedInvocation, mixedFallback, mixedSegs, render, Seg.chars,
    String.toList, String.data_append, e1, e2, e3, e4, e5, e6, e7, List.append_assoc, hne, hne2,
    hne3]

set_option maxRecDepth 100000 in
/-- The worker counts and the loop bounds of the command of the CPU kind and
of every unrecognised kind: `intensity*2` each. -/
theorem counts_of_cpu_command (kind : StressCommandType) (i : Int) (d : Duration)
    (h1 : kind ≠ StressCommandMemory) (h2 : kind ≠ StressCommandIO)
    (h3 : kind ≠ StressCommandMixed) :
    workerCounts (generateStressCommand kind i d) = [mulInt i 2] ∧
    loopBounds (generateStressCommand kind i d) = [mulInt i 2] := by
  unfold workerCounts loopBounds
  rw [other_segs kind i d h1 h2 h3,
    scanSegs_sound "--cpu ".toList (by decide) (cpuSegs i d) [mulInt i 2] rfl,
    scanSegs_sound "--vm ".toList (by decide) (cpuSegs i d) [] rfl,
    scanSegs_sound "--io ".toList (by decide) (cpuSegs i d) [] rfl,
    scanSegs_sound "--hdd ".toList (by decide) (cpuSegs i d) [] rfl,
    scanSegs_sound "\x7b1..".toList (by decide) (cpuSegs i d) [mulInt i 2] rfl]
  exact ⟨rfl, rfl⟩

set_option maxRecDepth 100000 in
/-- The worker count and the loop bound of the command of the memory kind:
`intensity` each. -/
theorem counts_of_memory_command (i : Int) (d : Duration) :
    workerCounts (generateStressCommand StressCommandMemory i d) = [i] ∧
    loopBounds (generateStressCommand StressCommandMemory i d) = [i] := by
  unfold workerCounts loopBounds
  rw [memory_segs,
    scanSegs_sound "--cpu ".toList (by decide) (memorySegs i d) [] rfl,
    scanSegs_sound "--vm ".toList (by decide) (memorySegs i d) [i] rfl,
    scanSegs_sound "--io ".toList (by decide) (memorySegs i d) [] rfl,
    scanSegs_sound "--hdd ".toList (by decide) (memorySegs i d) [] rfl,
    scanSegs_sound "\x7b1..".toList (by decide) (memorySegs i d) [i] rfl]
  exact ⟨rfl, rfl⟩

set_option maxRecDepth 100000 in
/-- The worker counts of the command of the IO kind are `intensity` (`--io`)
and `intensity/2` (`--hdd`); its loop bound is `intensity`. -/
theorem counts_of_io_command (i : Int) (d : Duration) :
    workerCounts (generateStressCommand StressCommandIO i d) = [i, divInt i 2] ∧
    loopBounds (generateStressCommand StressCommandIO i d) = [i] := by
  unfold workerCounts loopBounds
  rw [io_segs,
    scanSegs_sound "--cpu ".toList (by decide) (ioSegs i d) [] rfl,
    scanSegs_sound "--vm ".toList (by decide) (ioSegs i d) [] rfl,
    scanSegs_sound "--io ".toList (by decide) (ioSegs i d) [i] rfl,
    scanSegs_sound "--hdd ".toList (by decide) (ioSegs i d) [divInt i 2] rfl,
    scanSegs_sound "\x7b1..".toList (by decide) (ioSegs i d) [i] rfl]
  exact ⟨rfl, rfl⟩

set_option maxRecDepth 100000 in
/-- The worker counts of the command of the mixed kind are `intensity`
(`--cpu`), `intensity/2` (`--vm`) and `intensity/2` (`--io`); its loop
bounds are `intensity` and `intensity/2`. -/
theorem counts_of_mixed_command (i : Int) (d : Duration) :
    workerCounts (generateStressCommand StressCommandMixed i d) =
      [i, divInt i 2, divInt i 2] ∧
    loopBounds (generateStressCommand StressCommandMixed i d) = [i, divInt i 2] := by
  unfold workerCounts loopBounds
  rw [mixed_segs,
    scanSegs_sound "--cpu ".toList (by decide) (mixedSegs i d) [i] rfl,
    scanSegs_sound "--vm ".toList (by decide) (mixedSegs i d) [divInt i 2] rfl,
    scanSegs_sound "--io ".toList (by decide) (mixedSegs i d) [divInt i 2] rfl,
    scanSegs_sound "--hdd ".toList (by decide) (mixedSegs i d) [] rfl,
    scanSegs_sound "\x7b1..".toList (by decide) (mixedSegs i d) [i, divInt i 2] rfl]
  exact ⟨rfl, rfl⟩

theorem mulInt_two_of_scale (i : Int) (h1 : 1 ≤ i) (h10 : i ≤ 10) : mulInt i 2 = i * 2 := by
  unfold mulInt
  exact wrapInt_of_range _ (by omega) (by omega)

theorem divInt_two_pos_iff (i : Int) (h1 : 1 ≤ i) : 1 ≤ divInt i 2 ↔ 2 ≤ i := by
  unfold divInt
  rw [Int.tdiv_eq_ediv (by omega) (by omega)]
  omega

/-- On the intensity scale `[1,10]` every worker count and every loop bound
of the synthesized command is at least 1, except for the IO and the mixed
kind at intensity 1, whose `intensity/2` is 0. -/
theorem counts_at_least_one_iff (kind : StressCommandType) (i : Int) (d : Duration)
    (h1 : 1 ≤ i) (h10 : i ≤ 10) :
    (∀ n ∈ workerCounts (generateStressCommand kind i d) ++
        loopBounds (generateStressCommand kind i d), 1 ≤ n) ↔
      ¬ ((kind = StressCommandIO ∨ kind = StressCommandMixed) ∧ i = 1) := by
  by_cases hio : kind = StressCommandIO
  · subst hio
    rw [(counts_of_io_command i d).1, (counts_of_io_command i d).2]
    have := divInt_two_pos_iff i h1
    simp only [List.cons_append, List.nil_append, List.mem_cons, List.mem_singleton,
      List.not_mem_nil, or_false, forall_eq_or_imp, forall_eq, true_or, true_and]
    constructor
    · intro h; omega
    · intro h; refine ⟨h1, ?_, h1⟩; omega
  · by_cases hmx : kind = StressCommandMixed
    · subst hmx
      rw [(counts_of_mixed_command i d).1, (counts_of_mixed_command i d).2]
      have := divInt_two_pos_iff i h1
      simp only [List.cons_append, List.nil_append, List.mem_cons, List.mem_singleton,
        List.not_mem_nil, or_false, forall_eq_or_imp, forall_eq, or_true, true_and]
      constructor
      · intro h; omega
      · intro h; refine ⟨h1, ?_, ?_, h1, ?_⟩ <;> omega
    · have hr : ¬ ((kind = StressCommandIO ∨ kind = StressCommandMixed) ∧ i = 1) := by
        rintro ⟨h | h, _⟩
        · exact hio h
        · exact hmx h
      simp only [hr, not_false_eq_true, iff_true]
      by_cases hmem : kind = StressCommandMemory
      · subst hmem
        rw [(counts_of_memory_command i d).1, (counts_of_memory_command i d).2]
        intro n hn
        simp only [List.cons_append, List.nil_append, List.mem_cons, List.mem_singleton,
          List.not_mem_nil, or_false, or_self] at hn
        omega
      · rw [(counts_of_cpu_command kind i d hmem hio hmx).1,
          (counts_of_cpu_command kind i d hmem hio hmx).2, mulInt_two_of_scale i h1 h10]
        intro n hn
        simp only [List.cons_append, List.nil_append, List.mem_cons, List.mem_singleton,
          List.not_mem_nil, or_false, or_self] at hn
        omega

set_option maxRecDepth 100000 in
/-- C23 (fails): at intensity 1, the lowest step of the scale, the command of
the mixed kind passes the worker counts `--cpu 1 --vm 0 --io 0` to stress-ng
and its shell fallback has the loop bounds 1 and 0; the command of the IO
kind passes `--io 1 --hdd 0`. The run of `main` with
`-chaos-type=in-pod-mixed-stress -intensity=1` executes such a command in
the victim. -/
theorem lowest_intensity_has_zero_workers :
    workerCounts (generateStressCommand StressCommandMixed 1 30000000000) = [1, 0, 0] ∧
    loopBounds (generateStressCommand StressCommandMixed 1 30000000000) = [1, 0] ∧
    workerCounts (generateStressCommand StressCommandIO 1 30000000000) = [1, 0] ∧
    (execCommands
      (mainChaos (quietWorld [podWeb] (fun _ => 0))
        (flagsWith "" ChaosTypeInPodMixedStress 1)).trace).map workerCounts = [[1, 0, 0]] ∧
    (execCommands
      (mainChaos (quietWorld [podWeb] (fun _ => 0))
        (flagsWith "" ChaosTypeInPodMixedStress 1)).trace).map loopBounds = [[1, 0]] := by
  refine ⟨?_, ?_, ?_, ?_, ?_⟩ <;> decide
/-! ## The order of a map range -/

theorem rangeOrderAux_perm {α : Type} :
    ∀ (n seed : Nat) (l : List α), l.length = n → (rangeOrderAux n seed l).Perm l := by
  intro n
  induction n with
  | zero =>
    intro seed l h
    rw [List.length_eq_zero.mp h]
    exact List.Perm.refl _
  | succ n ih =>
    intro seed l h
    have hi : seed % (n + 1) < l.length := by rw [h]; exact Nat.mod_lt _ (Nat.succ_pos n)
    simp only [rangeOrderAux, List.getElem?_eq_getElem hi]
    have hlen : (l.take (seed % (n + 1)) ++ l.drop (seed % (n + 1) + 1)).length = n := by
      rw [remove_length l _ hi, h]; rfl
    exact ((ih (seed / (n + 1)) _ hlen).cons _).trans (remove_perm l _ hi)

/-- Every seed enumerates a permutation of the entries. -/
theorem rangeOrder_perm {α : Type} (seed : Nat) (l : List α) : (rangeOrder seed l).Perm l :=
  rangeOrderAux_perm l.length seed l rfl

/-- Seed 0 enumerates the entries in the order of insertion. -/
theorem rangeOrder_zero {α : Type} (l : List α) : rangeOrder 0 l = l := by
  unfold rangeOrder
  induction l with
  | nil => rfl
  | cons a t ih =>
    simp only [List.length_cons, rangeOrderAux, Nat.zero_mod, List.getElem?_cons_zero,
      List.take_zero, List.nil_append, Nat.zero_add, List.drop_succ_cons, List.drop_zero,
      Nat.zero_div, ih]

/-- Every permutation of the entries is the enumeration of some seed. -/
theorem rangeOrder_surjective {α : Type} :
    ∀ (l2 l : List α), l2.Perm l → ∃ seed, rangeOrder seed l = l2 := by
  intro l2
  induction l2 with
  | nil =>
    intro l h
    rw [h.symm.eq_nil]
    exact ⟨0, rfl⟩
  | cons x t ih =>
    intro l h
    have hx : x ∈ l := h.subset (List.mem_cons_self _ _)
    obtain ⟨i, hi, e⟩ := List.mem_iff_getElem.mp hx
    have hp : t.Perm (l.take i ++ l.drop (i + 1)) := by
      have h1 := (remove_perm l i hi).symm
      rw [e] at h1
      exact (h.trans h1).cons_inv
    obtain ⟨seed2, hs⟩ := ih _ hp
    have hlen : (l.take i ++ l.drop (i + 1)).length = l.length - 1 := remove_length l i hi
    obtain ⟨n, hn⟩ : ∃ n, l.length = n + 1 := ⟨l.length - 1, by omega⟩
    refine ⟨i + (n + 1) * seed2, ?_⟩
    have hin : i < n + 1 := by omega
    have hm : (i + (n + 1) * seed2) % (n + 1) = i := by
      rw [Nat.add_mul_mod_self_left, Nat.mod_eq_of_lt hin]
    have hd : (i + (n + 1) * seed2) / (n + 1) = seed2 := by
      rw [Nat.add_mul_div_left _ _ (Nat.succ_pos n), Nat.div_eq_of_lt hin, Nat.zero_add]
    unfold rangeOrder at hs ⊢
    rw [hn]
    simp only [rangeOrderAux, hm, hd, List.getElem?_eq_getElem hi, e]
    have hn2 : (l.take i ++ l.drop (i + 1)).length = n := by omega
    rw [hn2] at hs
    rw [hs]

/-- With the label filter `app=nginx,env=prod`, `main` lists with the filter
as typed; the campaign builds its selector from the label map and lists with
`app=nginx,env=prod` or with `env=prod,app=nginx`, depending on the order in
which its `range` enumerates the map. -/
theorem campaign_selector_order_varies :
    listSelectors (mainChaos (rangeWorld 0 [podWeb] (fun _ => 0))
      (flagsWith "app=nginx,env=prod" ChaosTypeCPUStress 5)).trace =
        ["app=nginx,env=prod", "app=nginx,env=prod"] ∧
    listSelectors (mainChaos (rangeWorld 1 [podWeb] (fun _ => 0))
      (flagsWith "app=nginx,env=prod" ChaosTypeCPUStress 5)).trace =
        ["app=nginx,env=prod", "env=prod,app=nginx"] := by
  constructor <;> decide

end Kubechaos
